import Mathlib

/-!
# os-sim: resource pools, allocator, operation catalog, executor and scheduler

Shallow embedding of `src/src/Resource.cpp`, `src/inc/Resource.h`,
`src/src/Application.cpp` and of the allocation, catalog, loading and
scheduling functions of `src/src/Simulator.cpp`.

Modelling conventions

* The two heap arrays `m_arrResources` (`int[]`) and `m_locks` (`bool[]`) are
  lists; `m_quantity` is kept as a field of its own, as in the class.  A state
  is well formed (`Resource.WF`) when both lists have `m_quantity` entries,
  which the constructor establishes and every member function preserves.
* Reading `a[i]` is `a[i]?`, writing `a[i] = v` is `a.set i v`.
* Every `for (int i = 0; i < m_quantity; ++i)` loop is a recursive function
  with the loop variable `i` and the number of remaining iterations as fuel;
  the member function starts it with `i = 0` and fuel `m_quantity`, so the
  loop always runs to its end.  A loop over a container is a recursion on the
  list.
* `int` values are mathematical integers.  The only arithmetic on them is
  `--m_semaphore`, `++m_semaphore` and `++m_usedBlocks`, and signed overflow
  has no defined behaviour in C++, so no wrap-around is modelled for them; a
  conversion of an `int` to `unsigned int` is the reduction modulo `2 ^ 32`.
* The free-slot marker is the literal `-1` of the source.
-/

namespace OsSim

/-! ## Resource (Resource.h, Resource.cpp) -/

/-- Data members of `class Resource`. -/
structure Resource where
  m_arrResources : List Int
  m_locks : List Bool
  m_quantity : Nat
  m_semaphore : Int
deriving DecidableEq, Repr

namespace Resource

/-- Both arrays have `m_quantity` entries. -/
def WF (r : Resource) : Prop :=
  r.m_arrResources.length = r.m_quantity ∧ r.m_locks.length = r.m_quantity

instance (r : Resource) : Decidable r.WF := by
  unfold WF; exact inferInstance

/-- Loop of `Resource::initMemberArrays`:
`for (i; i < m_quantity; ++i) { m_arrResources[i] = -1; m_locks[i] = false; }`. -/
def initLoop : Nat → Nat → Resource → Resource
  | 0, _, r => r
  | fuel + 1, i, r =>
      initLoop fuel (i + 1)
        { r with m_arrResources := r.m_arrResources.set i (-1)
                 m_locks := r.m_locks.set i false }

/-- Member function `Resource::initMemberArrays()`. -/
def initMemberArrays (r : Resource) : Resource :=
  initLoop r.m_quantity 0 r

/-- Constructor `Resource::Resource(int quantity)`: both counters are set to `quantity`,
the arrays are allocated with `quantity` entries (their initial content is
irrelevant, every entry is overwritten) and `initMemberArrays` is run. -/
def construct (quantity : Nat) : Resource :=
  initMemberArrays
    { m_arrResources := List.replicate quantity 0
      m_locks := List.replicate quantity false
      m_quantity := quantity
      m_semaphore := (quantity : Int) }

/-- Accessor `bool available() { return ( m_semaphore > 0 ); }`. -/
def available (r : Resource) : Bool :=
  decide (r.m_semaphore > 0)

/-- Loop of `Resource::getResourceIndex`:
`for (i; i < m_quantity; ++i) if (m_arrResources[i] == pid) return i;`
followed by `return -1`. -/
def getResourceIndexLoop (arr : List Int) (pid : Int) : Nat → Nat → Int
  | 0, _ => -1
  | fuel + 1, i =>
      if arr[i]? = some pid then (i : Int)
      else getResourceIndexLoop arr pid fuel (i + 1)

/-- Member function `int Resource::getResourceIndex(int pid)`. -/
def getResourceIndex (r : Resource) (pid : Int) : Int :=
  getResourceIndexLoop r.m_arrResources pid r.m_quantity 0

/-- Member function `bool Resource::reserve()`: the returned flag and the state afterwards. -/
def reserve (r : Resource) : Bool × Resource :=
  if r.available then
    (true, { r with m_semaphore := r.m_semaphore - 1 })
  else
    (false, r)

/-- Loop of `Resource::lock`:
`for (i; i < m_quantity; ++i) if (m_arrResources[i] == -1)
 { m_arrResources[i] = pid; m_locks[i] = true; }` (the loop has no `break`). -/
def lockLoop (pid : Int) : Nat → Nat → Resource → Resource
  | 0, _, r => r
  | fuel + 1, i, r =>
      lockLoop pid fuel (i + 1)
        (if r.m_arrResources[i]? = some (-1) then
          { r with m_arrResources := r.m_arrResources.set i pid
                   m_locks := r.m_locks.set i true }
         else r)

/-- Member function `void Resource::lock(int pid)`. -/
def lock (r : Resource) (pid : Int) : Resource :=
  let index := r.getResourceIndex pid
  if index = -1 then lockLoop pid r.m_quantity 0 r else r

/-- Member function `void Resource::free(int pid)`. -/
def free (r : Resource) (pid : Int) : Resource :=
  let index := r.getResourceIndex pid
  if index ≥ 0 then
    { r with m_locks := r.m_locks.set index.toNat false
             m_arrResources := r.m_arrResources.set index.toNat (-1)
             m_semaphore := r.m_semaphore + 1 }
  else r

/-- Slot `i` of the ownership table holds the value `p`. -/
def slotHolds (r : Resource) (i : Nat) (p : Int) : Prop :=
  i < r.m_quantity ∧ r.m_arrResources[i]? = some p

instance (r : Resource) (i : Nat) (p : Int) : Decidable (r.slotHolds i p) := by
  unfold slotHolds; exact inferInstance

/-- A two-slot pool in use: slot 0 is held by owner 5, slot 1 is free. -/
def sampleHeld : Resource :=
  { m_arrResources := [5, -1], m_locks := [true, false], m_quantity := 2,
    m_semaphore := 1 }

/-- The flags returned by `k` consecutive `reserve()` calls, and the state
after them. -/
def reserveTimes : Nat → Resource → List Bool × Resource
  | 0, r => ([], r)
  | k + 1, r =>
      let first := r.reserve
      let rest := reserveTimes k first.2
      (first.1 :: rest.1, rest.2)

/-- State of a pool of capacity `n` between two I/O operations of a
sequential run: the availability count is back at `n` and, when the pool is
not empty, slot 0 is free. -/
def idle (r : Resource) (n : Nat) : Prop :=
  r.m_quantity = n ∧ r.m_semaphore = (n : Int) ∧
    (1 ≤ n → r.m_arrResources[0]? = some (-1))

end Resource

/-! ## Sequences of calls on one pool -/

/-- One call of a modifier of `Resource`. -/
inductive Call where
  | reserve : Call
  | lock (pid : Int) : Call
  | free (pid : Int) : Call
deriving DecidableEq, Repr

/-- State after one call (the flag returned by `reserve()` is dropped). -/
def Call.apply (c : Call) (r : Resource) : Resource :=
  match c with
  | Call.reserve => r.reserve.2
  | Call.lock pid => r.lock pid
  | Call.free pid => r.free pid

/-- State after a sequence of calls, first call first. -/
def runCalls (cs : List Call) (r : Resource) : Resource :=
  cs.foldl (fun s c => c.apply s) r

/-- The call is `reserve()` or `free(pid)`. -/
def Call.isReserveOrFree : Call → Bool
  | Call.reserve => true
  | Call.lock _ => false
  | Call.free _ => true

/-- The call does not pass the free-slot marker `-1` as owner. -/
def Call.pidNotMarker : Call → Bool
  | Call.reserve => true
  | Call.lock pid => decide (pid ≠ -1)
  | Call.free pid => decide (pid ≠ -1)

/-- One acquire/release cycle of the executor for owner `p`: `reserve()`
(which has to return true), then `lock(p)`, then `free(p)`.  The result is
`none` when `reserve()` returns false. -/
def cycle (r : Resource) (p : Int) : Option Resource :=
  let res := r.reserve
  if res.1 then some ((res.2.lock p).free p) else none

/-- A sequence of complete cycles, one per listed owner. -/
def runCycles : List Int → Resource → Option Resource
  | [], r => some r
  | p :: ps, r =>
      match cycle r p with
      | some r1 => runCycles ps r1
      | none => none

/-- Number of slots of the ownership table that hold an owner, that is a
value other than the marker `-1`. -/
def heldSlots (r : Resource) : Nat :=
  (r.m_arrResources.take r.m_quantity).countP (fun x => decide (x ≠ -1))

/-- Number of slots of the ownership table marked free (`-1`). -/
def freeSlots (r : Resource) : Nat :=
  (r.m_arrResources.take r.m_quantity).countP (fun x => decide (x = -1))

/-- Owner `p` appears in at most one slot of the ownership table. -/
def ownerAtMostOnce (r : Resource) (p : Int) : Prop :=
  ∀ i j : Nat, r.slotHolds i p → r.slotHolds j p → i = j

/-! ## Application (SimDataStructs.h, Application.h, Application.cpp) -/

/-- Enumeration `MetaCode`. -/
inductive MetaCode where
  | M_OPER_SYS | M_PROGRAM_APP | M_PROCESS | M_INPUT | M_OUTPUT | M_MEMORY
deriving DecidableEq, Repr

/-- Enumeration `MetaDesc`. -/
inductive MetaDesc where
  | M_START | M_RUN | M_END | M_ALLOC | M_PRINTER | M_KEYBOARD
  | M_HARD_DRIVE | M_MONITOR | M_CACHE
deriving DecidableEq, Repr

/-- Record `Metadata`. -/
structure Metadata where
  code : MetaCode
  descriptor : MetaDesc
  cycles : Int
deriving DecidableEq, Repr

/-- Record `Operation`. -/
structure Operation where
  data : Metadata
  timePerCycle : Nat
deriving DecidableEq, Repr

/-- The four pools the simulator creates once and hands to every application
by pointer. -/
structure Pools where
  m_printers : Resource
  m_harddrives : Resource
  m_keyboards : Resource
  m_monitors : Resource
deriving DecidableEq, Repr

/-- Enumeration `ProcessState`. -/
inductive ProcessState where
  | NEW | READY | RUNNING | EXIT
deriving DecidableEq, Repr

/-- Record `ProcessCtrlBlock`; `pPriority` is never written or read and is
left out. -/
structure ProcessCtrlBlock where
  pid : Nat
  pCounter : Nat
  pState : ProcessState
deriving DecidableEq, Repr

/-- One entry of an application's log.  A `line` is the text handed to
`Application::output` (the time stamp and the `Application <id>: ` label that
`output` puts in front are left out); a `hold` records, at its place between
the lines, a call of `Application::sleep` with its argument in
milliseconds. -/
inductive LogEntry where
  | line (output : String) : LogEntry
  | hold (msecs : Nat) : LogEntry
deriving DecidableEq, Repr

/-- Data members of `class Application` (the pools and the simulator are
shared and passed alongside).  The defaults are the values the constructor
`Application::Application` sets. -/
structure Application where
  m_appID : Nat
  m_errorStr : String
  m_PCB : ProcessCtrlBlock :=
    { pid := m_appID, pCounter := 0, pState := ProcessState.NEW }
  m_opQueue : List Operation := []
  m_logStr : List LogEntry := []
deriving DecidableEq, Repr

/-- Conversion of an `int` to `unsigned int` (32 bits). -/
def toUInt (x : Int) : Nat :=
  (x % 2 ^ 32).toNat

/-- Largest `unsigned int`, the constant `UINT_MAX`. -/
def UINT_MAX : Nat := 2 ^ 32 - 1

/-- Argument `op.data.cycles * op.timePerCycle` of the calls of `sleep`: an
`int` times an `unsigned int`, computed in `unsigned int`. -/
def holdTime (op : Operation) : Nat :=
  (toUInt op.data.cycles * op.timePerCycle) % 2 ^ 32

/-- Member function `Application::sleep(msecs)`: waits until the clock has
reached the target; the only trace it leaves in the model is the request. -/
def Application.sleep (app : Application) (msecs : Nat) : Application :=
  { app with m_logStr := app.m_logStr ++ [LogEntry.hold msecs] }

/-- Member function `Application::output(output)`: appends the line to
`m_logStr`. -/
def Application.output (app : Application) (output : String) : Application :=
  { app with m_logStr := app.m_logStr ++ [LogEntry.line output] }

/-- Conversion of the `unsigned int` application id to the `int` parameter
`pid` of the `Resource` member functions (32-bit two's complement). -/
def pidOfAppID (appID : Nat) : Int :=
  if appID % 2 ^ 32 < 2 ^ 31 then ((appID % 2 ^ 32 : Nat) : Int)
  else ((appID % 2 ^ 32 : Nat) : Int) - 2 ^ 32

open MetaDesc in
/-- Function `threadRunner`: locks the pool named by the descriptor for the
application, then holds for the operation's duration. -/
def threadRunner (app : Application) (ps : Pools) (op : Operation) :
    Application × Pools :=
  let locked : Pools :=
    if op.data.descriptor = M_PRINTER then
      { ps with m_printers := ps.m_printers.lock (pidOfAppID app.m_appID) }
    else if op.data.descriptor = M_HARD_DRIVE then
      { ps with m_harddrives := ps.m_harddrives.lock (pidOfAppID app.m_appID) }
    else if op.data.descriptor = M_KEYBOARD then
      { ps with m_keyboards := ps.m_keyboards.lock (pidOfAppID app.m_appID) }
    else if op.data.descriptor = M_MONITOR then
      { ps with m_monitors := ps.m_monitors.lock (pidOfAppID app.m_appID) }
    else ps
  (app.sleep (holdTime op), locked)

/-- First block of `Application::handleIO` for one pool:
`if (pool->available()) pool->reserve(); else m_errorStr = msg;`. -/
def semaphoreCheck (pool : Resource) (err msg : String) : Resource × String :=
  if pool.available then (pool.reserve.2, err) else (pool, msg)

open MetaDesc in
/-- Member function `int Application::handleIO(const Operation& op)`: the returned slot
index, the application afterwards and the pools afterwards.  The thread that
is created and joined at once is the plain call of `threadRunner`. -/
def handleIO (app : Application) (ps : Pools) (op : Operation) :
    Int × Application × Pools :=
  -- Resource semaphore checks
  let checked : Pools × String :=
    if op.data.descriptor = M_PRINTER then
      let c := semaphoreCheck ps.m_printers app.m_errorStr "Out of m_printers"
      ({ ps with m_printers := c.1 }, c.2)
    else if op.data.descriptor = M_HARD_DRIVE then
      let c := semaphoreCheck ps.m_harddrives app.m_errorStr "Out of hard drives"
      ({ ps with m_harddrives := c.1 }, c.2)
    else if op.data.descriptor = M_KEYBOARD then
      let c := semaphoreCheck ps.m_keyboards app.m_errorStr "Out of m_keyboards"
      ({ ps with m_keyboards := c.1 }, c.2)
    else if op.data.descriptor = M_MONITOR then
      let c := semaphoreCheck ps.m_monitors app.m_errorStr "Out of m_monitors"
      ({ ps with m_monitors := c.1 }, c.2)
    else (ps, app.m_errorStr)
  let app1 : Application := { app with m_errorStr := checked.2 }
  -- no errors: run the thread and join it
  let joined : Application × Pools :=
    if app1.m_errorStr.isEmpty then threadRunner app1 checked.1 op
    else (app1, checked.1)
  let app2 := joined.1
  let ps2 := joined.2
  -- Free resources
  let pid := pidOfAppID app2.m_appID
  if op.data.descriptor = M_PRINTER then
    (ps2.m_printers.getResourceIndex pid, app2,
      { ps2 with m_printers := ps2.m_printers.free pid })
  else if op.data.descriptor = M_HARD_DRIVE then
    (ps2.m_harddrives.getResourceIndex pid, app2,
      { ps2 with m_harddrives := ps2.m_harddrives.free pid })
  else if op.data.descriptor = M_KEYBOARD then
    (ps2.m_keyboards.getResourceIndex pid, app2,
      { ps2 with m_keyboards := ps2.m_keyboards.free pid })
  else if op.data.descriptor = M_MONITOR then
    (ps2.m_monitors.getResourceIndex pid, app2,
      { ps2 with m_monitors := ps2.m_monitors.free pid })
  else (-1, app2, ps2)

/-- Result of one I/O operation in a sequential run. -/
structure IOResult where
  resourceIndex : Int
  errorStr : String
  pools : Pools
deriving DecidableEq, Repr

/-- I/O operations executed one after another, each by the application whose
id is listed with it.  Every call starts with an empty error string, because
`executeInstructions` returns at the first operation that sets one and the
scheduler then stops; accordingly the run ends after such an operation.  The
list holds the result of every operation that was executed. -/
def runIOs : List (Nat × Operation) → Pools → List IOResult
  | [], _ => []
  | (appID, op) :: rest, ps =>
      let res := handleIO { m_appID := appID, m_errorStr := "" } ps op
      let here : IOResult :=
        { resourceIndex := res.1, errorStr := res.2.1.m_errorStr, pools := res.2.2 }
      if res.2.1.m_errorStr.isEmpty then here :: runIOs rest res.2.2
      else [here]

/-- The simulator's pools right after `loadConfig` created them. -/
def freshPools (np nh nk nm : Nat) : Pools :=
  { m_printers := Resource.construct np
    m_harddrives := Resource.construct nh
    m_keyboards := Resource.construct nk
    m_monitors := Resource.construct nm }

/-- Availability counts of the four pools. -/
def Pools.semaphores (ps : Pools) : Int × Int × Int × Int :=
  (ps.m_printers.m_semaphore, ps.m_harddrives.m_semaphore,
    ps.m_keyboards.m_semaphore, ps.m_monitors.m_semaphore)

/-- Capacity of the pool an I/O operation with the given descriptor uses;
0 for a descriptor that names no device. -/
def Pools.capacityFor (ps : Pools) : MetaDesc → Nat
  | MetaDesc.M_PRINTER => ps.m_printers.m_quantity
  | MetaDesc.M_HARD_DRIVE => ps.m_harddrives.m_quantity
  | MetaDesc.M_KEYBOARD => ps.m_keyboards.m_quantity
  | MetaDesc.M_MONITOR => ps.m_monitors.m_quantity
  | _ => 0

/-- An input operation on the keyboard. -/
def keyboardInput (cycles : Int) (timePerCycle : Nat) : Operation :=
  { data := { code := MetaCode.M_INPUT, descriptor := MetaDesc.M_KEYBOARD,
              cycles := cycles }
    timePerCycle := timePerCycle }

/-- An output operation on the printer. -/
def printerOutput (cycles : Int) (timePerCycle : Nat) : Operation :=
  { data := { code := MetaCode.M_OUTPUT, descriptor := MetaDesc.M_PRINTER,
              cycles := cycles }
    timePerCycle := timePerCycle }

end OsSim

/-! ## Simulator (SimDataStructs.h, Simulator.h, Simulator.cpp)

Additional conventions

* `unsigned int` values are naturals below `2 ^ 32`; every `unsigned int`
  operation is reduced modulo `2 ^ 32` where it is computed.
* The conversions `std::stoul` / `std::stoi` of the C++ library and the
  outcome of opening the log file are not part of the repository; they are
  parameters of the model (`Env`).  `none` stands for a thrown exception.
* A result of type `Except Fault _` is `Except.error` when an exception
  leaves the function (`Fault.exception`) or when the function reads a
  variable that was never written (`Fault.undefined`).
* Text that is written with a time stamp is kept without the time stamp.
-/

namespace OsSim

/-- Enumeration `ConfigCategory`. -/
inductive ConfigCategory where
  | C_VERSION | C_FILE_PATH | C_PROCESSOR | C_MONITOR | C_QUAN_MONITOR
  | C_HARD_DRIVE | C_QUAN_HDD | C_PRINTER | C_QUAN_PRINTER | C_KEYBOARD
  | C_QUAN_KEYBOARD | C_MEMORY | C_SYS_MEMORY | C_BLOCK_MEMORY | C_LOG
  | C_LOG_FILE_PATH
deriving DecidableEq, Repr

/-- Record `Configdata`. -/
structure Configdata where
  category : ConfigCategory
  units : String
  data : String
deriving DecidableEq, Repr

open ConfigCategory in
/-- Function `configCatToString` (the quantity of monitors is printed as
"Printer quantity" in the source). -/
def configCatToString : ConfigCategory → String
  | C_VERSION => "Version/Phase"
  | C_FILE_PATH => "File Path"
  | C_PROCESSOR => "Processor"
  | C_MONITOR => "Monitor"
  | C_HARD_DRIVE => "Hard drive"
  | C_PRINTER => "Printer"
  | C_KEYBOARD => "Keyboard"
  | C_MEMORY => "Memory"
  | C_SYS_MEMORY => "System memory"
  | C_QUAN_PRINTER => "Printer quantity"
  | C_QUAN_HDD => "Hard drive quantity"
  | C_QUAN_MONITOR => "Printer quantity"
  | C_QUAN_KEYBOARD => "Keyboard quantity"
  | C_BLOCK_MEMORY => "Memory block size"
  | C_LOG => "Log"
  | C_LOG_FILE_PATH => "Log File Path"

open MetaCode in
/-- Function `metaCodeToString`. -/
def metaCodeToString : MetaCode → String
  | M_OPER_SYS => "S"
  | M_PROGRAM_APP => "A"
  | M_PROCESS => "P"
  | M_INPUT => "I"
  | M_OUTPUT => "O"
  | M_MEMORY => "M"

open MetaDesc in
/-- Function `metaDescToString`. -/
def metaDescToString : MetaDesc → String
  | M_START => "start"
  | M_RUN => "run"
  | M_END => "end"
  | M_ALLOC => "allocate"
  | M_PRINTER => "printer"
  | M_KEYBOARD => "keyboard"
  | M_HARD_DRIVE => "hard drive"
  | M_MONITOR => "monitor"
  | M_CACHE => "cache"

/-- Function `metadataToString`; `std::to_string` of an `int` is the decimal
numeral with a leading minus sign for a negative value. -/
def metadataToString (meta : Metadata) : String :=
  metaCodeToString meta.code ++ "(" ++ metaDescToString meta.descriptor ++ ")" ++
    toString meta.cycles

/-- What the model takes from outside the repository: `std::stoul` (its
`unsigned long` result), `std::stoi`, and whether the stream is good after
the log file has been opened.  `none` stands for a thrown exception. -/
structure Env where
  stoul : String → Option Nat
  stoi : String → Option Int
  fileGood : String → Bool

/-- Value of a string of decimal digits, `none` when the string is empty or
holds another character. -/
def decimalValue (s : String) : Option Nat :=
  if s.data.isEmpty then none
  else
    s.data.foldl
      (fun acc c =>
        match acc with
        | none => none
        | some n => if c.isDigit then some (10 * n + (c.toNat - 48)) else none)
      (some 0)

/-- An environment for worked examples: both conversions read plain decimal
numerals (and throw on anything else), and the log file can be opened. -/
def decimalEnv : Env :=
  { stoul := decimalValue
    stoi := fun s => (decimalValue s).map (fun n => (n : Int))
    fileGood := fun _ => true }

/-- Why a function of the model has no result. -/
inductive Fault where
  | exception | undefined
deriving DecidableEq, Repr

/-- Data members of `class Simulator`.  The four `Resource` pointers are the
field `pools`; `m_fileOutput` is the list of the pieces of text appended to
it, in order; the file names and the start time are left out. -/
structure Simulator where
  m_applications : List Application
  m_config : List Configdata
  m_metadata : List Metadata
  m_operations : List Operation
  pools : Pools
  m_initialized : Bool
  m_fileOutput : List String
  m_logFilePath : String
  m_logToFile : Bool
  m_logToMonitor : Bool
  m_usedBlocks : Int
  m_error : String
deriving DecidableEq, Repr

open ConfigCategory in
/-- The `try` block of `Simulator::getMemoryAddress`: the loop over
`m_config` that overwrites `totalMemory` and `blockSize` (both `unsigned
int`, hence the reduction of the `unsigned long` that `std::stoul` returns);
`none` when `std::stoul` throws. -/
def memoryConfigLoop (env : Env) : List Configdata → Nat × Nat → Option (Nat × Nat)
  | [], acc => some acc
  | data :: rest, (totalMemory, blockSize) =>
      let total1 : Option Nat :=
        if data.category = C_SYS_MEMORY then
          (env.stoul data.data).map (fun v => v % 2 ^ 32)
        else some totalMemory
      match total1 with
      | none => none
      | some t =>
          let block1 : Option Nat :=
            if data.category = C_BLOCK_MEMORY then
              (env.stoul data.data).map (fun v => v % 2 ^ 32)
            else some blockSize
          match block1 with
          | none => none
          | some b => memoryConfigLoop env rest (t, b)

/-- Member function `unsigned int Simulator::getMemoryAddress()`: the
returned value and the simulator afterwards. -/
def getMemoryAddress (env : Env) (sim : Simulator) : Nat × Simulator :=
  match memoryConfigLoop env sim.m_config (UINT_MAX, UINT_MAX) with
  | none =>
      (UINT_MAX,
        { sim with m_error := "Invalid configuration data for System memory/block size" })
  | some (totalMemory, blockSize) =>
      let address := (blockSize * toUInt sim.m_usedBlocks) % 2 ^ 32
      if address > totalMemory then (UINT_MAX, sim)
      else (address, { sim with m_usedBlocks := sim.m_usedBlocks + 1 })

/-- The simulator after `k` consecutive calls of `getMemoryAddress`. -/
def allocTimes (env : Env) : Nat → Simulator → Simulator
  | 0, sim => sim
  | k + 1, sim => allocTimes env k ( getMemoryAddress env sim).2

/-- Text of `std::hex` output of an `unsigned int` with `std::setw(8)` and
`std::setfill('0')`: the lowercase hexadecimal digits, padded with zeros on
the left to eight characters. -/
def hex8 (address : Nat) : String :=
  let digits := Nat.toDigits 16 address
  String.mk (List.replicate (8 - digits.length) '0' ++ digits)

/-- Member function `bool Application::handleAllocate(const Operation& op)`. -/
def handleAllocate (env : Env) (app : Application) (sim : Simulator) (op : Operation) :
    Bool × Application × Simulator :=
  let r := getMemoryAddress env sim
  if r.1 = UINT_MAX then
    (false, { app with m_errorStr := "Out of memory" }, r.2)
  else
    (true, (app.sleep (holdTime op)).output ("memory allocated at " ++ ("0x" ++ hex8 r.1)),
      r.2)

/-- An input or output case of the `switch` in `executeInstructions`:
the start line, `handleIO`, and the end line with the returned index. -/
def ioCase (app : Application) (sim : Simulator) (op : Operation)
    (startLine endLabel : String) : Application × Simulator :=
  let r := handleIO (app.output startLine) sim.pools op
  (r.2.1.output (endLabel ++ toString r.1), { sim with pools := r.2.2 })

open MetaCode MetaDesc in
/-- Body of the `switch` in `Application::executeInstructions` for one
operation.  Each `default:` branch is `assert("...")` on a string literal,
which never fails: those branches do nothing. -/
def executeOp (env : Env) (app : Application) (sim : Simulator) (op : Operation) :
    Application × Simulator :=
  match op.data.code, op.data.descriptor with
  | M_PROCESS, M_RUN =>
      (((app.output "processing action: start").sleep (holdTime op)).output
        "processing action: end", sim)
  | M_INPUT, M_KEYBOARD =>
      ioCase app sim op "keyboard input: start" "keyboard input: end - KBD "
  | M_INPUT, M_HARD_DRIVE =>
      ioCase app sim op "hard drive input: start" "hard drive input: end - HDD "
  | M_OUTPUT, M_PRINTER =>
      ioCase app sim op "printer output: start" "printer output: end - PRNT "
  | M_OUTPUT, M_HARD_DRIVE =>
      ioCase app sim op "hard drive output: start" "hard drive output: end - HDD "
  | M_OUTPUT, M_MONITOR =>
      ioCase app sim op "monitor output: start" "monitor output: end - MOTR "
  | M_MEMORY, M_ALLOC =>
      let r := handleAllocate env (app.output "allocating memory") sim op
      (r.2.1, r.2.2)
  | M_MEMORY, M_CACHE =>
      (((app.output "memory caching: start").sleep (holdTime op)).output
        "memory caching: end", sim)
  | _, _ => (app, sim)

/-- The `while( !m_opQueue.empty() )` loop of `executeInstructions`, by
recursion on the queue: the front operation is executed; when the error string
is then not empty the function returns false with the operation still queued,
otherwise the operation is popped and the program counter (an `unsigned int`)
incremented. -/
def executeLoop (env : Env) : List Operation → Application → Simulator →
    Bool × Application × Simulator
  | [], app, sim => (true, app, sim)
  | op :: rest, app, sim =>
      let r := executeOp env app sim op
      if r.1.m_errorStr.isEmpty then
        executeLoop env rest
          { r.1 with
            m_opQueue := rest
            m_PCB := { r.1.m_PCB with pCounter := (r.1.m_PCB.pCounter + 1) % 2 ^ 32 } }
          r.2
      else (false, r.1, r.2)

/-- Member function `bool Application::executeInstructions()`. -/
def executeInstructions (env : Env) (app : Application) (sim : Simulator) :
    Bool × Application × Simulator :=
  executeLoop env app.m_opQueue app sim

end OsSim

namespace OsSim

/-- The scan of `m_config` in `Simulator::getConfigData`, with the record
`configData` read last: `Sum.inl` is the entry of the category with valid
units at which the function returns, `Sum.inr` the content of `configData`
when the loop is left by `break` or ends (`none` when `m_config` is empty
and `configData` was never assigned). -/
def scanConfig (category : ConfigCategory) :
    List Configdata → Option Configdata → Sum Configdata (Option Configdata)
  | [], last => Sum.inr last
  | configData :: rest, _ =>
      if configData.category = category then
        if configData.units = "msec" ∨ configData.units = "kbytes" then
          Sum.inl configData
        else Sum.inr (some configData)
      else scanConfig category rest (some configData)

/-- Member function `int Simulator::getConfigData(ConfigCategory category)`.
`std::stoi` may throw; with an empty `m_config` the error text is built from
a `configData` whose category was never written. -/
def getConfigData (env : Env) (sim : Simulator) (category : ConfigCategory) :
    Except Fault (Int × Simulator) :=
  match scanConfig category sim.m_config none with
  | Sum.inl configData =>
      match env.stoi configData.data with
      | some v => Except.ok (v, sim)
      | none => Except.error Fault.exception
  | Sum.inr (some configData) =>
      Except.ok (-1,
        { sim with
          m_error := "Invalid units \"" ++ configData.units ++ "\"" ++
            "not recognized for \"" ++ configCatToString configData.category ++ "\"" })
  | Sum.inr none => Except.error Fault.undefined

/-- The error text of the `default:` branches of `contructOperations`; the
branch for input entries spells "metadate". -/
def invalidDescriptorError (data : Metadata) : String :=
  "Metadata descriptor \"" ++ metaDescToString data.descriptor ++
    (if data.code = MetaCode.M_INPUT then "\" is not valid for metadate code \""
     else "\" is not valid for m_metadata code \"") ++
    metaCodeToString data.code ++ "\""

/-- The assignment `timePerCycle = getConfigData( category )`: the `int`
result converted to `unsigned int`. -/
def cycleTimeFrom (env : Env) (sim : Simulator) (category : ConfigCategory) :
    Except Fault (Nat × Simulator) :=
  match getConfigData env sim category with
  | Except.ok r => Except.ok (toUInt r.1, r.2)
  | Except.error f => Except.error f

open MetaCode MetaDesc ConfigCategory in
/-- The `switch` of `Simulator::contructOperations` for one entry: the value
of `timePerCycle` and the simulator afterwards. -/
def timePerCycleOf (env : Env) (sim : Simulator) (data : Metadata) :
    Except Fault (Nat × Simulator) :=
  match data.code, data.descriptor with
  | M_OPER_SYS, M_START => Except.ok (0, sim)
  | M_OPER_SYS, M_END => Except.ok (0, sim)
  | M_PROGRAM_APP, M_START => Except.ok (0, sim)
  | M_PROGRAM_APP, M_END => Except.ok (0, sim)
  | M_PROCESS, M_RUN => cycleTimeFrom env sim C_PROCESSOR
  | M_INPUT, M_KEYBOARD => cycleTimeFrom env sim C_KEYBOARD
  | M_INPUT, M_HARD_DRIVE => cycleTimeFrom env sim C_HARD_DRIVE
  | M_OUTPUT, M_PRINTER => cycleTimeFrom env sim C_PRINTER
  | M_OUTPUT, M_HARD_DRIVE => cycleTimeFrom env sim C_HARD_DRIVE
  | M_OUTPUT, M_MONITOR => cycleTimeFrom env sim C_KEYBOARD
  | M_MEMORY, M_ALLOC => cycleTimeFrom env sim C_MEMORY
  | M_MEMORY, M_CACHE => cycleTimeFrom env sim C_MEMORY
  | _, _ => Except.ok (0, { sim with m_error := invalidDescriptorError data })

/-- The loop `for( Metadata data : m_metadata )` of `contructOperations`. -/
def contructLoop (env : Env) : List Metadata → Simulator → Except Fault (Bool × Simulator)
  | [], sim => Except.ok (true, sim)
  | data :: rest, sim =>
      match timePerCycleOf env sim data with
      | Except.error f => Except.error f
      | Except.ok r =>
          if r.2.m_error.isEmpty then
            contructLoop env rest
              { r.2 with
                m_operations := r.2.m_operations ++
                  [{ data := data, timePerCycle := r.1 }] }
          else Except.ok (false, r.2)

/-- Member function `bool Simulator::contructOperations()`. -/
def contructOperations (env : Env) (sim : Simulator) : Except Fault (Bool × Simulator) :=
  contructLoop env sim.m_metadata sim

/-- The pair is in the table of legal pairings. -/
def legalPair : MetaCode → MetaDesc → Bool
  | MetaCode.M_OPER_SYS, MetaDesc.M_START => true
  | MetaCode.M_OPER_SYS, MetaDesc.M_END => true
  | MetaCode.M_PROGRAM_APP, MetaDesc.M_START => true
  | MetaCode.M_PROGRAM_APP, MetaDesc.M_END => true
  | MetaCode.M_PROCESS, MetaDesc.M_RUN => true
  | MetaCode.M_INPUT, MetaDesc.M_KEYBOARD => true
  | MetaCode.M_INPUT, MetaDesc.M_HARD_DRIVE => true
  | MetaCode.M_OUTPUT, MetaDesc.M_PRINTER => true
  | MetaCode.M_OUTPUT, MetaDesc.M_HARD_DRIVE => true
  | MetaCode.M_OUTPUT, MetaDesc.M_MONITOR => true
  | MetaCode.M_MEMORY, MetaDesc.M_ALLOC => true
  | MetaCode.M_MEMORY, MetaDesc.M_CACHE => true
  | _, _ => false

/-- The entry's pair is in the table of legal pairings. -/
def Metadata.legal (data : Metadata) : Bool :=
  legalPair data.code data.descriptor

/-- The configuration defines the cycle time of the category with valid
units: the first entry of the category has units "msec" or "kbytes" and data
that `std::stoi` converts. -/
def definesCycleTime (env : Env) (config : List Configdata) (category : ConfigCategory) :
    Prop :=
  ∃ configData v, scanConfig category config none = Sum.inl configData ∧
    env.stoi configData.data = some v

open ConfigCategory in
/-- The configuration defines every cycle time with valid units. -/
def definesCycleTimes (env : Env) (config : List Configdata) : Prop :=
  definesCycleTime env config C_PROCESSOR ∧ definesCycleTime env config C_MONITOR ∧
    definesCycleTime env config C_HARD_DRIVE ∧ definesCycleTime env config C_PRINTER ∧
    definesCycleTime env config C_KEYBOARD ∧ definesCycleTime env config C_MEMORY

/-- The cycle time the configuration gives for a category, as the
`unsigned int` the catalog stores; `none` when the category is not defined
with valid units. -/
def configuredCycleTime (env : Env) (config : List Configdata)
    (category : ConfigCategory) : Option Nat :=
  match scanConfig category config none with
  | Sum.inl configData => (env.stoi configData.data).map toUInt
  | Sum.inr _ => none

open MetaCode MetaDesc ConfigCategory in
/-- Cost source of the table of legal pairings: 0 for system and program
entries, otherwise the category whose cycle time is the cost. -/
def costSource : MetaCode → MetaDesc → Option ConfigCategory
  | M_PROCESS, M_RUN => some C_PROCESSOR
  | M_INPUT, M_KEYBOARD => some C_KEYBOARD
  | M_INPUT, M_HARD_DRIVE => some C_HARD_DRIVE
  | M_OUTPUT, M_PRINTER => some C_PRINTER
  | M_OUTPUT, M_HARD_DRIVE => some C_HARD_DRIVE
  | M_OUTPUT, M_MONITOR => some C_MONITOR
  | M_MEMORY, M_ALLOC => some C_MEMORY
  | M_MEMORY, M_CACHE => some C_MEMORY
  | _, _ => none

end OsSim

namespace OsSim

/-- Member function `Simulator::outputSysOperation(pid, output, outputTime)`;
`outputTime` only decides whether a time stamp is put in front. -/
def outputSysOperation (sim : Simulator) (pid : Nat) (output : String)
    (_outputTime : Bool) : Simulator :=
  { sim with
    m_fileOutput := sim.m_fileOutput ++ ["OS: " ++ output ++ " " ++ toString pid ++ "\n"] }

open ConfigCategory in
/-- The loop of `Simulator::outputConfig` over `m_config`: the text built so
far and the value of `m_logFilePath`. -/
def outputConfigLoop : List Configdata → String × String → String × String
  | [], acc => acc
  | tempConfig :: rest, (configOutput, logFilePath) =>
      if tempConfig.units = "msec" then
        outputConfigLoop rest
          (configOutput ++ configCatToString tempConfig.category ++
            (" = " ++ tempConfig.data ++ " ms/cycle\n"), logFilePath)
      else if tempConfig.category = C_QUAN_PRINTER ∨ tempConfig.category = C_QUAN_HDD ∨
          tempConfig.category = C_QUAN_MONITOR ∨ tempConfig.category = C_QUAN_KEYBOARD then
        outputConfigLoop rest
          (configOutput ++ configCatToString tempConfig.category ++
            (" = " ++ tempConfig.data ++ "\n"), logFilePath)
      else if tempConfig.category = C_LOG_FILE_PATH then
        outputConfigLoop rest (configOutput, tempConfig.data)
      else outputConfigLoop rest (configOutput, logFilePath)

/-- Member function `bool Simulator::outputConfig()` (it always returns
true). -/
def outputConfig (sim : Simulator) : Simulator :=
  let looped := outputConfigLoop sim.m_config ("Configuration File Data\n", sim.m_logFilePath)
  let logged := looped.1 ++ "Logged to: "
  let target :=
    if sim.m_logToFile ∧ sim.m_logToMonitor then
      logged ++ ("monitor and " ++ looped.2 ++ "\n")
    else if sim.m_logToMonitor then logged ++ "monitor\n"
    else if sim.m_logToFile then logged ++ (looped.2 ++ "\n")
    else logged
  { sim with
    m_logFilePath := looped.2
    m_fileOutput := sim.m_fileOutput ++ [target ++ "\n"] }

/-- The loop of `Simulator::outputMetrics` over `m_operations`. -/
def outputMetricsLoop : List Operation → String → String
  | [], metricOutput => metricOutput
  | tempMetric :: rest, metricOutput =>
      if tempMetric.data.cycles ≠ 0 then
        outputMetricsLoop rest
          (metricOutput ++ metadataToString tempMetric.data ++ " - " ++
            (toString (holdTime tempMetric) ++ " ms") ++ "\n")
      else outputMetricsLoop rest metricOutput

/-- Member function `bool Simulator::outputMetrics()` (it always returns
true). -/
def outputMetrics (sim : Simulator) : Simulator :=
  { sim with
    m_fileOutput := sim.m_fileOutput ++
      [outputMetricsLoop sim.m_operations "Meta-Data Metrics\n" ++ "\n"] }

/-- The local pointer `Application *app` of `loadOperations`: it is declared
without an initial value, set to the application created last at a program
start and to `NULL` at a program end. -/
inductive AppPtr where
  | indeterminate | null | lastCreated
deriving DecidableEq, Repr

/-- The statement `app->m_opQueue.push( op )` when `app` points to the
application created last. -/
def pushToLast : List Application → Operation → List Application
  | [], _ => []
  | [app], op => [{ app with m_opQueue := app.m_opQueue ++ [op] }]
  | app :: next :: rest, op => app :: pushToLast (next :: rest) op

/-- Local variables and simulator inside the loop of `loadOperations`. -/
structure LoadState where
  appIndex : Nat
  app : AppPtr
  sim : Simulator
deriving DecidableEq, Repr

open MetaCode MetaDesc in
/-- The `switch` of the loop of `Simulator::loadOperations` for one interior
operation.  Reading `app` before it was ever written has no defined
result. -/
def loadStep (st : LoadState) (op : Operation) : Except Fault LoadState :=
  match op.data.code, op.data.descriptor with
  | M_OPER_SYS, M_START =>
      let error := "Operating system can not be started again in m_metadata. Aborting..."
      Except.ok { st with sim := { st.sim with m_error := error } }
  | M_OPER_SYS, M_END =>
      let error := "Operating system can not be ended until end of m_metadata. Aborting..."
      Except.ok { st with sim := { st.sim with m_error := error } }
  | M_OPER_SYS, _ => Except.ok st
  | M_PROGRAM_APP, M_START =>
      let appIndex := (st.appIndex + 1) % 2 ^ 32
      let created : Application := { m_appID := appIndex, m_errorStr := "" }
      Except.ok
        { appIndex := appIndex
          app := AppPtr.lastCreated
          sim := outputSysOperation
            { st.sim with m_applications := st.sim.m_applications ++ [created] }
            appIndex "loading application" false }
  | M_PROGRAM_APP, M_END => Except.ok { st with app := AppPtr.null }
  | M_PROGRAM_APP, _ => Except.ok st
  | _, _ =>
      match st.app with
      | AppPtr.indeterminate => Except.error Fault.undefined
      | AppPtr.null =>
          let error := "No application to assign operation \"" ++
            metadataToString op.data ++ "\""
          Except.ok { st with sim := { st.sim with m_error := error } }
      | AppPtr.lastCreated =>
          let pushed := pushToLast st.sim.m_applications op
          Except.ok { st with sim := { st.sim with m_applications := pushed } }

/-- The loop `for( opIndex = 1; opIndex < m_operations.size() - 1; opIndex++ )`
of `loadOperations` over the interior operations: `Sum.inl` when the function
returns false inside the loop, `Sum.inr` when the loop ends. -/
def loadLoop : List Operation → LoadState → Except Fault (Sum Simulator LoadState)
  | [], st => Except.ok (Sum.inr st)
  | op :: rest, st =>
      match loadStep st op with
      | Except.error f => Except.error f
      | Except.ok st1 =>
          if st1.sim.m_error.isEmpty then loadLoop rest st1
          else Except.ok (Sum.inl st1.sim)

/-- The operation is `S(start)`. -/
def Operation.isSystemStart (op : Operation) : Bool :=
  decide (op.data.code = MetaCode.M_OPER_SYS ∧ op.data.descriptor = MetaDesc.M_START)

/-- The operation is `S(end)`. -/
def Operation.isSystemEnd (op : Operation) : Bool :=
  decide (op.data.code = MetaCode.M_OPER_SYS ∧ op.data.descriptor = MetaDesc.M_END)

/-- The operations the loop of `loadOperations` visits, in order.  The
counter `opIndex` is an `unsigned int` compared with `m_operations.size() - 1`:
for at most `2 ^ 32` operations it runs from 1 to `size() - 2`; for more it
reaches `2 ^ 32 - 1`, wraps to 0 and visits the first operation, where the loop
is always left (that operation is `S(start)`, which sets an error). -/
def interiorOps (ops : List Operation) : List Operation :=
  if ops.length ≤ 2 ^ 32 then (ops.drop 1).dropLast
  else (ops.drop 1).take (2 ^ 32 - 1) ++ ops.take 1

/-- Member function `bool Simulator::loadOperations()`.  `front()` and
`back()` of an empty `m_operations` have no defined result. -/
def loadOperations (sim : Simulator) : Except Fault (Bool × Simulator) :=
  let sim1 := outputMetrics (outputConfig sim)
  match sim1.m_operations.head? with
  | none => Except.error Fault.undefined
  | some front =>
      if ¬ front.isSystemStart then
        Except.ok (false,
          { sim1 with m_error := "Operating system not started in m_metadata" })
      else
        match loadLoop (interiorOps sim1.m_operations)
            { appIndex := 0, app := AppPtr.indeterminate, sim := sim1 } with
        | Except.error f => Except.error f
        | Except.ok (Sum.inl sim2) => Except.ok (false, sim2)
        | Except.ok (Sum.inr st) =>
            match st.sim.m_operations.getLast? with
            | none => Except.error Fault.undefined
            | some back =>
                if ¬ back.isSystemEnd then
                  Except.ok (false,
                    { st.sim with m_error := "Operating system not ended in m_metadata" })
                else Except.ok (true, st.sim)

/-- Accessor `Application::getLogStr()`: the lines of the log as `output`
wrote them (without their time stamps). -/
def Application.getLogStr (app : Application) : List String :=
  app.m_logStr.filterMap fun entry =>
    match entry with
    | LogEntry.line output =>
        some ("Application " ++ toString app.m_appID ++ ": " ++ output ++ "\n")
    | LogEntry.hold _ => none

/-- Result of the scheduler loop: the returned flag, the applications of the
run list as they are afterwards, the simulator afterwards, and, for the
statement of properties only, the simulator state at each call of
`executeInstructions`, in order. -/
structure SchedulerResult where
  ok : Bool
  apps : List Application
  sim : Simulator
  entered : List Simulator
deriving DecidableEq, Repr

/-- First statements of the body of the scheduler loop: state READY, the
line "starting application", state RUNNING. -/
def startApplication (app : Application) (sim : Simulator) : Application × Simulator :=
  let ready : Application :=
    { app with m_PCB := { app.m_PCB with pState := ProcessState.READY } }
  let sim1 := outputSysOperation sim ready.m_appID "starting application" true
  ({ ready with m_PCB := { ready.m_PCB with pState := ProcessState.RUNNING } }, sim1)

/-- Last statements of the body of the scheduler loop, after a successful
`executeInstructions`: the line "terminating application", state EXIT,
`m_usedBlocks = 0`, and the application's log appended to `m_fileOutput`. -/
def finishApplication (app : Application) (sim : Simulator) : Application × Simulator :=
  let sim3 := outputSysOperation sim app.m_appID "terminating application" true
  let exited : Application :=
    { app with m_PCB := { app.m_PCB with pState := ProcessState.EXIT } }
  (exited,
    { sim3 with
      m_usedBlocks := 0
      m_fileOutput := sim3.m_fileOutput ++ exited.getLogStr })

/-- The simulator error `runScheduler` sets when an application failed and
the simulator's own error string is empty. -/
def failedApplicationError (app : Application) : String :=
  "Application " ++ toString app.m_appID ++ " failed to execute instructions " ++
    "\"" ++ app.m_errorStr ++ "\""

/-- The loop `for( Application *app : m_applications )` of
`Simulator::runScheduler`. -/
def schedulerLoop (env : Env) : List Application → Simulator → SchedulerResult
  | [], sim => { ok := true, apps := [], sim := sim, entered := [] }
  | app :: rest, sim =>
      let started := startApplication app sim
      let r := executeInstructions env started.1 started.2
      if r.1 = false then
        let sim2 : Simulator :=
          if r.2.2.m_error.isEmpty then
            { r.2.2 with m_error := failedApplicationError r.2.1 }
          else r.2.2
        { ok := false, apps := r.2.1 :: rest, sim := sim2, entered := [started.2] }
      else
        let finished := finishApplication r.2.1 r.2.2
        let tail := schedulerLoop env rest finished.2
        { ok := tail.ok, apps := finished.1 :: tail.apps, sim := tail.sim,
          entered := started.2 :: tail.entered }

/-- The simulator when the loop of `runScheduler` is entered: the line
"Simulator program starting" has been appended to `m_fileOutput`. -/
def schedulerStart (sim : Simulator) : Simulator :=
  { sim with m_fileOutput := sim.m_fileOutput ++ ["Simulator program starting\n"] }

/-- Member function `bool Simulator::runScheduler()`. -/
def runScheduler (env : Env) (sim : Simulator) : SchedulerResult :=
  let sim0 : Simulator :=
    { sim with m_fileOutput := sim.m_fileOutput ++ ["Simulator program starting\n"] }
  let r := schedulerLoop env sim0.m_applications sim0
  { r with sim := { r.sim with m_applications := r.apps } }

/-- Member function `bool Simulator::outputResultsToFile()`. -/
def outputResultsToFile (env : Env) (sim : Simulator) : Bool × Simulator :=
  if sim.m_logToFile ∧ ¬ sim.m_logFilePath.isEmpty ∧ ¬ env.fileGood sim.m_logFilePath then
    (false, { sim with m_error := "Output file not found" })
  else (true, sim)

/-- Member function `bool Simulator::run()`. -/
def run (env : Env) (sim : Simulator) : Except Fault (Bool × Simulator) :=
  if ¬ sim.m_initialized then
    Except.ok (false, { sim with m_error := "Simulator not m_initialized\n" })
  else
    match loadOperations sim with
    | Except.error f => Except.error f
    | Except.ok (false, sim1) => Except.ok (false, sim1)
    | Except.ok (true, sim1) =>
        let r := runScheduler env sim1
        if r.ok = false then Except.ok (false, r.sim)
        else Except.ok (outputResultsToFile env r.sim)

/-- A simulator right after a successful `initialize()`: the configuration,
the metadata and the operations built from them are loaded, the pools are
fresh, nothing has run and no error is set. -/
def initialized (config : List Configdata) (ops : List Operation) (pools : Pools) :
    Simulator :=
  { m_applications := []
    m_config := config
    m_metadata := ops.map (fun op => op.data)
    m_operations := ops
    pools := pools
    m_initialized := true
    m_fileOutput := []
    m_logFilePath := ""
    m_logToFile := false
    m_logToMonitor := true
    m_usedBlocks := 0
    m_error := "" }

end OsSim

namespace OsSim

/-- The log entry is a line "memory allocated at ...", the line that
`handleAllocate` writes after a successful allocation. -/
def LogEntry.isAllocLine : LogEntry → Bool
  | LogEntry.line output => "memory allocated at ".data.isPrefixOf output.data
  | LogEntry.hold _ => false

/-- The text `sub` occurs in `s`. -/
def containsText (s sub : String) : Bool :=
  s.data.tails.any (fun t => sub.data.isPrefixOf t)

open ConfigCategory in
/-- A configuration for worked examples: 100 kbytes of memory in blocks of
50 kbytes, and a different cycle time for every category. -/
def sampleConfig : List Configdata :=
  [ { category := C_PROCESSOR, units := "msec", data := "10" },
    { category := C_MONITOR, units := "msec", data := "20" },
    { category := C_HARD_DRIVE, units := "msec", data := "15" },
    { category := C_PRINTER, units := "msec", data := "25" },
    { category := C_KEYBOARD, units := "msec", data := "50" },
    { category := C_MEMORY, units := "msec", data := "30" },
    { category := C_SYS_MEMORY, units := "kbytes", data := "100" },
    { category := C_BLOCK_MEMORY, units := "kbytes", data := "50" } ]

open ConfigCategory in
/-- A memory configuration with the given data strings and nothing else. -/
def memoryOnlyConfig (systemMemory blockSize : String) : List Configdata :=
  [ { category := C_SYS_MEMORY, units := "kbytes", data := systemMemory },
    { category := C_BLOCK_MEMORY, units := "kbytes", data := blockSize } ]

/-- A simulator that has loaded the given configuration and metadata and
nothing else yet (the state in which `contructOperations` is called). -/
def loaded (config : List Configdata) (metadata : List Metadata) : Simulator :=
  { m_applications := []
    m_config := config
    m_metadata := metadata
    m_operations := []
    pools := freshPools 1 1 1 1
    m_initialized := false
    m_fileOutput := []
    m_logFilePath := ""
    m_logToFile := false
    m_logToMonitor := false
    m_usedBlocks := 0
    m_error := "" }

/-- An operation with cycle time 0, as the catalog builds it for system and
program entries. -/
def marker (code : MetaCode) (descriptor : MetaDesc) : Operation :=
  { data := { code := code, descriptor := descriptor, cycles := 0 }, timePerCycle := 0 }

/-- A memory allocation of the given number of cycles. -/
def allocateOp (cycles : Int) (timePerCycle : Nat) : Operation :=
  { data := { code := MetaCode.M_MEMORY, descriptor := MetaDesc.M_ALLOC, cycles := cycles }
    timePerCycle := timePerCycle }

/-- A processing action of the given number of cycles. -/
def processRun (cycles : Int) (timePerCycle : Nat) : Operation :=
  { data := { code := MetaCode.M_PROCESS, descriptor := MetaDesc.M_RUN, cycles := cycles }
    timePerCycle := timePerCycle }

/-- A metadata stream with legal pairings only. -/
def legalMetadata : List Metadata :=
  [ { code := MetaCode.M_OPER_SYS, descriptor := MetaDesc.M_START, cycles := 0 },
    { code := MetaCode.M_PROGRAM_APP, descriptor := MetaDesc.M_START, cycles := 0 },
    { code := MetaCode.M_PROCESS, descriptor := MetaDesc.M_RUN, cycles := 3 },
    { code := MetaCode.M_OUTPUT, descriptor := MetaDesc.M_PRINTER, cycles := 2 },
    { code := MetaCode.M_PROGRAM_APP, descriptor := MetaDesc.M_END, cycles := 0 },
    { code := MetaCode.M_OPER_SYS, descriptor := MetaDesc.M_END, cycles := 0 } ]

/-- The fault of a result that is none, if it is one. -/
def faultOf {α : Type} : Except Fault α → Option Fault
  | Except.error f => some f
  | Except.ok _ => none

/-- A simulator about to schedule two programs in the sample configuration:
program 1 allocates twice, program 2 computes and then allocates once. -/
def twoPrograms : Simulator :=
  { loaded sampleConfig [] with
    m_applications :=
      [ { m_appID := 1, m_errorStr := "", m_opQueue := [allocateOp 1 30, allocateOp 1 30] },
        { m_appID := 2, m_errorStr := "", m_opQueue := [processRun 3 10, allocateOp 2 30] } ] }

end OsSim

/-! ## Definitions for program construction and execution properties -/

namespace OsSim

/-- The operation is a process, input, output or memory operation (the group
`case M_PROCESS: case M_INPUT: case M_OUTPUT: case M_MEMORY:` of
`loadOperations`). -/
def Operation.isWork (op : Operation) : Bool :=
  decide (op.data.code = MetaCode.M_PROCESS ∨ op.data.code = MetaCode.M_INPUT ∨
    op.data.code = MetaCode.M_OUTPUT ∨ op.data.code = MetaCode.M_MEMORY)

/-- The operation is `A(start)`. -/
def Operation.isProgramStart (op : Operation) : Bool :=
  decide (op.data.code = MetaCode.M_PROGRAM_APP ∧ op.data.descriptor = MetaDesc.M_START)

/-- The operation is `A(end)`. -/
def Operation.isProgramEnd (op : Operation) : Bool :=
  decide (op.data.code = MetaCode.M_PROGRAM_APP ∧ op.data.descriptor = MetaDesc.M_END)

/-- As the specification words it: the queue of a program is the sequence of
process, input, output and memory operations that follow its program start up
to the next program start or program end.  The argument is the stream behind
the program start. -/
def queueAfterStart : List Operation → List Operation
  | [] => []
  | op :: rest =>
      if op.isProgramStart ∨ op.isProgramEnd then []
      else if op.isWork then op :: queueAfterStart rest
      else queueAfterStart rest

/-- As the specification words it: one program per program start of the
stream, in stream order, with consecutive ids (`created` programs exist
already) and the queue `queueAfterStart` gives; each program is as the
constructor leaves it (state NEW, program counter 0, empty log and error). -/
def expectedPrograms (created : Nat) : List Operation → List Application
  | [] => []
  | op :: rest =>
      if op.isProgramStart then
        { m_appID := created + 1, m_errorStr := "", m_opQueue := queueAfterStart rest } ::
          expectedPrograms (created + 1) rest
      else expectedPrograms created rest

/-- Availability count of the pool an I/O operation with the given
descriptor uses; `none` for a descriptor that names no device. -/
def Pools.semaphoreFor (ps : Pools) : MetaDesc → Option Int
  | MetaDesc.M_PRINTER => some ps.m_printers.m_semaphore
  | MetaDesc.M_HARD_DRIVE => some ps.m_harddrives.m_semaphore
  | MetaDesc.M_KEYBOARD => some ps.m_keyboards.m_semaphore
  | MetaDesc.M_MONITOR => some ps.m_monitors.m_semaphore
  | _ => none

/-- The text `handleIO` stores in `m_errorStr` when the pool a descriptor
names is not available; empty for a descriptor that names no device. -/
def exhaustionMessage : MetaDesc → String
  | MetaDesc.M_PRINTER => "Out of m_printers"
  | MetaDesc.M_HARD_DRIVE => "Out of hard drives"
  | MetaDesc.M_KEYBOARD => "Out of m_keyboards"
  | MetaDesc.M_MONITOR => "Out of m_monitors"
  | _ => ""

/-- Name of the pool a descriptor uses, as the specification spells it. -/
def poolName : MetaDesc → String
  | MetaDesc.M_PRINTER => "printers"
  | MetaDesc.M_HARD_DRIVE => "hard drives"
  | MetaDesc.M_KEYBOARD => "keyboards"
  | MetaDesc.M_MONITOR => "monitors"
  | _ => ""

/-- The operation is one of the five input and output kinds the executor
handles. -/
def Operation.isDeviceTransfer (op : Operation) : Bool :=
  match op.data.code, op.data.descriptor with
  | MetaCode.M_INPUT, MetaDesc.M_KEYBOARD => true
  | MetaCode.M_INPUT, MetaDesc.M_HARD_DRIVE => true
  | MetaCode.M_OUTPUT, MetaDesc.M_PRINTER => true
  | MetaCode.M_OUTPUT, MetaDesc.M_HARD_DRIVE => true
  | MetaCode.M_OUTPUT, MetaDesc.M_MONITOR => true
  | _, _ => false

/-- The pair is one of the combinations the `switch` of
`executeInstructions` has a case for. -/
def handledPair : MetaCode → MetaDesc → Bool
  | MetaCode.M_PROCESS, MetaDesc.M_RUN => true
  | MetaCode.M_INPUT, MetaDesc.M_KEYBOARD => true
  | MetaCode.M_INPUT, MetaDesc.M_HARD_DRIVE => true
  | MetaCode.M_OUTPUT, MetaDesc.M_PRINTER => true
  | MetaCode.M_OUTPUT, MetaDesc.M_HARD_DRIVE => true
  | MetaCode.M_OUTPUT, MetaDesc.M_MONITOR => true
  | MetaCode.M_MEMORY, MetaDesc.M_ALLOC => true
  | MetaCode.M_MEMORY, MetaDesc.M_CACHE => true
  | _, _ => false

/-- The log entry is a hold. -/
def LogEntry.isHold : LogEntry → Bool
  | LogEntry.line _ => false
  | LogEntry.hold _ => true

/-- A program as the constructor leaves it, with the given queue. -/
def freshProgram (appID : Nat) (queue : List Operation) : Application :=
  { m_appID := appID, m_errorStr := "", m_opQueue := queue }

/-- The stream S(start)0, A(start)0, P(run)3, A(end)0, S(end)0 as the catalog
builds it with processor cycle time 10. -/
def singleRunStream : List Operation :=
  [marker MetaCode.M_OPER_SYS MetaDesc.M_START,
    marker MetaCode.M_PROGRAM_APP MetaDesc.M_START, processRun 3 10,
    marker MetaCode.M_PROGRAM_APP MetaDesc.M_END,
    marker MetaCode.M_OPER_SYS MetaDesc.M_END]

/-- A stream with two programs: the first computes and prints, the second
allocates. -/
def twoProgramStream : List Operation :=
  [marker MetaCode.M_OPER_SYS MetaDesc.M_START,
    marker MetaCode.M_PROGRAM_APP MetaDesc.M_START, processRun 3 10, printerOutput 2 25,
    marker MetaCode.M_PROGRAM_APP MetaDesc.M_END,
    marker MetaCode.M_PROGRAM_APP MetaDesc.M_START, allocateOp 1 30,
    marker MetaCode.M_PROGRAM_APP MetaDesc.M_END,
    marker MetaCode.M_OPER_SYS MetaDesc.M_END]

/-- A stream in which a printer output follows the end of the only program:
S(start)0, A(start)0, P(run)3, A(end)0, O(printer)2, S(end)0. -/
def orphanStream : List Operation :=
  [marker MetaCode.M_OPER_SYS MetaDesc.M_START,
    marker MetaCode.M_PROGRAM_APP MetaDesc.M_START, processRun 3 10,
    marker MetaCode.M_PROGRAM_APP MetaDesc.M_END, printerOutput 2 25,
    marker MetaCode.M_OPER_SYS MetaDesc.M_END]

/-- A simulator about to schedule three programs where the printer pool is
empty: program 1 computes, program 2 prints (and fails), program 3 computes. -/
def failingSecond : Simulator :=
  { loaded sampleConfig [] with
    pools := freshPools 0 1 1 1
    m_applications :=
      [ freshProgram 1 [processRun 3 10],
        freshProgram 2 [processRun 1 10, printerOutput 2 25, processRun 4 10],
        freshProgram 3 [processRun 5 10] ] }

end OsSim

/-! ## Definitions for lifecycle, trace and format properties -/

namespace OsSim

/-- The text `outputSysOperation` appends to the trace for a system event of a
program (without the time stamp). -/
def sysLine (output : String) (pid : Nat) : String :=
  "OS: " ++ output ++ " " ++ toString pid ++ "\n"

/-- As the specification words it: what a successful run appends to the
overall trace for one program, given the program as its run leaves it: the
"starting application" line, the "terminating application" line, and then the
program's buffered log. -/
def programBlock (app : Application) : List String :=
  [sysLine "starting application" app.m_appID,
    sysLine "terminating application" app.m_appID] ++ app.getLogStr

/-- Position of a state in the order NEW, READY, RUNNING, EXIT. -/
def ProcessState.rank : ProcessState → Nat
  | ProcessState.NEW => 0
  | ProcessState.READY => 1
  | ProcessState.RUNNING => 2
  | ProcessState.EXIT => 3

/-- One step of the lifecycle: the state stays or moves to the next one. -/
def ProcessState.forward (a b : ProcessState) : Prop :=
  b.rank = a.rank ∨ b.rank = a.rank + 1

instance (a b : ProcessState) : Decidable (a.forward b) := by
  unfold ProcessState.forward; exact inferInstance

/-- Every state of the list is followed by itself or by the next state of
the lifecycle. -/
def forwardOnly : List ProcessState → Bool
  | a :: b :: rest => decide (a.forward b) && forwardOnly (b :: rest)
  | _ => true

/-- The application after the statement `app->m_PCB.pState = READY` of the
scheduler loop. -/
def readyApplication (app : Application) : Application :=
  { app with m_PCB := { app.m_PCB with pState := ProcessState.READY } }

/-- For every application of the run list, the values its `m_PCB.pState` has,
in order, at the program points of the loop of `runScheduler`: on entry of the
function, after `pState = READY`, after `pState = RUNNING`, when
`executeInstructions` has returned and, after a run that returned true, after
`pState = EXIT`.  An application the loop does not reach keeps the value it
had on entry. -/
def stateHistory (env : Env) : List Application → Simulator → List (List ProcessState)
  | [], _ => []
  | app :: rest, sim =>
      let started := startApplication app sim
      let r := executeInstructions env started.1 started.2
      if r.1 = false then
        [app.m_PCB.pState, (readyApplication app).m_PCB.pState, started.1.m_PCB.pState,
          r.2.1.m_PCB.pState] :: rest.map (fun a => [a.m_PCB.pState])
      else
        let finished := finishApplication r.2.1 r.2.2
        [app.m_PCB.pState, (readyApplication app).m_PCB.pState, started.1.m_PCB.pState,
          r.2.1.m_PCB.pState, finished.1.m_PCB.pState] :: stateHistory env rest finished.2

/-- The pool an operation with the given descriptor uses; `none` for a
descriptor that names no device. -/
def Pools.poolFor (ps : Pools) : MetaDesc → Option Resource
  | MetaDesc.M_PRINTER => some ps.m_printers
  | MetaDesc.M_HARD_DRIVE => some ps.m_harddrives
  | MetaDesc.M_KEYBOARD => some ps.m_keyboards
  | MetaDesc.M_MONITOR => some ps.m_monitors
  | _ => none

/-- The start line and the label of the end line of the five input and
output cases of `executeInstructions`. -/
def ioLines : MetaCode → MetaDesc → Option (String × String)
  | MetaCode.M_INPUT, MetaDesc.M_KEYBOARD =>
      some ("keyboard input: start", "keyboard input: end - KBD ")
  | MetaCode.M_INPUT, MetaDesc.M_HARD_DRIVE =>
      some ("hard drive input: start", "hard drive input: end - HDD ")
  | MetaCode.M_OUTPUT, MetaDesc.M_PRINTER =>
      some ("printer output: start", "printer output: end - PRNT ")
  | MetaCode.M_OUTPUT, MetaDesc.M_HARD_DRIVE =>
      some ("hard drive output: start", "hard drive output: end - HDD ")
  | MetaCode.M_OUTPUT, MetaDesc.M_MONITOR =>
      some ("monitor output: start", "monitor output: end - MOTR ")
  | _, _ => none

/-- Value of a lowercase hexadecimal digit; `none` for another character. -/
def hexDigitValue (c : Char) : Option Nat :=
  if '0' ≤ c ∧ c ≤ '9' then some (c.toNat - 48)
  else if 'a' ≤ c ∧ c ≤ 'f' then some (c.toNat - 87)
  else none

/-- Value of a string of lowercase hexadecimal digits read as a base-16
number; `none` when a character is not such a digit. -/
def hexValue (digits : List Char) : Option Nat :=
  digits.foldl
    (fun acc c =>
      match acc, hexDigitValue c with
      | some n, some d => some (16 * n + d)
      | _, _ => none)
    (some 0)

/-- The `k` lowest hexadecimal digits of `n`, most significant first. -/
def hexFixed : Nat → Nat → List Char
  | 0, _ => []
  | k + 1, n => hexFixed k (n / 16) ++ [Nat.digitChar (n % 16)]

/-- A simulator about to schedule the single program of `singleRunStream`. -/
def oneProgram : Simulator :=
  { loaded sampleConfig [] with m_applications := [freshProgram 1 [processRun 3 10]] }

end OsSim

/-! ## Parsing a metadata token (Simulator.cpp)

A `std::string` is the list of its characters, one per byte; `toupper` is
taken in the "C" locale (`Char.toUpper`). -/

namespace OsSim

/-- First position of the character in the text
(`std::string::find_first_of` with a set of one character); `none` stands for
`npos`. -/
def firstIndex (c : Char) : List Char → Option Nat
  | [] => none
  | x :: rest => if x = c then some 0 else (firstIndex c rest).map (fun i => i + 1)

/-- Last position of the character in the text
(`std::string::find_last_of` with a set of one character); `none` stands for
`npos`. -/
def lastIndex (c : Char) : List Char → Option Nat
  | [] => none
  | x :: rest =>
      match lastIndex c rest with
      | some i => some (i + 1)
      | none => if x = c then some 0 else none

/-- The constant `std::string::npos` of a 64-bit `size_t`. -/
def NPOS : Nat := 2 ^ 64 - 1

/-- Assignment of the `size_t` result of a search to an `unsigned int`
variable. -/
def toUnsigned (pos : Option Nat) : Nat :=
  (pos.getD NPOS) % 2 ^ 32

/-- Member function `std::string::substr(pos, count)`: `none` when it throws
`std::out_of_range` (`pos` beyond the size); the count is cut at the end of
the text. -/
def substr (s : List Char) (pos count : Nat) : Option (List Char) :=
  if pos > s.length then none else some ((s.drop pos).take count)

open MetaCode in
/-- The `switch( tokenCode )` of `parseMetaToken`. -/
def codeOfChar (tokenCode : Char) : Option MetaCode :=
  if tokenCode = 'A' then some M_PROGRAM_APP
  else if tokenCode = 'I' then some M_INPUT
  else if tokenCode = 'M' then some M_MEMORY
  else if tokenCode = 'O' then some M_OUTPUT
  else if tokenCode = 'P' then some M_PROCESS
  else if tokenCode = 'S' then some M_OPER_SYS
  else none

open MetaDesc in
/-- The chain of `tokenDesc.compare( ... ) == 0` tests of `parseMetaToken`. -/
def descOfText (tokenDesc : List Char) : Option MetaDesc :=
  if tokenDesc = "START".data then some M_START
  else if tokenDesc = "RUN".data then some M_RUN
  else if tokenDesc = "END".data then some M_END
  else if tokenDesc = "ALLOCATE".data then some M_ALLOC
  else if tokenDesc = "PRINTER".data then some M_PRINTER
  else if tokenDesc = "KEYBOARD".data then some M_KEYBOARD
  else if tokenDesc = "HARDDRIVE".data then some M_HARD_DRIVE
  else if tokenDesc = "MONITOR".data then some M_MONITOR
  else if tokenDesc = "CACHE".data then some M_CACHE
  else none

/-- Member function `bool Simulator::parseMetaToken(string metaToken,
Metadata &data)`: the returned flag, `data` afterwards and the simulator
afterwards.  `front()` of an empty token has no defined result; an exception
of `substr` leaves the function.  The indices are `unsigned int`; the size of
the token is a `size_t`, and the count of the second `substr` matters only
when its position is within the token, where the subtraction does not wrap. -/
def parseMetaToken (env : Env) (sim : Simulator) (metaToken : String) (data : Metadata) :
    Except Fault (Bool × Metadata × Simulator) :=
  match metaToken.data.head? with
  | none => Except.error Fault.undefined
  | some front =>
      -- Get m_metadata code from token
      match codeOfChar front.toUpper with
      | none =>
          Except.ok (false, data,
            { sim with
              m_error := "Unknown m_metadata code in entry \"" ++ metaToken ++ "\"" })
      | some code =>
          let data1 : Metadata := { data with code := code }
          -- Get m_metadata descriptor from token
          let paraOpenIndex := toUnsigned (firstIndex '(' metaToken.data)
          let paraClosedIndex := toUnsigned (lastIndex ')' metaToken.data)
          let descStart := (paraOpenIndex + 1) % 2 ^ 32
          match substr metaToken.data descStart
              ((paraClosedIndex + 2 ^ 32 - descStart) % 2 ^ 32) with
          | none => Except.error Fault.exception
          | some desc =>
              -- Convert to all caps
              match descOfText (desc.map Char.toUpper) with
              | none =>
                  Except.ok (false, data1,
                    { sim with
                      m_error := "Unknown m_metadata descriptor in entry \"" ++ metaToken ++
                        "\"" })
              | some descriptor =>
                  let data2 : Metadata := { data1 with descriptor := descriptor }
                  -- Get m_metadata cycles from token
                  let cyclesStart := (paraClosedIndex + 1) % 2 ^ 32
                  match substr metaToken.data cyclesStart
                      (metaToken.data.length - cyclesStart) with
                  | none => Except.error Fault.exception
                  | some tokenCycles =>
                      match env.stoi (String.mk tokenCycles) with
                      | none =>
                          Except.ok (false, data2,
                            { sim with
                              m_error := "Invalid m_metadata cycle number in entry \"" ++
                                metaToken ++ "\"" })
                      | some cycles => Except.ok (true, { data2 with cycles := cycles }, sim)

end OsSim

/-! ## Loop lemmas -/

namespace OsSim

namespace Resource

theorem initLoop_fields (fuel i : Nat) (r : Resource) :
    (initLoop fuel i r).m_quantity = r.m_quantity ∧
      (initLoop fuel i r).m_semaphore = r.m_semaphore := by
  induction fuel generalizing i r with
  | zero => exact ⟨rfl, rfl⟩
  | succ n ih =>
    have h := ih (i + 1)
      { r with m_arrResources := r.m_arrResources.set i (-1)
               m_locks := r.m_locks.set i false }
    simpa [initLoop] using h

theorem initLoop_arr (fuel i j : Nat) (r : Resource) :
    (initLoop fuel i r).m_arrResources[j]? =
      if i ≤ j ∧ j < i + fuel ∧ j < r.m_arrResources.length then some (-1)
      else r.m_arrResources[j]? := by
  induction fuel generalizing i r with
  | zero =>
    simp only [initLoop]
    rw [if_neg]
    omega
  | succ n ih =>
    rw [initLoop, ih]
    simp only [List.length_set, List.getElem?_set]
    by_cases hij : i = j
    · subst hij
      by_cases hl : i < r.m_arrResources.length
      · simp [hl]
      · simp [hl]
        omega
    · simp only [hij, if_false]
      have e : (i + 1 ≤ j ∧ j < i + 1 + n ∧ j < r.m_arrResources.length) ↔
          (i ≤ j ∧ j < i + (n + 1) ∧ j < r.m_arrResources.length) := by omega
      simp only [e]

theorem initLoop_locks (fuel i j : Nat) (r : Resource) :
    (initLoop fuel i r).m_locks[j]? =
      if i ≤ j ∧ j < i + fuel ∧ j < r.m_locks.length then some false
      else r.m_locks[j]? := by
  induction fuel generalizing i r with
  | zero =>
    simp only [initLoop]
    rw [if_neg]
    omega
  | succ n ih =>
    rw [initLoop, ih]
    simp only [List.length_set, List.getElem?_set]
    by_cases hij : i = j
    · subst hij
      by_cases hl : i < r.m_locks.length
      · simp [hl]
      · simp [hl]
        omega
    · simp only [hij, if_false]
      have e : (i + 1 ≤ j ∧ j < i + 1 + n ∧ j < r.m_locks.length) ↔
          (i ≤ j ∧ j < i + (n + 1) ∧ j < r.m_locks.length) := by omega
      simp only [e]

/-- A freshly constructed pool: every slot free and unlocked, both counters
equal to the capacity. -/
theorem construct_eq (n : Nat) :
    construct n =
      { m_arrResources := List.replicate n (-1)
        m_locks := List.replicate n false
        m_quantity := n
        m_semaphore := (n : Int) } := by
  have hf := initLoop_fields n 0
    { m_arrResources := List.replicate n 0, m_locks := List.replicate n false,
      m_quantity := n, m_semaphore := (n : Int) }
  have ha : (construct n).m_arrResources = List.replicate n (-1) := by
    apply List.ext_getElem?
    intro j
    simp only [construct, initMemberArrays, initLoop_arr, List.getElem?_replicate,
      List.length_replicate]
    by_cases hj : j < n <;> simp [hj]
  have hl : (construct n).m_locks = List.replicate n false := by
    apply List.ext_getElem?
    intro j
    simp only [construct, initMemberArrays, initLoop_locks, List.getElem?_replicate,
      List.length_replicate]
    by_cases hj : j < n <;> simp [hj]
  have hq : (construct n).m_quantity = n := hf.1
  have hs : (construct n).m_semaphore = (n : Int) := hf.2
  cases hc : construct n with
  | mk a l q s =>
    rw [hc] at ha hl hq hs
    simp only at ha hl hq hs
    subst ha hl hq hs
    rfl

theorem getResourceIndexLoop_eq_neg_one_iff (arr : List Int) (pid : Int) (fuel i : Nat) :
    getResourceIndexLoop arr pid fuel i = -1 ↔
      ∀ j, i ≤ j → j < i + fuel → arr[j]? ≠ some pid := by
  induction fuel generalizing i with
  | zero =>
    simp only [getResourceIndexLoop, true_iff]
    intro j h1 h2
    omega
  | succ n ih =>
    rw [getResourceIndexLoop]
    by_cases h : arr[i]? = some pid
    · simp only [h, if_true]
      constructor
      · intro hc
        omega
      · intro hc
        exact absurd h (hc i (Nat.le_refl i) (by omega))
    · simp only [h, if_false, ih]
      constructor
      · intro hc j h1 h2
        by_cases hij : j = i
        · subst hij; exact h
        · exact hc j (by omega) (by omega)
      · intro hc j h1 h2
        exact hc j (by omega) (by omega)

theorem getResourceIndexLoop_eq_natCast_iff (arr : List Int) (pid : Int) (fuel i k : Nat) :
    getResourceIndexLoop arr pid fuel i = (k : Int) ↔
      (i ≤ k ∧ k < i + fuel ∧ arr[k]? = some pid ∧
        ∀ j, i ≤ j → j < k → arr[j]? ≠ some pid) := by
  induction fuel generalizing i with
  | zero =>
    simp only [getResourceIndexLoop]
    constructor
    · intro hc
      omega
    · intro hc
      omega
  | succ n ih =>
    rw [getResourceIndexLoop]
    by_cases h : arr[i]? = some pid
    · simp only [h, if_true]
      constructor
      · intro hc
        have hik : i = k := by exact_mod_cast hc
        subst hik
        refine ⟨Nat.le_refl _, by omega, h, ?_⟩
        intro j h1 h2
        omega
      · intro hc
        by_cases hik : i = k
        · subst hik; rfl
        · exact absurd h (hc.2.2.2 i (Nat.le_refl i) (by omega))
    · simp only [h, if_false, ih]
      constructor
      · intro hc
        refine ⟨by omega, by omega, hc.2.2.1, ?_⟩
        intro j h1 h2
        by_cases hij : j = i
        · subst hij; exact h
        · exact hc.2.2.2 j (by omega) h2
      · intro hc
        have hne : i ≠ k := by
          intro e
          subst e
          exact h hc.2.2.1
        refine ⟨by omega, by omega, hc.2.2.1, ?_⟩
        intro j h1 h2
        exact hc.2.2.2 j (by omega) h2

theorem getResourceIndexLoop_range (arr : List Int) (pid : Int) (fuel i : Nat) :
    getResourceIndexLoop arr pid fuel i = -1 ∨
      ∃ k : Nat, i ≤ k ∧ k < i + fuel ∧ getResourceIndexLoop arr pid fuel i = (k : Int) := by
  induction fuel generalizing i with
  | zero => exact Or.inl rfl
  | succ n ih =>
    rw [getResourceIndexLoop]
    by_cases h : arr[i]? = some pid
    · simp only [h, if_true]
      exact Or.inr ⟨i, Nat.le_refl i, by omega, rfl⟩
    · simp only [h, if_false]
      rcases ih (i + 1) with h1 | ⟨k, h1, h2, h3⟩
      · exact Or.inl h1
      · exact Or.inr ⟨k, by omega, by omega, h3⟩

end Resource

end OsSim

namespace OsSim

namespace Resource

theorem lockLoop_fields (pid : Int) (fuel i : Nat) (r : Resource) :
    (lockLoop pid fuel i r).m_quantity = r.m_quantity ∧
      (lockLoop pid fuel i r).m_semaphore = r.m_semaphore ∧
      (lockLoop pid fuel i r).m_arrResources.length = r.m_arrResources.length ∧
      (lockLoop pid fuel i r).m_locks.length = r.m_locks.length := by
  induction fuel generalizing i r with
  | zero => exact ⟨rfl, rfl, rfl, rfl⟩
  | succ n ih =>
    rw [lockLoop]
    by_cases h : r.m_arrResources[i]? = some (-1)
    · simp only [h, if_true]
      have h1 := ih (i + 1)
        { r with m_arrResources := r.m_arrResources.set i pid
                 m_locks := r.m_locks.set i true }
      simpa using h1
    · simp only [h, if_false]
      exact ih (i + 1) r

theorem lockLoop_arr (pid : Int) (fuel i j : Nat) (r : Resource) :
    (lockLoop pid fuel i r).m_arrResources[j]? =
      if i ≤ j ∧ j < i + fuel ∧ r.m_arrResources[j]? = some (-1) then some pid
      else r.m_arrResources[j]? := by
  induction fuel generalizing i r with
  | zero =>
    simp only [lockLoop]
    rw [if_neg]
    omega
  | succ n ih =>
    rw [lockLoop, ih]
    by_cases h : r.m_arrResources[i]? = some (-1)
    · simp only [h, if_true]
      by_cases hij : i = j
      · subst hij
        have hl : i < r.m_arrResources.length := by
          rcases List.getElem?_eq_some_iff.mp h with ⟨hl, _⟩
          exact hl
        have e1 : ¬ (i + 1 ≤ i ∧ i < i + 1 + n ∧
            (r.m_arrResources.set i pid)[i]? = some (-1)) := by omega
        have e2 : (i ≤ i ∧ i < i + (n + 1) ∧ r.m_arrResources[i]? = some (-1)) :=
          ⟨Nat.le_refl i, by omega, h⟩
        rw [if_neg e1, if_pos e2, List.getElem?_set_self hl]
      · simp only [List.getElem?_set_ne hij]
        have e : (i + 1 ≤ j ∧ j < i + 1 + n ∧ r.m_arrResources[j]? = some (-1)) ↔
            (i ≤ j ∧ j < i + (n + 1) ∧ r.m_arrResources[j]? = some (-1)) :=
          ⟨fun hc => ⟨by omega, by omega, hc.2.2⟩, fun hc => ⟨by omega, by omega, hc.2.2⟩⟩
        simp only [e]
    · simp only [h, if_false]
      by_cases hij : i = j
      · subst hij
        have e1 : ¬ (i + 1 ≤ i ∧ i < i + 1 + n ∧ r.m_arrResources[i]? = some (-1)) := by
          omega
        have e2 : ¬ (i ≤ i ∧ i < i + (n + 1) ∧ r.m_arrResources[i]? = some (-1)) := by
          intro hc
          exact h hc.2.2
        rw [if_neg e1, if_neg e2]
      · have e : (i + 1 ≤ j ∧ j < i + 1 + n ∧ r.m_arrResources[j]? = some (-1)) ↔
            (i ≤ j ∧ j < i + (n + 1) ∧ r.m_arrResources[j]? = some (-1)) :=
          ⟨fun hc => ⟨by omega, by omega, hc.2.2⟩, fun hc => ⟨by omega, by omega, hc.2.2⟩⟩
        simp only [e]

theorem lockLoop_locks_of_not (pid : Int) (fuel i j : Nat) (r : Resource)
    (hn : ¬ (i ≤ j ∧ j < i + fuel ∧ r.m_arrResources[j]? = some (-1))) :
    (lockLoop pid fuel i r).m_locks[j]? = r.m_locks[j]? := by
  induction fuel generalizing i r with
  | zero => rfl
  | succ n ih =>
    rw [lockLoop]
    by_cases h : r.m_arrResources[i]? = some (-1)
    · simp only [h, if_true]
      have hij : i ≠ j := by
        intro e
        subst e
        exact hn ⟨Nat.le_refl i, by omega, h⟩
      rw [ih]
      · simp only [List.getElem?_set_ne hij]
      · simp only [List.getElem?_set_ne hij]
        intro hc
        exact hn ⟨by omega, by omega, hc.2.2⟩
    · simp only [h, if_false]
      apply ih
      intro hc
      exact hn ⟨by omega, by omega, hc.2.2⟩

theorem lockLoop_locks_of_free (pid : Int) (fuel i j : Nat) (r : Resource)
    (h1 : i ≤ j) (h2 : j < i + fuel) (h3 : r.m_arrResources[j]? = some (-1))
    (h4 : j < r.m_locks.length) :
    (lockLoop pid fuel i r).m_locks[j]? = some true := by
  induction fuel generalizing i r with
  | zero => omega
  | succ n ih =>
    rw [lockLoop]
    by_cases hij : i = j
    · subst hij
      simp only [h3, if_true]
      rw [lockLoop_locks_of_not]
      · simp only [List.getElem?_set_self h4]
      · omega
    · by_cases h : r.m_arrResources[i]? = some (-1)
      · simp only [h, if_true]
        apply ih
        · omega
        · omega
        · simp only [List.getElem?_set_ne hij]
          exact h3
        · simpa using h4
      · simp only [h, if_false]
        exact ih (i + 1) r (by omega) (by omega) h3 h4

theorem lockLoop_eq_self (pid : Int) (fuel i : Nat) (r : Resource)
    (hn : ∀ j, i ≤ j → j < i + fuel → r.m_arrResources[j]? ≠ some (-1)) :
    lockLoop pid fuel i r = r := by
  induction fuel generalizing i with
  | zero => rfl
  | succ n ih =>
    rw [lockLoop]
    have h : ¬ r.m_arrResources[i]? = some (-1) := hn i (Nat.le_refl i) (by omega)
    simp only [h, if_false]
    apply ih
    intro j h1 h2
    exact hn j (by omega) (by omega)

/-- What `lock` does to the ownership table, slot by slot: when `pid` is in
no slot, every free slot receives `pid`; otherwise nothing changes. -/
theorem lock_arr (r : Resource) (pid : Int) (j : Nat) :
    (r.lock pid).m_arrResources[j]? =
      if r.getResourceIndex pid = -1 ∧ j < r.m_quantity ∧
          r.m_arrResources[j]? = some (-1) then some pid
      else r.m_arrResources[j]? := by
  unfold lock
  by_cases h : r.getResourceIndex pid = -1
  · simp only [h, if_true, lockLoop_arr, true_and, Nat.zero_le, Nat.zero_add]
  · simp only [h, if_false, false_and]

theorem lock_fields (r : Resource) (pid : Int) :
    (r.lock pid).m_quantity = r.m_quantity ∧
      (r.lock pid).m_semaphore = r.m_semaphore ∧
      (r.lock pid).m_arrResources.length = r.m_arrResources.length ∧
      (r.lock pid).m_locks.length = r.m_locks.length := by
  unfold lock
  by_cases h : r.getResourceIndex pid = -1
  · simp only [h, if_true]
    exact lockLoop_fields pid r.m_quantity 0 r
  · simp [h]

theorem lock_eq_self_of_index (r : Resource) (pid : Int)
    (h : r.getResourceIndex pid ≠ -1) : r.lock pid = r := by
  unfold lock
  simp only [h, if_false]

theorem getResourceIndex_eq_neg_one_iff (r : Resource) (pid : Int) :
    r.getResourceIndex pid = -1 ↔ ∀ i, ¬ r.slotHolds i pid := by
  unfold getResourceIndex slotHolds
  rw [getResourceIndexLoop_eq_neg_one_iff]
  constructor
  · intro h i hc
    exact h i (Nat.zero_le i) (by omega) hc.2
  · intro h j _ h2 hc
    exact h j ⟨by omega, hc⟩

theorem getResourceIndex_eq_natCast_iff (r : Resource) (pid : Int) (k : Nat) :
    r.getResourceIndex pid = (k : Int) ↔
      (r.slotHolds k pid ∧ ∀ j, j < k → ¬ r.slotHolds j pid) := by
  unfold getResourceIndex slotHolds
  rw [getResourceIndexLoop_eq_natCast_iff]
  constructor
  · intro h
    refine ⟨⟨by omega, h.2.2.1⟩, ?_⟩
    intro j hj hc
    exact h.2.2.2 j (Nat.zero_le j) hj hc.2
  · intro h
    refine ⟨Nat.zero_le k, by omega, h.1.2, ?_⟩
    intro j _ hj hc
    exact h.2 j hj ⟨by omega, hc⟩

theorem getResourceIndex_range (r : Resource) (pid : Int) :
    r.getResourceIndex pid = -1 ∨
      ∃ k : Nat, k < r.m_quantity ∧ r.getResourceIndex pid = (k : Int) := by
  unfold getResourceIndex
  rcases getResourceIndexLoop_range r.m_arrResources pid r.m_quantity 0 with h | ⟨k, _, h2, h3⟩
  · exact Or.inl h
  · exact Or.inr ⟨k, by omega, h3⟩

/-- The state `free` leaves when the search found slot `k`. -/
theorem free_of_index (r : Resource) (pid : Int) (k : Nat)
    (h : r.getResourceIndex pid = (k : Int)) :
    r.free pid =
      { r with m_locks := r.m_locks.set k false
               m_arrResources := r.m_arrResources.set k (-1)
               m_semaphore := r.m_semaphore + 1 } := by
  unfold free
  have h0 : (k : Int) ≥ 0 := Int.natCast_nonneg k
  simp only [h, h0, if_true, Int.toNat_ofNat]

theorem free_of_not_found (r : Resource) (pid : Int)
    (h : r.getResourceIndex pid = -1) : r.free pid = r := by
  unfold free
  simp [h]

end Resource

end OsSim

/-! ## Resource: the settled properties -/

namespace OsSim

namespace Resource

theorem reserveTimes_flags (n : Nat) (r : Resource) (h : r.m_semaphore = (n : Int)) :
    (reserveTimes (n + 1) r).1 = List.replicate n true ++ [false] := by
  induction n generalizing r with
  | zero =>
    have ha : r.available = false := by simp [available, h]
    simp [reserveTimes, reserve, ha]
  | succ m ih =>
    have ha : r.available = true := by
      simp only [available, h, decide_eq_true_eq]
      omega
    have hs : (r.reserve).2.m_semaphore = (m : Int) := by
      simp only [reserve, ha, if_true, h]
      omega
    have h1 := ih (r.reserve).2 hs
    rw [reserveTimes]
    simp only [h1]
    simp [reserve, ha, List.replicate_succ]

/-- C1: `reserve()` returns true exactly when the availability count is
positive before the call; a successful call lowers the count by one, a failed
call leaves it unchanged, and the ownership table, the lock flags and the
capacity are never touched.  On a fresh pool of capacity `n` the first `n`
consecutive calls succeed and the next one fails. -/
theorem reserve_spec :
    (∀ r : Resource,
      (r.reserve.1 = true ↔ 0 < r.m_semaphore) ∧
      (r.reserve.1 = true → r.reserve.2.m_semaphore = r.m_semaphore - 1) ∧
      (r.reserve.1 = false → r.reserve.2 = r) ∧
      r.reserve.2.m_arrResources = r.m_arrResources ∧
      r.reserve.2.m_locks = r.m_locks ∧
      r.reserve.2.m_quantity = r.m_quantity) ∧
    (∀ n : Nat,
      (reserveTimes (n + 1) (construct n)).1 = List.replicate n true ++ [false]) := by
  refine ⟨?_, ?_⟩
  · intro r
    by_cases ha : r.available = true
    · have hp : 0 < r.m_semaphore := by simpa [available] using ha
      simp [reserve, ha, hp]
    · have hp : ¬ 0 < r.m_semaphore := by simpa [available] using ha
      simp [reserve, ha, hp]
  · intro n
    apply reserveTimes_flags
    rw [construct_eq]

/-- C9: `getResourceIndex(p)` is the smallest index below the capacity whose
slot holds `p`; it is `-1` exactly when no slot holds `p`, and it is never any
other value. -/
theorem getResourceIndex_spec (r : Resource) (p : Int) :
    (∀ k : Nat, r.getResourceIndex p = (k : Int) ↔
      (r.slotHolds k p ∧ ∀ j, j < k → ¬ r.slotHolds j p)) ∧
    (r.getResourceIndex p = -1 ↔ ∀ i, ¬ r.slotHolds i p) ∧
    (r.getResourceIndex p = -1 ∨
      ∃ k : Nat, k < r.m_quantity ∧ r.getResourceIndex p = (k : Int)) :=
  ⟨fun k => getResourceIndex_eq_natCast_iff r p k,
    getResourceIndex_eq_neg_one_iff r p, getResourceIndex_range r p⟩

/-- C6: in a well-formed pool, if `p` occupies a slot then `free(p)` resets
the lowest-indexed slot holding `p` to the free marker with lock flag false,
raises the availability count by exactly one and changes no other slot; if `p`
holds nothing the whole state is unchanged. -/
theorem free_spec (r : Resource) (p : Int) (hwf : r.WF) :
    ((∃ i, r.slotHolds i p) →
      ∃ k, r.slotHolds k p ∧ (∀ j, j < k → ¬ r.slotHolds j p) ∧
        (r.free p).m_arrResources[k]? = some (-1) ∧
        (r.free p).m_locks[k]? = some false ∧
        (r.free p).m_semaphore = r.m_semaphore + 1 ∧
        (r.free p).m_quantity = r.m_quantity ∧
        ∀ j, j ≠ k →
          (r.free p).m_arrResources[j]? = r.m_arrResources[j]? ∧
          (r.free p).m_locks[j]? = r.m_locks[j]?) ∧
    ((∀ i, ¬ r.slotHolds i p) → r.free p = r) := by
  refine ⟨?_, ?_⟩
  · rintro ⟨i, hi⟩
    rcases getResourceIndex_range r p with h | ⟨k, hk, h⟩
    · exact absurd hi ((getResourceIndex_eq_neg_one_iff r p).mp h i)
    · have hlow := (getResourceIndex_eq_natCast_iff r p k).mp h
      have ha : k < r.m_arrResources.length := by rw [hwf.1]; exact hk
      have hl : k < r.m_locks.length := by rw [hwf.2]; exact hk
      refine ⟨k, hlow.1, hlow.2, ?_⟩
      rw [free_of_index r p k h]
      refine ⟨List.getElem?_set_self ha, List.getElem?_set_self hl, rfl, rfl, ?_⟩
      intro j hj
      exact ⟨List.getElem?_set_ne (Ne.symm hj), List.getElem?_set_ne (Ne.symm hj)⟩
  · intro h
    exact free_of_not_found r p ((getResourceIndex_eq_neg_one_iff r p).mpr h)

/-- Witness for C6 on a two-slot pool whose first slot is held by owner 5. -/
theorem free_spec_witness :
    sampleHeld.WF ∧
    (((∃ i, sampleHeld.slotHolds i 5) →
      ∃ k, sampleHeld.slotHolds k 5 ∧ (∀ j, j < k → ¬ sampleHeld.slotHolds j 5) ∧
        (sampleHeld.free 5).m_arrResources[k]? = some (-1) ∧
        (sampleHeld.free 5).m_locks[k]? = some false ∧
        (sampleHeld.free 5).m_semaphore = sampleHeld.m_semaphore + 1 ∧
        (sampleHeld.free 5).m_quantity = sampleHeld.m_quantity ∧
        ∀ j, j ≠ k →
          (sampleHeld.free 5).m_arrResources[j]? = sampleHeld.m_arrResources[j]? ∧
          (sampleHeld.free 5).m_locks[j]? = sampleHeld.m_locks[j]?) ∧
    ((∀ i, ¬ sampleHeld.slotHolds i 5) → sampleHeld.free 5 = sampleHeld)) :=
  ⟨by decide, free_spec sampleHeld 5 (by decide)⟩

/-- C7: when `p` already occupies a slot, `lock(p)` leaves the whole state
unchanged; `lock` is idempotent, and it never changes the availability
count. -/
theorem lock_noop_when_owned :
    (∀ (r : Resource) (p : Int), (∃ i, r.slotHolds i p) → r.lock p = r) ∧
    (∀ (r : Resource) (p : Int), (r.lock p).lock p = r.lock p) ∧
    (∀ (r : Resource) (p : Int), (r.lock p).m_semaphore = r.m_semaphore) := by
  refine ⟨?_, ?_, ?_⟩
  · rintro r p ⟨i, hi⟩
    apply lock_eq_self_of_index
    intro hc
    exact (getResourceIndex_eq_neg_one_iff r p).mp hc i hi
  · intro r p
    by_cases h : r.getResourceIndex p = -1
    · by_cases hfree : ∃ k, r.slotHolds k (-1)
      · rcases hfree with ⟨k, hk⟩
        apply lock_eq_self_of_index
        intro hc
        refine (getResourceIndex_eq_neg_one_iff (r.lock p) p).mp hc k ⟨?_, ?_⟩
        · rw [(lock_fields r p).1]; exact hk.1
        · rw [lock_arr, if_pos ⟨h, hk.1, hk.2⟩]
      · have hself : r.lock p = r := by
          unfold lock
          simp only [h, if_true]
          apply lockLoop_eq_self
          intro j _ h2 hc
          exact hfree ⟨j, by omega, hc⟩
        rw [hself, hself]
    · rw [lock_eq_self_of_index r p h, lock_eq_self_of_index r p h]
  · intro r p
    exact (lock_fields r p).2.1

/-- C8: a slot held by an owner `p` other than `q` before `lock(q)` is still
held by `p`, with the same lock flag, afterwards; `lock` changes the owner
entry or the lock flag only of slots that were free. -/
theorem lock_preserves_owned (r : Resource) (q : Int) :
    (∀ (i : Nat) (p : Int), p ≠ q → p ≠ -1 → r.slotHolds i p →
      (r.lock q).slotHolds i p ∧ (r.lock q).m_locks[i]? = r.m_locks[i]?) ∧
    (∀ i : Nat, (r.lock q).m_arrResources[i]? ≠ r.m_arrResources[i]? →
      r.slotHolds i (-1)) ∧
    (∀ i : Nat, (r.lock q).m_locks[i]? ≠ r.m_locks[i]? → r.slotHolds i (-1)) := by
  have hlocks : ∀ i : Nat, ¬ r.slotHolds i (-1) →
      (r.lock q).m_locks[i]? = r.m_locks[i]? := by
    intro i hn
    unfold lock
    by_cases h : r.getResourceIndex q = -1
    · simp only [h, if_true]
      apply lockLoop_locks_of_not
      intro hc
      exact hn ⟨by omega, hc.2.2⟩
    · simp only [h, if_false]
  have harr : ∀ i : Nat, ¬ r.slotHolds i (-1) →
      (r.lock q).m_arrResources[i]? = r.m_arrResources[i]? := by
    intro i hn
    rw [lock_arr, if_neg]
    intro hc
    exact hn ⟨hc.2.1, hc.2.2⟩
  refine ⟨?_, ?_, ?_⟩
  · intro i p _ hp hi
    have hn : ¬ r.slotHolds i (-1) := by
      intro hc
      have e : some p = some (-1) := hi.2.symm.trans hc.2
      exact hp (Option.some.inj e)
    refine ⟨⟨?_, ?_⟩, hlocks i hn⟩
    · rw [(lock_fields r q).1]; exact hi.1
    · rw [harr i hn]; exact hi.2
  · intro i hne
    by_contra hn
    exact hne (harr i hn)
  · intro i hne
    by_contra hn
    exact hne (hlocks i hn)

/-- Witness for C8: owner 5 keeps its slot when owner 7 locks. -/
theorem lock_preserves_owned_witness :
    (5 : Int) ≠ 7 ∧ (5 : Int) ≠ -1 ∧ sampleHeld.slotHolds 0 5 ∧
      (sampleHeld.lock 7).slotHolds 0 5 ∧
      (sampleHeld.lock 7).m_locks[0]? = sampleHeld.m_locks[0]? :=
  ⟨by decide, by decide, by decide,
    (lock_preserves_owned sampleHeld 7).1 0 5 (by decide) (by decide) (by decide)⟩

end Resource

end OsSim

/-! ## Call sequences on one pool -/

namespace OsSim

open Resource

/-- Witness for C7: owner 5 holds slot 0 of the sample pool, and locking it
again changes nothing. -/
theorem lock_noop_when_owned_witness :
    (∃ i, sampleHeld.slotHolds i 5) ∧ sampleHeld.lock 5 = sampleHeld :=
  ⟨⟨0, by decide⟩, Resource.lock_noop_when_owned.1 sampleHeld 5 ⟨0, by decide⟩⟩

/-- C2: on a fresh pool of capacity 2, where owner 1 occupies no slot and both
slots are free, `lock(1)` writes owner 1 into both slots and sets both lock
flags: slot 1, which is not the lowest free slot, is changed as well. -/
theorem lock_fills_every_free_slot :
    (construct 2).m_arrResources = [-1, -1] ∧
    (construct 2).getResourceIndex 1 = -1 ∧
    ((construct 2).lock 1).m_arrResources = [1, 1] ∧
    ((construct 2).lock 1).m_locks = [true, true] ∧
    ((construct 2).lock 1).m_arrResources[1]? ≠ (construct 2).m_arrResources[1]? := by
  decide

/-- C3: after `reserve()` and `lock(1)` on a fresh pool of capacity 2, owner 1
is in slot 0 and in slot 1, so it does not appear in at most one slot. -/
theorem owner_in_two_slots :
    (runCalls [Call.reserve, Call.lock 1] (construct 2)).slotHolds 0 1 ∧
    (runCalls [Call.reserve, Call.lock 1] (construct 2)).slotHolds 1 1 ∧
    ¬ ownerAtMostOnce (runCalls [Call.reserve, Call.lock 1] (construct 2)) 1 := by
  have h0 : (runCalls [Call.reserve, Call.lock 1] (construct 2)).slotHolds 0 1 := by
    decide
  have h1 : (runCalls [Call.reserve, Call.lock 1] (construct 2)).slotHolds 1 1 := by
    decide
  refine ⟨h0, h1, ?_⟩
  intro h
  exact absurd (h 0 1 h0 h1) (by decide)

/-- C4: one complete cycle `reserve()`, `lock(1)`, `free(1)` on a fresh pool of
capacity 2 ends with availability count 2 while slot 1 still holds owner 1:
one slot is held although capacity minus availability is 0, and one slot is
free although the availability count is 2. -/
theorem cycle_leaves_stale_owner :
    runCycles [1] (construct 2) =
      some { m_arrResources := [-1, 1], m_locks := [false, true], m_quantity := 2,
             m_semaphore := 2 } ∧
    heldSlots { m_arrResources := [-1, 1], m_locks := [false, true], m_quantity := 2,
                m_semaphore := 2 } = 1 ∧
    freeSlots { m_arrResources := [-1, 1], m_locks := [false, true], m_quantity := 2,
                m_semaphore := 2 } = 1 ∧
    ((1 : Nat) : Int) ≠ ((2 : Nat) : Int) - 2 := by
  decide

theorem getResourceIndex_fresh (n : Nat) (s : Int) (l : List Bool) (pid : Int)
    (hp : pid ≠ -1) :
    Resource.getResourceIndex
      { m_arrResources := List.replicate n (-1), m_locks := l, m_quantity := n,
        m_semaphore := s } pid = -1 := by
  rw [getResourceIndex_eq_neg_one_iff]
  rintro i ⟨_, h2⟩
  simp only [List.getElem?_replicate] at h2
  by_cases hi : i < n
  · simp only [hi, if_true] at h2
    exact hp (Option.some.inj h2).symm
  · simp [hi] at h2

theorem reserve_free_step (n : Nat) (r : Resource) (c : Call)
    (hr : r.m_arrResources = List.replicate n (-1) ∧ r.m_quantity = n ∧
      0 ≤ r.m_semaphore ∧ r.m_semaphore ≤ (n : Int))
    (h1 : c.isReserveOrFree = true) (h2 : c.pidNotMarker = true) :
    (c.apply r).m_arrResources = List.replicate n (-1) ∧ (c.apply r).m_quantity = n ∧
      0 ≤ (c.apply r).m_semaphore ∧ (c.apply r).m_semaphore ≤ (n : Int) := by
  rcases hr with ⟨ha, hq, hs0, hs1⟩
  cases c with
  | reserve =>
    simp only [Call.apply, reserve]
    by_cases hav : r.available = true
    · have hp : 0 < r.m_semaphore := by simpa [available] using hav
      simp only [hav, if_true]
      exact ⟨ha, hq, by omega, by omega⟩
    · simp only [hav]
      exact ⟨ha, hq, hs0, hs1⟩
  | lock pid => simp [Call.isReserveOrFree] at h1
  | free pid =>
    have hp : pid ≠ -1 := by simpa [Call.pidNotMarker] using h2
    have hidx : r.getResourceIndex pid = -1 := by
      cases r with
      | mk a l q s =>
        simp only at ha hq
        subst ha hq
        exact getResourceIndex_fresh _ s l pid hp
    simp only [Call.apply, free_of_not_found r pid hidx]
    exact ⟨ha, hq, hs0, hs1⟩

theorem reserve_free_run (n : Nat) (cs : List Call) (r : Resource)
    (hr : r.m_arrResources = List.replicate n (-1) ∧ r.m_quantity = n ∧
      0 ≤ r.m_semaphore ∧ r.m_semaphore ≤ (n : Int))
    (hcs : ∀ c ∈ cs, c.isReserveOrFree = true ∧ c.pidNotMarker = true) :
    0 ≤ (runCalls cs r).m_semaphore ∧ (runCalls cs r).m_semaphore ≤ (n : Int) := by
  induction cs generalizing r with
  | nil => exact ⟨hr.2.2.1, hr.2.2.2⟩
  | cons c rest ih =>
    have hc := hcs c (List.mem_cons_self c rest)
    have hstep := reserve_free_step n r c hr hc.1 hc.2
    have hrest : ∀ d ∈ rest, d.isReserveOrFree = true ∧ d.pidNotMarker = true :=
      fun d hd => hcs d (List.mem_cons_of_mem c hd)
    exact ih (c.apply r) hstep hrest

/-- C5, as the claim states it, fails: `free(-1)` on a fresh pool of capacity 1
finds the free slot 0 and raises the availability count to 2. -/
theorem free_marker_exceeds_capacity :
    (runCalls [Call.free (-1)] (construct 1)).m_semaphore = 2 ∧
    ¬ (0 ≤ (runCalls [Call.free (-1)] (construct 1)).m_semaphore ∧
        (runCalls [Call.free (-1)] (construct 1)).m_semaphore ≤ ((1 : Nat) : Int)) := by
  decide

/-- C5, amended: for every capacity `n` and every finite sequence of
`reserve()` and `free(pid)` calls whose `pid` is never the free-slot marker
`-1`, applied to a fresh pool, the availability count lies in `[0, n]` after
every call. -/
theorem semaphore_bounds (n : Nat) (cs : List Call)
    (hcs : ∀ c ∈ cs, c.isReserveOrFree = true ∧ c.pidNotMarker = true) (k : Nat) :
    0 ≤ (runCalls (cs.take k) (construct n)).m_semaphore ∧
      (runCalls (cs.take k) (construct n)).m_semaphore ≤ (n : Int) := by
  apply reserve_free_run n (cs.take k) (construct n)
  · rw [construct_eq]
    exact ⟨rfl, rfl, Int.natCast_nonneg n, Int.le_refl _⟩
  · intro c hc
    exact hcs c (List.mem_of_mem_take hc)

/-- Witness for C5 (amended): three reserves and a release by owner 4 on a
pool of capacity 2, looked at after all four calls. -/
theorem semaphore_bounds_witness :
    (∀ c ∈ [Call.reserve, Call.reserve, Call.free 4, Call.reserve],
      c.isReserveOrFree = true ∧ c.pidNotMarker = true) ∧
    0 ≤ (runCalls ([Call.reserve, Call.reserve, Call.free 4, Call.reserve].take 4)
          (construct 2)).m_semaphore ∧
    (runCalls ([Call.reserve, Call.reserve, Call.free 4, Call.reserve].take 4)
          (construct 2)).m_semaphore ≤ ((2 : Nat) : Int) :=
  ⟨by decide, semaphore_bounds 2 [Call.reserve, Call.reserve, Call.free 4, Call.reserve]
    (by decide) 4⟩

end OsSim

/-! ## Sequential I/O through `handleIO` -/

namespace OsSim

open Resource

theorem construct_idle (n : Nat) : (construct n).idle n := by
  rw [construct_eq]
  refine ⟨rfl, rfl, ?_⟩
  intro hn
  simp only [List.getElem?_replicate]
  rw [if_pos (by omega)]

/-- One acquire/hold/release round on an idle, non-empty pool: the pool is
available, the owner is found in a slot after `lock`, and the pool is idle
again after `free`. -/
theorem io_round (r : Resource) (n : Nat) (pid : Int) (hr : r.idle n) (hn : 1 ≤ n) :
    r.available = true ∧
      0 ≤ ((r.reserve.2).lock pid).getResourceIndex pid ∧
      (((r.reserve.2).lock pid).free pid).idle n := by
  rcases hr with ⟨hq, hs, h0⟩
  have h0 := h0 hn
  have hav : r.available = true := by
    simp only [available, hs, decide_eq_true_eq]
    omega
  have hres : r.reserve.2 = { r with m_semaphore := r.m_semaphore - 1 } := by
    simp only [reserve, hav, if_true]
  refine ⟨hav, ?_⟩
  rw [hres]
  generalize hr1 : ({ r with m_semaphore := r.m_semaphore - 1 } : Resource) = r1
  have hq1 : r1.m_quantity = n := by rw [← hr1]; exact hq
  have hs1 : r1.m_semaphore = (n : Int) - 1 := by rw [← hr1]; simp only [hs]
  have ha1 : r1.m_arrResources[0]? = some (-1) := by rw [← hr1]; exact h0
  have hf := lock_fields r1 pid
  -- slot 0 after `lock`: the owner if the loop ran, still free otherwise
  have hslot0 : (r1.lock pid).m_arrResources[0]? =
      if r1.getResourceIndex pid = -1 then some pid else some (-1) := by
    rw [lock_arr]
    by_cases hc : r1.getResourceIndex pid = -1
    · rw [if_pos ⟨hc, by omega, ha1⟩, if_pos hc]
    · rw [if_neg (fun h => hc h.1), if_neg hc, ha1]
  have hfound : (r1.lock pid).getResourceIndex pid ≠ -1 := by
    intro hc
    by_cases hidx : r1.getResourceIndex pid = -1
    · refine (getResourceIndex_eq_neg_one_iff _ pid).mp hc 0 ⟨?_, ?_⟩
      · rw [hf.1]; omega
      · rw [hslot0, if_pos hidx]
    · rw [lock_eq_self_of_index r1 pid hidx] at hc
      exact hidx hc
  rcases getResourceIndex_range (r1.lock pid) pid with hc | ⟨k, _, hk⟩
  · exact absurd hc hfound
  · refine ⟨by rw [hk]; exact Int.natCast_nonneg k, ?_⟩
    rw [free_of_index _ pid k hk]
    refine ⟨?_, ?_, ?_⟩
    · show (r1.lock pid).m_quantity = n
      rw [hf.1]; exact hq1
    · show (r1.lock pid).m_semaphore + 1 = (n : Int)
      rw [hf.2.1, hs1]; omega
    · intro _
      show ((r1.lock pid).m_arrResources.set k (-1))[0]? = some (-1)
      by_cases hk0 : k = 0
      · subst hk0
        apply List.getElem?_set_self
        rw [hf.2.2.1]
        rcases List.getElem?_eq_some_iff.mp ha1 with ⟨hl, _⟩
        exact hl
      · rw [List.getElem?_set_ne hk0, hslot0]
        by_cases hidx : r1.getResourceIndex pid = -1
        · exfalso
          have hlow := ((getResourceIndex_eq_natCast_iff _ pid k).mp hk).2
          refine hlow 0 (by omega) ⟨?_, ?_⟩
          · rw [hf.1]; omega
          · rw [hslot0, if_pos hidx]
        · rw [if_neg hidx]

theorem handleIO_idle (app : Application) (ps : Pools) (op : Operation)
    (np nh nk nm : Nat)
    (hp : ps.m_printers.idle np) (hh : ps.m_harddrives.idle nh)
    (hk : ps.m_keyboards.idle nk) (hm : ps.m_monitors.idle nm)
    (herr : app.m_errorStr = "")
    (hcap : 1 ≤ ps.capacityFor op.data.descriptor) :
    ( handleIO app ps op).2.1.m_errorStr = "" ∧
      0 ≤ ( handleIO app ps op).1 ∧
      ( handleIO app ps op).2.2.m_printers.idle np ∧
      ( handleIO app ps op).2.2.m_harddrives.idle nh ∧
      ( handleIO app ps op).2.2.m_keyboards.idle nk ∧
      ( handleIO app ps op).2.2.m_monitors.idle nm := by
  rcases op with ⟨⟨code, desc, cyc⟩, t⟩
  have hempty : ("" : String).isEmpty = true := by decide
  cases desc with
  | M_PRINTER =>
    have hc : 1 ≤ np := by
      have e : ps.m_printers.m_quantity = np := hp.1
      simpa [Pools.capacityFor, e] using hcap
    have hround := io_round ps.m_printers np (pidOfAppID app.m_appID) hp hc
    simp only [ handleIO, semaphoreCheck, threadRunner, Application.sleep, hround.1, herr,
      hempty, if_true]
    exact ⟨trivial, hround.2.1, hround.2.2, hh, hk, hm⟩
  | M_HARD_DRIVE =>
    have hc : 1 ≤ nh := by
      have e : ps.m_harddrives.m_quantity = nh := hh.1
      simpa [Pools.capacityFor, e] using hcap
    have hround := io_round ps.m_harddrives nh (pidOfAppID app.m_appID) hh hc
    simp only [ handleIO, semaphoreCheck, threadRunner, Application.sleep, hround.1, herr,
      hempty, if_true,
      reduceCtorEq, if_false]
    exact ⟨trivial, hround.2.1, hp, hround.2.2, hk, hm⟩
  | M_KEYBOARD =>
    have hc : 1 ≤ nk := by
      have e : ps.m_keyboards.m_quantity = nk := hk.1
      simpa [Pools.capacityFor, e] using hcap
    have hround := io_round ps.m_keyboards nk (pidOfAppID app.m_appID) hk hc
    simp only [ handleIO, semaphoreCheck, threadRunner, Application.sleep, hround.1, herr,
      hempty, if_true,
      reduceCtorEq, if_false]
    exact ⟨trivial, hround.2.1, hp, hh, hround.2.2, hm⟩
  | M_MONITOR =>
    have hc : 1 ≤ nm := by
      have e : ps.m_monitors.m_quantity = nm := hm.1
      simpa [Pools.capacityFor, e] using hcap
    have hround := io_round ps.m_monitors nm (pidOfAppID app.m_appID) hm hc
    simp only [ handleIO, semaphoreCheck, threadRunner, Application.sleep, hround.1, herr,
      hempty, if_true,
      reduceCtorEq, if_false]
    exact ⟨trivial, hround.2.1, hp, hh, hk, hround.2.2⟩
  | M_START => simp [Pools.capacityFor] at hcap
  | M_RUN => simp [Pools.capacityFor] at hcap
  | M_END => simp [Pools.capacityFor] at hcap
  | M_ALLOC => simp [Pools.capacityFor] at hcap
  | M_CACHE => simp [Pools.capacityFor] at hcap

theorem runIOs_idle (np nh nk nm : Nat) (ops : List (Nat × Operation)) (ps : Pools)
    (hp : ps.m_printers.idle np) (hh : ps.m_harddrives.idle nh)
    (hk : ps.m_keyboards.idle nk) (hm : ps.m_monitors.idle nm)
    (hcap : ∀ x ∈ ops, 1 ≤ ps.capacityFor x.2.data.descriptor) :
    (runIOs ops ps).length = ops.length ∧
      ∀ res ∈ runIOs ops ps,
        res.errorStr = "" ∧ 0 ≤ res.resourceIndex ∧
          res.pools.semaphores = ((np : Int), (nh : Int), (nk : Int), (nm : Int)) := by
  induction ops generalizing ps with
  | nil => simp [runIOs]
  | cons x rest ih =>
    rcases x with ⟨appID, op⟩
    have hempty : ("" : String).isEmpty = true := by decide
    have hstep := handleIO_idle { m_appID := appID, m_errorStr := "" } ps op np nh nk nm
      hp hh hk hm rfl (hcap (appID, op) (List.mem_cons_self _ _))
    rcases hstep with ⟨he, hi, hp1, hh1, hk1, hm1⟩
    have hcap1 : ∀ y ∈ rest,
        1 ≤ ( handleIO { m_appID := appID, m_errorStr := "" } ps op).2.2.capacityFor
          y.2.data.descriptor := by
      intro y hy
      have h := hcap y (List.mem_cons_of_mem _ hy)
      have e1 := hp.1
      have e2 := hh.1
      have e3 := hk.1
      have e4 := hm.1
      have f1 := hp1.1
      have f2 := hh1.1
      have f3 := hk1.1
      have f4 := hm1.1
      cases hd : y.2.data.descriptor <;>
        simp only [hd, Pools.capacityFor, e1, e2, e3, e4, f1, f2, f3, f4] at h ⊢ <;>
        exact h
    have hrec := ih _ hp1 hh1 hk1 hm1 hcap1
    simp only [runIOs, he, hempty, if_true, List.length_cons, hrec.1, List.mem_cons,
      true_and]
    intro res hres
    rcases hres with hres | hres
    · subst hres
      refine ⟨rfl, hi, ?_⟩
      simp only [Pools.semaphores, hp1.2.1, hh1.2.1, hk1.2.1, hm1.2.1]
    · exact hrec.2 res hres

/-- C10: on fresh pools, every sequence of I/O operations executed one after
another through `handleIO`, by any applications, each on a pool of capacity at
least 1, runs to its end: no operation sets an error, each is granted a slot,
and after each operation every pool's availability count equals its capacity
again.  In particular two printer outputs of one application on a printer
pool of capacity 1 both succeed. -/
theorem sequential_io_never_exhausts :
    (∀ (np nh nk nm : Nat) (ops : List (Nat × Operation)),
      (∀ x ∈ ops, 1 ≤ (freshPools np nh nk nm).capacityFor x.2.data.descriptor) →
      (runIOs ops (freshPools np nh nk nm)).length = ops.length ∧
      ∀ res ∈ runIOs ops (freshPools np nh nk nm),
        res.errorStr = "" ∧ 0 ≤ res.resourceIndex ∧
          res.pools.semaphores = ((np : Int), (nh : Int), (nk : Int), (nm : Int))) ∧
    (∀ (appID : Nat) (c1 c2 : Int) (t1 t2 nh nk nm : Nat),
      (runIOs [(appID, printerOutput c1 t1), (appID, printerOutput c2 t2)]
        (freshPools 1 nh nk nm)).map (fun res => res.errorStr) = ["", ""]) := by
  have general : ∀ (np nh nk nm : Nat) (ops : List (Nat × Operation)),
      (∀ x ∈ ops, 1 ≤ (freshPools np nh nk nm).capacityFor x.2.data.descriptor) →
      (runIOs ops (freshPools np nh nk nm)).length = ops.length ∧
      ∀ res ∈ runIOs ops (freshPools np nh nk nm),
        res.errorStr = "" ∧ 0 ≤ res.resourceIndex ∧
          res.pools.semaphores = ((np : Int), (nh : Int), (nk : Int), (nm : Int)) := by
    intro np nh nk nm ops hcap
    exact runIOs_idle np nh nk nm ops (freshPools np nh nk nm) (construct_idle np)
      (construct_idle nh) (construct_idle nk) (construct_idle nm) hcap
  refine ⟨general, ?_⟩
  intro appID c1 c2 t1 t2 nh nk nm
  have hcap : ∀ x ∈ [(appID, printerOutput c1 t1), (appID, printerOutput c2 t2)],
      1 ≤ (freshPools 1 nh nk nm).capacityFor x.2.data.descriptor := by
    intro x hx
    have hq : (construct 1).m_quantity = 1 := (construct_idle 1).1
    simp only [List.mem_cons, List.mem_singleton, List.not_mem_nil, or_false] at hx
    rcases hx with hx | hx <;> subst hx <;>
      simp [printerOutput, Pools.capacityFor, freshPools, hq]
  have h := general 1 nh nk nm _ hcap
  generalize runIOs [(appID, printerOutput c1 t1), (appID, printerOutput c2 t2)]
    (freshPools 1 nh nk nm) = out at h
  rcases h with ⟨hlen, hall⟩
  match out, hlen, hall with
  | [a, b], _, hall =>
    have ha := (hall a (by simp)).1
    have hb := (hall b (by simp)).1
    simp [ha, hb]

/-- Witness for C10: applications 1 and 2 using a two-slot printer pool and a
one-slot keyboard pool in turn. -/
theorem sequential_io_never_exhausts_witness :
    (∀ x ∈ [(1, printerOutput 3 10), (2, keyboardInput 1 5), (2, printerOutput 2 10)],
      1 ≤ (freshPools 2 1 1 1).capacityFor x.2.data.descriptor) ∧
    ((runIOs [(1, printerOutput 3 10), (2, keyboardInput 1 5), (2, printerOutput 2 10)]
        (freshPools 2 1 1 1)).length = 3 ∧
      ∀ res ∈ runIOs
          [(1, printerOutput 3 10), (2, keyboardInput 1 5), (2, printerOutput 2 10)]
          (freshPools 2 1 1 1),
        res.errorStr = "" ∧ 0 ≤ res.resourceIndex ∧
          res.pools.semaphores = (((2 : Nat) : Int), ((1 : Nat) : Int), ((1 : Nat) : Int),
            ((1 : Nat) : Int))) :=
  ⟨by decide,
    sequential_io_never_exhausts.1 2 1 1 1
      [(1, printerOutput 3 10), (2, keyboardInput 1 5), (2, printerOutput 2 10)]
      (by decide)⟩

end OsSim

/-! ## Allocator -/

namespace OsSim

theorem toUInt_natCast (n : Nat) : toUInt (n : Int) = n % 2 ^ 32 := by
  unfold toUInt
  have h : ((n : Int) % 2 ^ 32) = ((n % 2 ^ 32 : Nat) : Int) := by
    push_cast
    rfl
  rw [h, Int.toNat_ofNat]

/-- What `getMemoryAddress` does when the configuration yields capacity `c` and
block size `b` and `n` blocks are issued: the product is taken modulo
`2 ^ 32` and compared with `c`. -/
theorem getMemoryAddress_eq (env : Env) (sim : Simulator) (b c n : Nat)
    (hcfg : memoryConfigLoop env sim.m_config (UINT_MAX, UINT_MAX) = some (c, b))
    (hn : sim.m_usedBlocks = (n : Int)) :
    getMemoryAddress env sim =
      if (n * b) % 2 ^ 32 > c then (UINT_MAX, sim)
      else ((n * b) % 2 ^ 32, { sim with m_usedBlocks := ((n + 1 : Nat) : Int) }) := by
  have haddr : (b * toUInt sim.m_usedBlocks) % 2 ^ 32 = (n * b) % 2 ^ 32 := by
    rw [hn, toUInt_natCast, Nat.mul_mod, Nat.mod_mod, ← Nat.mul_mod, Nat.mul_comm]
  unfold getMemoryAddress
  simp only [hcfg, haddr]
  by_cases h : (n * b) % 2 ^ 32 > c
  · simp only [h, if_true]
  · simp only [h, if_false, hn]
    push_cast
    rfl

theorem getMemoryAddress_config (env : Env) (sim : Simulator) :
    ( getMemoryAddress env sim).2.m_config = sim.m_config := by
  unfold getMemoryAddress
  cases hc : memoryConfigLoop env sim.m_config (UINT_MAX, UINT_MAX) with
  | none => rfl
  | some p =>
    rcases p with ⟨t, b⟩
    simp only
    by_cases h : (b * toUInt sim.m_usedBlocks) % 2 ^ 32 > t
    · simp only [h, if_true]
    · simp only [h, if_false]

/-- After `k` calls that all stay within the capacity, `k` more blocks are
issued and the configuration is the same. -/
theorem allocTimes_count (env : Env) (b c : Nat) (k : Nat) (sim : Simulator) (n : Nat)
    (hcfg : memoryConfigLoop env sim.m_config (UINT_MAX, UINT_MAX) = some (c, b))
    (hn : sim.m_usedBlocks = (n : Int))
    (hall : ∀ j, j < k → (n + j) * b ≤ c ∧ (n + j) * b < 2 ^ 32) :
    (allocTimes env k sim).m_usedBlocks = ((n + k : Nat) : Int) ∧
      (allocTimes env k sim).m_config = sim.m_config := by
  induction k generalizing sim n with
  | zero => exact ⟨hn, rfl⟩
  | succ k ih =>
    have h0 := hall 0 (Nat.succ_pos k)
    have hstep := getMemoryAddress_eq env sim b c n hcfg hn
    have hmod : (n * b) % 2 ^ 32 = n * b := Nat.mod_eq_of_lt (by simpa using h0.2)
    have hle : ¬ (n * b) % 2 ^ 32 > c := by
      rw [hmod]
      have := h0.1
      simp only [Nat.add_zero] at this
      omega
    rw [if_neg hle] at hstep
    have hcfg1 : memoryConfigLoop env ( getMemoryAddress env sim).2.m_config
        (UINT_MAX, UINT_MAX) = some (c, b) := by
      rw [getMemoryAddress_config]; exact hcfg
    have hn1 : ( getMemoryAddress env sim).2.m_usedBlocks = ((n + 1 : Nat) : Int) := by
      rw [hstep]
    have hall1 : ∀ j, j < k → (n + 1 + j) * b ≤ c ∧ (n + 1 + j) * b < 2 ^ 32 := by
      intro j hj
      have := hall (j + 1) (by omega)
      have e : n + (j + 1) = n + 1 + j := by omega
      rw [e] at this
      exact this
    have hrec := ih ( getMemoryAddress env sim).2 (n + 1) hcfg1 hn1 hall1
    rw [allocTimes]
    refine ⟨?_, ?_⟩
    · rw [hrec.1]
      congr 1
      omega
    · rw [hrec.2, getMemoryAddress_config]

/-- The `k`-th consecutive call from zero issued blocks, for `k * b` that
fits in 32 bits. -/
theorem getMemoryAddress_kth (env : Env) (sim : Simulator) (b c k : Nat)
    (hcfg : memoryConfigLoop env sim.m_config (UINT_MAX, UINT_MAX) = some (c, b))
    (h0 : sim.m_usedBlocks = 0) (hfit : k * b < 2 ^ 32) :
    (k * b ≤ c → ( getMemoryAddress env (allocTimes env k sim)).1 = k * b) ∧
    ((∀ j, j < k → j * b ≤ c) → c < k * b →
      ( getMemoryAddress env (allocTimes env k sim)).1 = UINT_MAX ∧
      ( getMemoryAddress env (allocTimes env k sim)).2 = allocTimes env k sim) := by
  have hmono : ∀ j, j < k → j * b < 2 ^ 32 := by
    intro j hj
    exact Nat.lt_of_le_of_lt (Nat.mul_le_mul_right b (Nat.le_of_lt hj)) hfit
  have hstate : (∀ j, j < k → j * b ≤ c) →
      getMemoryAddress env (allocTimes env k sim) =
        if (k * b) % 2 ^ 32 > c then (UINT_MAX, allocTimes env k sim)
        else ((k * b) % 2 ^ 32,
          { allocTimes env k sim with m_usedBlocks := ((k + 1 : Nat) : Int) }) := by
    intro hprev
    have hcount := allocTimes_count env b c k sim 0 hcfg (by simpa using h0)
      (by
        intro j hj
        simp only [Nat.zero_add]
        exact ⟨hprev j hj, hmono j hj⟩)
    apply getMemoryAddress_eq env _ b c k
    · rw [hcount.2]; exact hcfg
    · rw [hcount.1]
      simp
  have hmod : (k * b) % 2 ^ 32 = k * b := Nat.mod_eq_of_lt hfit
  refine ⟨?_, ?_⟩
  · intro hle
    have hprev : ∀ j, j < k → j * b ≤ c := by
      intro j hj
      exact Nat.le_trans (Nat.mul_le_mul_right b (Nat.le_of_lt hj)) hle
    rw [hstate hprev, hmod, if_neg (by omega)]
  · intro hprev hgt
    rw [hstate hprev, hmod, if_pos hgt]
    exact ⟨rfl, rfl⟩

/-- C11: with capacity `c` and block size `b` from the configuration and no
block issued, the `k`-th consecutive call of `getMemoryAddress` (counted from
0) returns `k * b` when `k * b ≤ c`; when `k` is the first index with
`k * b > c` it returns `UINT_MAX` and issues nothing.  For `k * b` that fits
in 32 bits. -/
theorem allocator_address_sequence (env : Env) (sim : Simulator) (b c k : Nat)
    (hcfg : memoryConfigLoop env sim.m_config (UINT_MAX, UINT_MAX) = some (c, b))
    (h0 : sim.m_usedBlocks = 0) (hfit : k * b < 2 ^ 32) :
    (k * b ≤ c → ( getMemoryAddress env (allocTimes env k sim)).1 = k * b) ∧
    ((∀ j, j < k → j * b ≤ c) → c < k * b →
      ( getMemoryAddress env (allocTimes env k sim)).1 = UINT_MAX ∧
      ( getMemoryAddress env (allocTimes env k sim)).2 = allocTimes env k sim) :=
  getMemoryAddress_kth env sim b c k hcfg h0 hfit

/-- Witness for C11 with 100 kbytes in blocks of 50: call 2 returns 100, and
call 3, the first beyond the capacity, returns `UINT_MAX`. -/
theorem allocator_address_sequence_witness :
    memoryConfigLoop decimalEnv (loaded sampleConfig []).m_config (UINT_MAX, UINT_MAX) =
      some (100, 50) ∧
    (loaded sampleConfig []).m_usedBlocks = 0 ∧
    ( getMemoryAddress decimalEnv (allocTimes decimalEnv 2 (loaded sampleConfig []))).1 =
      2 * 50 ∧
    ( getMemoryAddress decimalEnv (allocTimes decimalEnv 3 (loaded sampleConfig []))).1 =
      UINT_MAX :=
  ⟨by decide, by decide,
    (allocator_address_sequence decimalEnv (loaded sampleConfig []) 50 100 2
      (by decide) (by decide) (by decide)).1 (by decide),
    ((allocator_address_sequence decimalEnv (loaded sampleConfig []) 50 100 3
      (by decide) (by decide) (by decide)).2 (by decide) (by decide)).1⟩

/-- C12, as the claim states it, fails: with 100 kbytes in blocks of 50 the
third allocation returns address 100, which is not the out-of-memory value,
and a program of three allocations runs to its end without an error. -/
theorem third_allocation_succeeds :
    ( getMemoryAddress decimalEnv (allocTimes decimalEnv 2 (loaded sampleConfig []))).1 = 100 ∧
    ( getMemoryAddress decimalEnv (allocTimes decimalEnv 2 (loaded sampleConfig []))).1 ≠
      UINT_MAX ∧
    (executeInstructions decimalEnv
      { m_appID := 1, m_errorStr := "",
        m_opQueue := [allocateOp 1 30, allocateOp 1 30, allocateOp 1 30] }
      (loaded sampleConfig [])).1 = true := by
  decide

/-- C12, amended: with total memory 100 and block size 50, consecutive
allocations from zero issued blocks return the addresses 0, 50 and 100, and
the fourth fails: `getMemoryAddress` returns `UINT_MAX` and `handleAllocate`
returns false with the error "Out of memory". -/
theorem allocator_worked_example (env : Env) (sim : Simulator) (app : Application)
    (op : Operation)
    (hcfg : memoryConfigLoop env sim.m_config (UINT_MAX, UINT_MAX) = some (100, 50))
    (h0 : sim.m_usedBlocks = 0) :
    ( getMemoryAddress env (allocTimes env 0 sim)).1 = 0 ∧
    ( getMemoryAddress env (allocTimes env 1 sim)).1 = 50 ∧
    ( getMemoryAddress env (allocTimes env 2 sim)).1 = 100 ∧
    ( getMemoryAddress env (allocTimes env 3 sim)).1 = UINT_MAX ∧
    (handleAllocate env app (allocTimes env 3 sim) op).1 = false ∧
    (handleAllocate env app (allocTimes env 3 sim) op).2.1.m_errorStr = "Out of memory" := by
  have h := fun k hfit => getMemoryAddress_kth env sim 50 100 k hcfg h0 hfit
  have e0 := (h 0 (by decide)).1 (by decide)
  have e1 := (h 1 (by decide)).1 (by decide)
  have e2 := (h 2 (by decide)).1 (by decide)
  have e3 := ((h 3 (by decide)).2 (by decide) (by decide)).1
  refine ⟨e0, e1, e2, e3, ?_, ?_⟩
  · simp only [handleAllocate, e3, if_true]
  · simp only [handleAllocate, e3, if_true]

/-- Witness for C12 (amended) in the sample configuration. -/
theorem allocator_worked_example_witness :
    memoryConfigLoop decimalEnv (loaded sampleConfig []).m_config (UINT_MAX, UINT_MAX) =
      some (100, 50) ∧
    ( getMemoryAddress decimalEnv (allocTimes decimalEnv 2 (loaded sampleConfig []))).1 = 100 ∧
    ( getMemoryAddress decimalEnv (allocTimes decimalEnv 3 (loaded sampleConfig []))).1 =
      UINT_MAX :=
  ⟨by decide,
    (allocator_worked_example decimalEnv (loaded sampleConfig [])
      { m_appID := 1, m_errorStr := "" } (allocateOp 1 30) (by decide) (by decide)).2.2.1,
    (allocator_worked_example decimalEnv (loaded sampleConfig [])
      { m_appID := 1, m_errorStr := "" } (allocateOp 1 30) (by decide) (by decide)).2.2.2.1⟩

/-- C13: with capacity and block size both 4294967295 (`UINT_MAX`) and one
block issued, `getMemoryAddress` returns `UINT_MAX`, `handleAllocate` reports
"Out of memory", and yet the issued-block count has gone from 1 to 2. -/
theorem failure_value_with_block_issued :
    (allocTimes decimalEnv 1
      (loaded (memoryOnlyConfig "4294967295" "4294967295") [])).m_usedBlocks = 1 ∧
    ( getMemoryAddress decimalEnv (allocTimes decimalEnv 1
      (loaded (memoryOnlyConfig "4294967295" "4294967295") []))).1 = UINT_MAX ∧
    ( getMemoryAddress decimalEnv (allocTimes decimalEnv 1
      (loaded (memoryOnlyConfig "4294967295" "4294967295") []))).2.m_usedBlocks = 2 ∧
    (handleAllocate decimalEnv { m_appID := 1, m_errorStr := "" }
      (allocTimes decimalEnv 1 (loaded (memoryOnlyConfig "4294967295" "4294967295") []))
      (allocateOp 1 30)).2.1.m_errorStr = "Out of memory" ∧
    (handleAllocate decimalEnv { m_appID := 1, m_errorStr := "" }
      (allocTimes decimalEnv 1 (loaded (memoryOnlyConfig "4294967295" "4294967295") []))
      (allocateOp 1 30)).2.2.m_usedBlocks = 2 := by
  decide

/-- C14, as the claim states it, fails: with capacity 4294967295, block size
2147483648 and two blocks issued, the exact product 4294967296 exceeds the
capacity, but the call does not fail: it returns the wrapped product 0 and
issues a third block. -/
theorem wrapped_product_is_issued :
    (allocTimes decimalEnv 2
      (loaded (memoryOnlyConfig "4294967295" "2147483648") [])).m_usedBlocks = 2 ∧
    (4294967295 : Nat) < 2 * 2147483648 ∧
    ( getMemoryAddress decimalEnv (allocTimes decimalEnv 2
      (loaded (memoryOnlyConfig "4294967295" "2147483648") []))).1 = 0 ∧
    ( getMemoryAddress decimalEnv (allocTimes decimalEnv 2
      (loaded (memoryOnlyConfig "4294967295" "2147483648") []))).2.m_usedBlocks = 3 := by
  decide

/-- C14, amended: `getMemoryAddress` compares the product of the block size
and the issued-block count, reduced modulo `2 ^ 32`, with the capacity; it
fails exactly when that reduced product exceeds the capacity.  Hence it fails
whenever the exact product `n * b` exceeds `c`, provided `n * b` fits in 32
bits. -/
theorem allocator_compares_wrapped_product (env : Env) (sim : Simulator) (b c n : Nat)
    (hcfg : memoryConfigLoop env sim.m_config (UINT_MAX, UINT_MAX) = some (c, b))
    (hn : sim.m_usedBlocks = (n : Int)) :
    (c < (n * b) % 2 ^ 32 → getMemoryAddress env sim = (UINT_MAX, sim)) ∧
    ((n * b) % 2 ^ 32 ≤ c →
      getMemoryAddress env sim =
        ((n * b) % 2 ^ 32, { sim with m_usedBlocks := ((n + 1 : Nat) : Int) })) ∧
    (n * b < 2 ^ 32 → c < n * b → getMemoryAddress env sim = (UINT_MAX, sim)) := by
  have h := getMemoryAddress_eq env sim b c n hcfg hn
  refine ⟨?_, ?_, ?_⟩
  · intro hgt
    rw [h, if_pos hgt]
  · intro hle
    rw [h, if_neg (by omega)]
  · intro hfit hgt
    rw [h, Nat.mod_eq_of_lt hfit, if_pos hgt]

/-- Witness for C14 (amended): capacity 100, block size 50, three blocks
issued; the product 150 fits and exceeds the capacity, so the call fails. -/
theorem allocator_compares_wrapped_product_witness :
    memoryConfigLoop decimalEnv
      ({ loaded sampleConfig [] with m_usedBlocks := 3 } : Simulator).m_config
      (UINT_MAX, UINT_MAX) = some (100, 50) ∧
    getMemoryAddress decimalEnv { loaded sampleConfig [] with m_usedBlocks := 3 } =
      (UINT_MAX, { loaded sampleConfig [] with m_usedBlocks := 3 }) :=
  ⟨by decide,
    (allocator_compares_wrapped_product decimalEnv
      { loaded sampleConfig [] with m_usedBlocks := 3 } 50 100 3 (by decide) (by decide)).2.2
      (by decide) (by decide)⟩

end OsSim

/-! ## Fresh memory for every program -/

namespace OsSim

theorem handleIO_log (app : Application) (ps : Pools) (op : Operation) :
    ( handleIO app ps op).2.1.m_logStr = app.m_logStr ∨
      ( handleIO app ps op).2.1.m_logStr = app.m_logStr ++ [LogEntry.hold (holdTime op)] := by
  unfold handleIO threadRunner Application.sleep
  simp only
  split_ifs <;> simp

/-- A pattern that already disagrees with a label within the label's length
is not an initial part of any text that starts with the label. -/
theorem isPrefixOf_append_false (pattern label rest : List Char)
    (h : (pattern.take label.length).isPrefixOf label = false) :
    pattern.isPrefixOf (label ++ rest) = false := by
  induction pattern generalizing label with
  | nil => simp at h
  | cons a pattern ih =>
    cases label with
    | nil => simp at h
    | cons b label =>
      simp only [List.length_cons, List.take_succ_cons, List.isPrefixOf, Bool.and_eq_false_imp,
        List.cons_append] at h ⊢
      intro hab
      exact ih label (h hab)

/-- A line that starts with a label that is no allocation line up to its
length is not an allocation line. -/
theorem isAllocLine_label (label x : String)
    (h : ("memory allocated at ".data.take label.data.length).isPrefixOf label.data = false) :
    (LogEntry.line (label ++ x)).isAllocLine = false := by
  simp only [LogEntry.isAllocLine, String.data_append]
  exact isPrefixOf_append_false _ _ _ h

/-- The entries one input or output case adds to the log: none of them is an
allocation line, and the allocator is not touched. -/
theorem ioCase_spec (app : Application) (sim : Simulator) (op : Operation)
    (startLine endLabel : String)
    (hs : (LogEntry.line startLine).isAllocLine = false)
    (he : ("memory allocated at ".data.take endLabel.data.length).isPrefixOf
      endLabel.data = false) :
    ∃ added, (ioCase app sim op startLine endLabel).1.m_logStr = app.m_logStr ++ added ∧
      (∀ e ∈ added, e.isAllocLine = false) ∧
      (ioCase app sim op startLine endLabel).2.m_usedBlocks = sim.m_usedBlocks := by
  have hend := isAllocLine_label endLabel
    (toString ( handleIO (app.output startLine) sim.pools op).1) he
  have happ : (app.output startLine).m_logStr = app.m_logStr ++ [LogEntry.line startLine] :=
    rfl
  have hlog : (ioCase app sim op startLine endLabel).1.m_logStr =
      ( handleIO (app.output startLine) sim.pools op).2.1.m_logStr ++
        [LogEntry.line (endLabel ++
          toString ( handleIO (app.output startLine) sim.pools op).1)] := rfl
  rcases handleIO_log (app.output startLine) sim.pools op with h | h
  · refine ⟨[LogEntry.line startLine, LogEntry.line (endLabel ++
      toString ( handleIO (app.output startLine) sim.pools op).1)], ?_, ?_, rfl⟩
    · rw [hlog, h, happ]
      simp
    · intro e hmem
      simp only [List.mem_cons, List.mem_singleton, List.not_mem_nil, or_false] at hmem
      rcases hmem with rfl | rfl
      · exact hs
      · exact hend
  · refine ⟨[LogEntry.line startLine, LogEntry.hold (holdTime op), LogEntry.line (endLabel ++
      toString ( handleIO (app.output startLine) sim.pools op).1)], ?_, ?_, rfl⟩
    · rw [hlog, h, happ]
      simp
    · intro e hmem
      simp only [List.mem_cons, List.mem_singleton, List.not_mem_nil, or_false] at hmem
      rcases hmem with rfl | rfl | rfl
      · exact hs
      · rfl
      · exact hend

/-- With no block issued `getMemoryAddress` either returns address 0 or
fails in the conversion of the configuration, leaving the count at 0. -/
theorem getMemoryAddress_zero (env : Env) (sim : Simulator) (h0 : sim.m_usedBlocks = 0) :
    ( getMemoryAddress env sim).1 = 0 ∨
      (( getMemoryAddress env sim).1 = UINT_MAX ∧
        ( getMemoryAddress env sim).2.m_usedBlocks = 0) := by
  unfold getMemoryAddress
  cases hc : memoryConfigLoop env sim.m_config (UINT_MAX, UINT_MAX) with
  | none => exact Or.inr ⟨rfl, h0⟩
  | some p =>
    rcases p with ⟨t, b⟩
    have hz : (b * toUInt sim.m_usedBlocks) % 2 ^ 32 = 0 := by
      rw [h0]
      simp [toUInt]
    simp only [hz]
    have hn : ¬ (0 > t) := by omega
    simp only [hn, if_false]
    exact Or.inl trivial

/-- The entries one operation adds to the log when no block is issued
before it: either none is an allocation line and still no block is issued,
or the first allocation line is the one for address 0. -/
theorem executeOp_spec (env : Env) (app : Application) (sim : Simulator) (op : Operation) :
    ∃ added, (executeOp env app sim op).1.m_logStr = app.m_logStr ++ added ∧
      (sim.m_usedBlocks = 0 →
        ((∀ e ∈ added, e.isAllocLine = false) ∧
          (executeOp env app sim op).2.m_usedBlocks = 0) ∨
        added.find? LogEntry.isAllocLine =
          some (LogEntry.line "memory allocated at 0x00000000")) := by
  have plain : ∀ (a b : String) (n : Nat),
      (LogEntry.line a).isAllocLine = false → (LogEntry.line b).isAllocLine = false →
      ∃ added, (((app.output a).sleep n).output b).m_logStr = app.m_logStr ++ added ∧
        (sim.m_usedBlocks = 0 →
          ((∀ e ∈ added, e.isAllocLine = false) ∧ sim.m_usedBlocks = 0) ∨
          added.find? LogEntry.isAllocLine =
            some (LogEntry.line "memory allocated at 0x00000000")) := by
    intro a b n ha hb
    refine ⟨[LogEntry.line a, LogEntry.hold n, LogEntry.line b], ?_, ?_⟩
    · simp [Application.output, Application.sleep]
    · intro h0
      refine Or.inl ⟨?_, h0⟩
      intro e hmem
      simp only [List.mem_cons, List.mem_singleton, List.not_mem_nil, or_false] at hmem
      rcases hmem with rfl | rfl | rfl
      · exact ha
      · rfl
      · exact hb
  have io : ∀ (startLine endLabel : String),
      (LogEntry.line startLine).isAllocLine = false →
      ("memory allocated at ".data.take endLabel.data.length).isPrefixOf
        endLabel.data = false →
      ∃ added, (ioCase app sim op startLine endLabel).1.m_logStr = app.m_logStr ++ added ∧
        (sim.m_usedBlocks = 0 →
          ((∀ e ∈ added, e.isAllocLine = false) ∧
            (ioCase app sim op startLine endLabel).2.m_usedBlocks = 0) ∨
          added.find? LogEntry.isAllocLine =
            some (LogEntry.line "memory allocated at 0x00000000")) := by
    intro startLine endLabel hs he
    rcases ioCase_spec app sim op startLine endLabel hs he with ⟨added, h1, h2, h3⟩
    exact ⟨added, h1, fun h0 => Or.inl ⟨h2, by rw [h3]; exact h0⟩⟩
  have none : ∃ added, app.m_logStr = app.m_logStr ++ added ∧
      (sim.m_usedBlocks = 0 →
        ((∀ e ∈ added, e.isAllocLine = false) ∧ sim.m_usedBlocks = 0) ∨
        added.find? LogEntry.isAllocLine =
          some (LogEntry.line "memory allocated at 0x00000000")) :=
    ⟨[], by simp, fun h0 => Or.inl ⟨by simp, h0⟩⟩
  have alloc : ∃ added,
      (handleAllocate env (app.output "allocating memory") sim op).2.1.m_logStr =
        app.m_logStr ++ added ∧
      (sim.m_usedBlocks = 0 →
        ((∀ e ∈ added, e.isAllocLine = false) ∧
          (handleAllocate env (app.output "allocating memory") sim op).2.2.m_usedBlocks = 0) ∨
        added.find? LogEntry.isAllocLine =
          some (LogEntry.line "memory allocated at 0x00000000")) := by
    by_cases hfail : ( getMemoryAddress env sim).1 = UINT_MAX
    · refine ⟨[LogEntry.line "allocating memory"], ?_, ?_⟩
      · simp [handleAllocate, hfail, Application.output]
      · intro h0
        rcases getMemoryAddress_zero env sim h0 with hz | hz
        · rw [hz] at hfail
          exact absurd hfail (by decide)
        · refine Or.inl ⟨?_, ?_⟩
          · intro e hmem
            simp only [List.mem_singleton] at hmem
            subst hmem
            decide
          · simp only [handleAllocate, hfail, if_true]
            exact hz.2
    · refine ⟨[LogEntry.line "allocating memory", LogEntry.hold (holdTime op),
        LogEntry.line ("memory allocated at " ++ ("0x" ++ hex8 ( getMemoryAddress env sim).1))],
        ?_, ?_⟩
      · simp [handleAllocate, hfail, Application.output, Application.sleep]
      · intro h0
        rcases getMemoryAddress_zero env sim h0 with hz | hz
        · refine Or.inr ?_
          rw [hz]
          have ha : (LogEntry.line "allocating memory").isAllocLine = false := by decide
          have hline : LogEntry.line ("memory allocated at " ++ ("0x" ++ hex8 0)) =
              LogEntry.line "memory allocated at 0x00000000" := by decide
          have hh : (LogEntry.hold (holdTime op)).isAllocLine = false := rfl
          have hc2 : (LogEntry.line "memory allocated at 0x00000000").isAllocLine = true := by
            decide
          simp only [List.find?_cons, ha, hh, hline, hc2]
        · exact absurd hz.1 hfail
  rcases op with ⟨⟨code, desc, cyc⟩, t⟩
  cases code <;> cases desc <;> simp only [executeOp] <;>
    first
    | exact none
    | exact alloc
    | exact plain _ _ _ (by decide) (by decide)
    | exact io _ _ (by decide) (by decide)

theorem executeLoop_spec (env : Env) (queue : List Operation) (app : Application)
    (sim : Simulator) :
    ∃ added, (executeLoop env queue app sim).2.1.m_logStr = app.m_logStr ++ added ∧
      (sim.m_usedBlocks = 0 →
        added.find? LogEntry.isAllocLine = none ∨
        added.find? LogEntry.isAllocLine =
          some (LogEntry.line "memory allocated at 0x00000000")) := by
  induction queue generalizing app sim with
  | nil => exact ⟨[], by simp [executeLoop], fun _ => Or.inl rfl⟩
  | cons op rest ih =>
    rcases executeOp_spec env app sim op with ⟨added1, hlog1, hzero1⟩
    rw [executeLoop]
    by_cases herr : (executeOp env app sim op).1.m_errorStr.isEmpty = true
    · simp only [herr, if_true]
      rcases ih
        { (executeOp env app sim op).1 with
          m_opQueue := rest
          m_PCB := { (executeOp env app sim op).1.m_PCB with
            pCounter := ((executeOp env app sim op).1.m_PCB.pCounter + 1) % 2 ^ 32 } }
        (executeOp env app sim op).2 with ⟨added2, hlog2, hzero2⟩
      refine ⟨added1 ++ added2, ?_, ?_⟩
      · rw [hlog2]
        simp only [hlog1, List.append_assoc]
      · intro h0
        rw [List.find?_append]
        rcases hzero1 h0 with ⟨hnone, hcount⟩ | hfirst
        · have hn : added1.find? LogEntry.isAllocLine = none := by
            rw [List.find?_eq_none]
            intro e he
            simp [hnone e he]
          rw [hn]
          simpa using hzero2 hcount
        · rw [hfirst]
          exact Or.inr rfl
    · simp only [herr]
      refine ⟨added1, hlog1, ?_⟩
      intro h0
      rcases hzero1 h0 with ⟨hnone, _⟩ | hfirst
      · refine Or.inl ?_
        rw [List.find?_eq_none]
        intro e he
        simp [hnone e he]
      · exact Or.inr hfirst

theorem schedulerLoop_entered (env : Env) (apps : List Application) (sim : Simulator)
    (h0 : sim.m_usedBlocks = 0) :
    (∀ s ∈ (schedulerLoop env apps sim).entered, s.m_usedBlocks = 0) ∧
      ((schedulerLoop env apps sim).ok = true →
        (schedulerLoop env apps sim).entered.length = apps.length) := by
  induction apps generalizing sim with
  | nil => simp [schedulerLoop]
  | cons app rest ih =>
    have hstart : (startApplication app sim).2.m_usedBlocks = 0 := h0
    rw [schedulerLoop]
    by_cases hfail : (executeInstructions env (startApplication app sim).1
        (startApplication app sim).2).1 = false
    · simp only [hfail, if_true]
      refine ⟨?_, ?_⟩
      · intro s hs
        simp only [List.mem_singleton] at hs
        subst hs
        exact hstart
      · intro hc
        simp at hc
    · have hrec := ih
        (finishApplication
          (executeInstructions env (startApplication app sim).1 (startApplication app sim).2).2.1
          (executeInstructions env (startApplication app sim).1
            (startApplication app sim).2).2.2).2 rfl
      have hok : (executeInstructions env (startApplication app sim).1
          (startApplication app sim).2).1 = true := by simpa using hfail
      simp only [hok, Bool.true_eq_false, if_false]
      refine ⟨?_, ?_⟩
      · intro s hs
        simp only [List.mem_cons] at hs
        rcases hs with rfl | hs
        · exact hstart
        · exact hrec.1 s hs
      · intro hc
        simp only [List.length_cons]
        rw [hrec.2 hc]

/-- C15: when `runScheduler` starts with no block issued, the issued-block
count is 0 at every call of `executeInstructions` (one call per program when
the run succeeds), whatever earlier programs allocated; and a program
started at such a state logs, as its first allocation line if it logs one,
the line for address 0. -/
theorem fresh_memory_per_program (env : Env) (sim : Simulator)
    (h0 : sim.m_usedBlocks = 0) :
    (∀ s ∈ (runScheduler env sim).entered, s.m_usedBlocks = 0) ∧
    ((runScheduler env sim).ok = true →
      (runScheduler env sim).entered.length = sim.m_applications.length) ∧
    (∀ s ∈ (runScheduler env sim).entered, ∀ app : Application, ∃ added,
      (executeInstructions env app s).2.1.m_logStr = app.m_logStr ++ added ∧
      (added.find? LogEntry.isAllocLine = none ∨
        added.find? LogEntry.isAllocLine =
          some (LogEntry.line "memory allocated at 0x00000000"))) := by
  have hloop := schedulerLoop_entered env sim.m_applications
    { sim with m_fileOutput := sim.m_fileOutput ++ ["Simulator program starting\n"] } h0
  have hentered : ∀ s ∈ (runScheduler env sim).entered, s.m_usedBlocks = 0 := hloop.1
  refine ⟨hentered, hloop.2, ?_⟩
  intro s hs app
  rcases executeLoop_spec env app.m_opQueue app s with ⟨added, hlog, hzero⟩
  exact ⟨added, hlog, hzero (hentered s hs)⟩

/-- Witness for C15: two programs in the sample configuration; the second
one, too, is started with no block issued and gets address 0. -/
theorem fresh_memory_per_program_witness :
    twoPrograms.m_usedBlocks = 0 ∧
    (∀ s ∈ (runScheduler decimalEnv twoPrograms).entered, s.m_usedBlocks = 0) ∧
    (runScheduler decimalEnv twoPrograms).entered.length = 2 ∧
    (runScheduler decimalEnv twoPrograms).apps.map
        (fun app => app.m_logStr.find? LogEntry.isAllocLine) =
      [some (LogEntry.line "memory allocated at 0x00000000"),
        some (LogEntry.line "memory allocated at 0x00000000")] :=
  ⟨by decide, (fresh_memory_per_program decimalEnv twoPrograms (by decide)).1,
    (fresh_memory_per_program decimalEnv twoPrograms (by decide)).2.1 (by decide),
    by decide⟩

end OsSim

/-! ## Catalog construction -/

namespace OsSim

theorem cycleTimeFrom_defined (env : Env) (sim : Simulator) (category : ConfigCategory)
    (h : definesCycleTime env sim.m_config category) :
    ∃ t, cycleTimeFrom env sim category = Except.ok (t, sim) := by
  rcases h with ⟨configData, v, hscan, hv⟩
  exact ⟨toUInt v, by simp only [cycleTimeFrom, getConfigData, hscan, hv]⟩

theorem timePerCycleOf_legal (env : Env) (sim : Simulator) (data : Metadata)
    (hcfg : definesCycleTimes env sim.m_config) (hlegal : data.legal = true) :
    ∃ t, timePerCycleOf env sim data = Except.ok (t, sim) := by
  rcases hcfg with ⟨hproc, _, hhdd, hprn, hkbd, hmem⟩
  rcases data with ⟨code, desc, cyc⟩
  cases code <;> cases desc <;>
    simp only [Metadata.legal, legalPair, Bool.false_eq_true] at hlegal <;>
    simp only [timePerCycleOf] <;>
    first
    | exact ⟨0, rfl⟩
    | exact cycleTimeFrom_defined env sim _ hproc
    | exact cycleTimeFrom_defined env sim _ hhdd
    | exact cycleTimeFrom_defined env sim _ hprn
    | exact cycleTimeFrom_defined env sim _ hkbd
    | exact cycleTimeFrom_defined env sim _ hmem

theorem timePerCycleOf_illegal (env : Env) (sim : Simulator) (data : Metadata)
    (hillegal : data.legal = false) :
    timePerCycleOf env sim data =
      Except.ok (0, { sim with m_error := invalidDescriptorError data }) := by
  rcases data with ⟨code, desc, cyc⟩
  cases code <;> cases desc <;>
    simp only [Metadata.legal, legalPair, Bool.true_eq_false] at hillegal <;>
    simp only [timePerCycleOf]

theorem invalidDescriptorError_pair (code : MetaCode) (desc : MetaDesc) :
    (invalidDescriptorError { code := code, descriptor := desc, cycles := 0 }).isEmpty =
      false := by
  cases code <;> cases desc <;> decide

theorem invalidDescriptorError_isEmpty (data : Metadata) :
    (invalidDescriptorError data).isEmpty = false :=
  invalidDescriptorError_pair data.code data.descriptor

/-- The loop over a run of legal entries: it neither returns nor sets an
error, and appends one operation per entry, in order, with the entry as its
data. -/
theorem contructLoop_legal (env : Env) (pre : List Metadata) (sim : Simulator)
    (hcfg : definesCycleTimes env sim.m_config) (herr : sim.m_error = "")
    (hlegal : ∀ d ∈ pre, d.legal = true) :
    ∃ sim1, (∀ rest, contructLoop env (pre ++ rest) sim = contructLoop env rest sim1) ∧
      sim1.m_operations.map (fun op => op.data) =
        sim.m_operations.map (fun op => op.data) ++ pre ∧
      sim1.m_error = "" ∧ sim1.m_config = sim.m_config := by
  induction pre generalizing sim with
  | nil => exact ⟨sim, fun _ => rfl, by simp, herr, rfl⟩
  | cons data pre ih =>
    rcases timePerCycleOf_legal env sim data hcfg (hlegal data (List.mem_cons_self _ _))
      with ⟨t, ht⟩
    have hempty : sim.m_error.isEmpty = true := by rw [herr]; decide
    rcases ih { sim with m_operations := sim.m_operations ++ [{ data := data, timePerCycle := t }] }
      hcfg herr (fun d hd => hlegal d (List.mem_cons_of_mem _ hd)) with ⟨sim1, hrun, hops, he, hc⟩
    refine ⟨sim1, ?_, ?_, he, hc⟩
    · intro rest
      rw [List.cons_append, contructLoop]
      simp only [ht, hempty, if_true]
      exact hrun rest
    · rw [hops]
      simp

theorem first_illegal (metadata : List Metadata)
    (h : ¬ ∀ d ∈ metadata, d.legal = true) :
    ∃ pre bad post, metadata = pre ++ bad :: post ∧ (∀ d ∈ pre, d.legal = true) ∧
      bad.legal = false := by
  induction metadata with
  | nil => exact absurd (fun d hd => absurd hd (List.not_mem_nil d)) h
  | cons data rest ih =>
    by_cases hd : data.legal = true
    · have hrest : ¬ ∀ d ∈ rest, d.legal = true := by
        intro hall
        apply h
        intro d hmem
        rcases List.mem_cons.mp hmem with rfl | hmem
        · exact hd
        · exact hall d hmem
      rcases ih hrest with ⟨pre, bad, post, heq, hpre, hbad⟩
      refine ⟨data :: pre, bad, post, by rw [heq]; rfl, ?_, hbad⟩
      intro d hmem
      rcases List.mem_cons.mp hmem with rfl | hmem
      · exact hd
      · exact hpre d hmem
    · exact ⟨[], data, rest, rfl, fun d hmem => absurd hmem (List.not_mem_nil d),
        by simpa using hd⟩

/-- The loop at the first entry whose pairing is not legal: it returns false
with the error of that entry, and the operations built are those of the
entries in front of it. -/
theorem contructLoop_reject (env : Env) (pre : List Metadata) (bad : Metadata)
    (post : List Metadata) (sim : Simulator)
    (hcfg : definesCycleTimes env sim.m_config) (herr : sim.m_error = "")
    (hlegal : ∀ d ∈ pre, d.legal = true) (hbad : bad.legal = false) :
    ∃ sim1, contructLoop env (pre ++ bad :: post) sim = Except.ok (false, sim1) ∧
      sim1.m_error = invalidDescriptorError bad ∧
      sim1.m_operations.map (fun op => op.data) =
        sim.m_operations.map (fun op => op.data) ++ pre := by
  rcases contructLoop_legal env pre sim hcfg herr hlegal with ⟨sim1, hrun, hops, _, _⟩
  refine ⟨{ sim1 with m_error := invalidDescriptorError bad }, ?_, rfl, hops⟩
  rw [hrun, contructLoop]
  simp only [timePerCycleOf_illegal env sim1 bad hbad, invalidDescriptorError_isEmpty]
  rfl

/-- C16: with a configuration that defines every cycle time with valid
units (and no error set, no operation built yet), `contructOperations`
returns true with one operation per metadata entry, in order and with the
entry's code, descriptor and cycles, exactly when every entry's pairing is
legal; at the first entry with another pairing it returns false with a
non-empty error, having built operations for the entries in front of it
only. -/
theorem catalog_validation (env : Env) (sim : Simulator)
    (hcfg : definesCycleTimes env sim.m_config) (herr : sim.m_error = "")
    (hops : sim.m_operations = []) :
    ((∀ d ∈ sim.m_metadata, d.legal = true) ↔
      ∃ sim1, contructOperations env sim = Except.ok (true, sim1) ∧
        sim1.m_operations.map (fun op => op.data) = sim.m_metadata) ∧
    (∀ pre bad post, sim.m_metadata = pre ++ bad :: post →
      (∀ d ∈ pre, d.legal = true) → bad.legal = false →
      ∃ sim1, contructOperations env sim = Except.ok (false, sim1) ∧
        sim1.m_error ≠ "" ∧ sim1.m_operations.map (fun op => op.data) = pre) := by
  have hreject : ∀ pre bad post, sim.m_metadata = pre ++ bad :: post →
      (∀ d ∈ pre, d.legal = true) → bad.legal = false →
      ∃ sim1, contructOperations env sim = Except.ok (false, sim1) ∧
        sim1.m_error ≠ "" ∧ sim1.m_operations.map (fun op => op.data) = pre := by
    intro pre bad post hsplit hpre hbad
    rcases contructLoop_reject env pre bad post sim hcfg herr hpre hbad
      with ⟨sim1, hrun, he, hbuilt⟩
    refine ⟨sim1, ?_, ?_, ?_⟩
    · rw [contructOperations, hsplit]; exact hrun
    · intro hc
      have hne := invalidDescriptorError_isEmpty bad
      rw [← he, hc] at hne
      exact absurd hne (by decide)
    · rw [hbuilt, hops]; rfl
  refine ⟨⟨?_, ?_⟩, hreject⟩
  · intro hall
    rcases contructLoop_legal env sim.m_metadata sim hcfg herr hall
      with ⟨sim1, hrun, hbuilt, _, _⟩
    refine ⟨sim1, ?_, ?_⟩
    · have h := hrun []
      rw [List.append_nil] at h
      rw [contructOperations, h, contructLoop]
    · rw [hbuilt, hops]; rfl
  · rintro ⟨sim1, hrun, _⟩
    by_contra hnot
    rcases first_illegal sim.m_metadata hnot with ⟨pre, bad, post, hsplit, hpre, hbad⟩
    rcases hreject pre bad post hsplit hpre hbad with ⟨sim2, hrun2, _, _⟩
    rw [hrun] at hrun2
    simp at hrun2

theorem sampleConfig_defines : definesCycleTimes decimalEnv sampleConfig :=
  ⟨⟨_, 10, rfl, by decide⟩, ⟨_, 20, rfl, by decide⟩, ⟨_, 15, rfl, by decide⟩,
    ⟨_, 25, rfl, by decide⟩, ⟨_, 50, rfl, by decide⟩, ⟨_, 30, rfl, by decide⟩⟩

/-- Witness for C16 in the sample configuration: a stream of legal entries is
accepted, and a stream whose second entry is process/cache is rejected after
one operation. -/
theorem catalog_validation_witness :
    definesCycleTimes decimalEnv (loaded sampleConfig legalMetadata).m_config ∧
    (loaded sampleConfig legalMetadata).m_error = "" ∧
    (loaded sampleConfig legalMetadata).m_operations = [] ∧
    (∃ sim1, contructOperations decimalEnv (loaded sampleConfig legalMetadata) =
        Except.ok (true, sim1) ∧
      sim1.m_operations.map (fun op => op.data) = legalMetadata) ∧
    (∃ sim1,
      contructOperations decimalEnv
          (loaded sampleConfig
            [ { code := MetaCode.M_OPER_SYS, descriptor := MetaDesc.M_START, cycles := 0 },
              { code := MetaCode.M_PROCESS, descriptor := MetaDesc.M_CACHE, cycles := 4 },
              { code := MetaCode.M_OPER_SYS, descriptor := MetaDesc.M_END, cycles := 0 } ]) =
        Except.ok (false, sim1) ∧
      sim1.m_error ≠ "" ∧
      sim1.m_operations.map (fun op => op.data) =
        [ { code := MetaCode.M_OPER_SYS, descriptor := MetaDesc.M_START, cycles := 0 } ]) :=
  ⟨sampleConfig_defines, rfl, rfl,
    (catalog_validation decimalEnv (loaded sampleConfig legalMetadata)
      sampleConfig_defines rfl rfl).1.mp (by decide),
    (catalog_validation decimalEnv
      (loaded sampleConfig
        [ { code := MetaCode.M_OPER_SYS, descriptor := MetaDesc.M_START, cycles := 0 },
          { code := MetaCode.M_PROCESS, descriptor := MetaDesc.M_CACHE, cycles := 4 },
          { code := MetaCode.M_OPER_SYS, descriptor := MetaDesc.M_END, cycles := 0 } ])
      sampleConfig_defines rfl rfl).2
      [ { code := MetaCode.M_OPER_SYS, descriptor := MetaDesc.M_START, cycles := 0 } ]
      { code := MetaCode.M_PROCESS, descriptor := MetaDesc.M_CACHE, cycles := 4 }
      [ { code := MetaCode.M_OPER_SYS, descriptor := MetaDesc.M_END, cycles := 0 } ]
      rfl (by decide) (by decide)⟩

/-- C17: in the sample configuration the monitor cycle time is 20 and the
keyboard cycle time is 50; the cost source of output/monitor is the monitor
cycle time, but the operation `contructOperations` builds for an
output/monitor entry has per-cycle time 50, the keyboard cycle time. -/
theorem monitor_output_gets_keyboard_time :
    costSource MetaCode.M_OUTPUT MetaDesc.M_MONITOR = some ConfigCategory.C_MONITOR ∧
    configuredCycleTime decimalEnv sampleConfig ConfigCategory.C_MONITOR = some 20 ∧
    configuredCycleTime decimalEnv sampleConfig ConfigCategory.C_KEYBOARD = some 50 ∧
    (contructOperations decimalEnv
        (loaded sampleConfig
          [ { code := MetaCode.M_OUTPUT, descriptor := MetaDesc.M_MONITOR, cycles := 1 } ])
      ).toOption.map (fun r => (r.1, r.2.m_operations)) =
      some (true,
        [ { data := { code := MetaCode.M_OUTPUT, descriptor := MetaDesc.M_MONITOR,
                      cycles := 1 }
            timePerCycle := 50 } ]) := by
  decide

/-- C18, as the claim states it, fails: the error set for a process/cache
entry is `Metadata descriptor "cache" is not valid for m_metadata code "P"`,
which does not contain the word "process". -/
theorem process_cache_error_lacks_process :
    (contructOperations decimalEnv
        (loaded sampleConfig
          [ { code := MetaCode.M_PROCESS, descriptor := MetaDesc.M_CACHE, cycles := 0 } ])
      ).toOption.map (fun r => (r.1, r.2.m_error)) =
      some (false, "Metadata descriptor \"cache\" is not valid for m_metadata code \"P\"") ∧
    containsText "Metadata descriptor \"cache\" is not valid for m_metadata code \"P\""
      "process" = false := by
  decide

/-- C18, amended: when the first entry with an illegal pairing is a process
entry with descriptor cache, `contructOperations` rejects it and the error
string is `Metadata descriptor "cache" is not valid for m_metadata code "P"`:
it contains the word "cache" and names the code by its letter, "P". -/
theorem process_cache_error (env : Env) (sim : Simulator) (pre post : List Metadata)
    (cycles : Int)
    (hcfg : definesCycleTimes env sim.m_config) (herr : sim.m_error = "")
    (hsplit : sim.m_metadata = pre ++
      { code := MetaCode.M_PROCESS, descriptor := MetaDesc.M_CACHE, cycles := cycles } :: post)
    (hpre : ∀ d ∈ pre, d.legal = true) :
    ∃ sim1, contructOperations env sim = Except.ok (false, sim1) ∧
      sim1.m_error =
        "Metadata descriptor \"cache\" is not valid for m_metadata code \"P\"" ∧
      containsText sim1.m_error "cache" = true ∧
      containsText sim1.m_error "\"P\"" = true := by
  rcases contructLoop_reject env pre
    { code := MetaCode.M_PROCESS, descriptor := MetaDesc.M_CACHE, cycles := cycles } post sim
    hcfg herr hpre rfl with ⟨sim1, hrun, he, _⟩
  have htext : invalidDescriptorError
      { code := MetaCode.M_PROCESS, descriptor := MetaDesc.M_CACHE, cycles := cycles } =
      "Metadata descriptor \"cache\" is not valid for m_metadata code \"P\"" :=
    (by decide : invalidDescriptorError
      { code := MetaCode.M_PROCESS, descriptor := MetaDesc.M_CACHE, cycles := 0 } =
      "Metadata descriptor \"cache\" is not valid for m_metadata code \"P\"")
  refine ⟨sim1, ?_, ?_, ?_, ?_⟩
  · rw [contructOperations, hsplit]; exact hrun
  · rw [he, htext]
  · rw [he, htext]; decide
  · rw [he, htext]; decide

/-- Witness for C18 (amended) in the sample configuration. -/
theorem process_cache_error_witness :
    definesCycleTimes decimalEnv sampleConfig ∧
    ∃ sim1,
      contructOperations decimalEnv
          (loaded sampleConfig
            [ { code := MetaCode.M_OPER_SYS, descriptor := MetaDesc.M_START, cycles := 0 },
              { code := MetaCode.M_PROCESS, descriptor := MetaDesc.M_CACHE, cycles := 4 } ]) =
        Except.ok (false, sim1) ∧
      sim1.m_error =
        "Metadata descriptor \"cache\" is not valid for m_metadata code \"P\"" ∧
      containsText sim1.m_error "cache" = true ∧
      containsText sim1.m_error "\"P\"" = true :=
  ⟨sampleConfig_defines,
    process_cache_error decimalEnv
      (loaded sampleConfig
        [ { code := MetaCode.M_OPER_SYS, descriptor := MetaDesc.M_START, cycles := 0 },
          { code := MetaCode.M_PROCESS, descriptor := MetaDesc.M_CACHE, cycles := 4 } ])
      [ { code := MetaCode.M_OPER_SYS, descriptor := MetaDesc.M_START, cycles := 0 } ] [] 4
      sampleConfig_defines rfl rfl (by decide)⟩

end OsSim

/-! ## Loading the operation stream -/

namespace OsSim

theorem loadStep_operations (st st1 : LoadState) (op : Operation)
    (h : loadStep st op = Except.ok st1) :
    st1.sim.m_operations = st.sim.m_operations := by
  rcases op with ⟨⟨code, desc, cyc⟩, t⟩
  cases code <;> cases desc <;> simp only [loadStep] at h <;>
    first
    | (cases h; rfl)
    | (cases hp : st.app <;> simp only [hp] at h <;> first | (cases h; rfl) | cases h)

/-- The loop of `loadOperations`, when it has a result: a return inside the
loop happens with a non-empty error, and the loop never changes
`m_operations`. -/
theorem loadLoop_spec (interior : List Operation) (st : LoadState)
    (r : Sum Simulator LoadState) (h : loadLoop interior st = Except.ok r) :
    match r with
    | Sum.inl sim2 => sim2.m_error.isEmpty = false
    | Sum.inr st1 => st1.sim.m_operations = st.sim.m_operations := by
  induction interior generalizing st with
  | nil =>
    simp only [loadLoop, Except.ok.injEq] at h
    subst h
    rfl
  | cons op rest ih =>
    rw [loadLoop] at h
    cases hstep : loadStep st op with
    | error f => simp only [hstep] at h; cases h
    | ok st1 =>
      simp only [hstep] at h
      by_cases he : st1.sim.m_error.isEmpty = true
      · simp only [he, if_true] at h
        have hrec := ih st1 h
        cases r with
        | inl sim2 => exact hrec
        | inr st2 =>
          simp only at hrec ⊢
          rw [hrec, loadStep_operations st st1 op hstep]
      · simp only [he] at h
        simp only [Bool.false_eq_true, if_false, Except.ok.injEq] at h
        subst h
        simpa using he

theorem outputs_fields (sim : Simulator) :
    (outputMetrics (outputConfig sim)).m_operations = sim.m_operations ∧
      (outputMetrics (outputConfig sim)).m_error = sim.m_error ∧
      (outputMetrics (outputConfig sim)).m_applications = sim.m_applications :=
  ⟨rfl, rfl, rfl⟩

/-- What holds of `loadOperations` whenever it has a result: it returns true
only for a stream that starts with `S(start)` and ends with `S(end)`; a
stream that does not start with `S(start)` is rejected at once with the error
"Operating system not started in m_metadata"; and a result for a stream that
does not end with `S(end)` is false with a non-empty error. -/
theorem loadOperations_bracketing (sim : Simulator) :
    (∀ sim1, loadOperations sim = Except.ok (true, sim1) →
      ∃ front back, sim.m_operations.head? = some front ∧ front.isSystemStart = true ∧
        sim.m_operations.getLast? = some back ∧ back.isSystemEnd = true) ∧
    (∀ front, sim.m_operations.head? = some front → front.isSystemStart = false →
      loadOperations sim = Except.ok (false,
        { outputMetrics (outputConfig sim) with
          m_error := "Operating system not started in m_metadata" })) ∧
    (∀ b sim1 back, loadOperations sim = Except.ok (b, sim1) →
      sim.m_operations.getLast? = some back → back.isSystemEnd = false →
      b = false ∧ sim1.m_error.isEmpty = false) := by
  have hops : (outputMetrics (outputConfig sim)).m_operations = sim.m_operations := rfl
  refine ⟨?_, ?_, ?_⟩
  · intro sim1 h
    unfold loadOperations at h
    simp only [hops] at h
    cases hf : sim.m_operations.head? with
    | none => simp only [hf] at h; cases h
    | some front =>
      simp only [hf] at h
      by_cases hs : front.isSystemStart = true
      · simp only [hs, not_true_eq_false, if_false] at h
        cases hl : loadLoop (interiorOps sim.m_operations)
            { appIndex := 0, app := AppPtr.indeterminate,
              sim := outputMetrics (outputConfig sim) } with
        | error f => simp only [hl] at h; cases h
        | ok r =>
          simp only [hl] at h
          cases r with
          | inl sim2 => simp at h
          | inr st =>
            have hsame := loadLoop_spec _ _ _ hl
            simp only at hsame h
            rw [hsame, hops] at h
            cases hb : sim.m_operations.getLast? with
            | none => simp only [hb] at h; cases h
            | some back =>
              simp only [hb] at h
              by_cases he : back.isSystemEnd = true
              · exact ⟨front, back, rfl, hs, rfl, he⟩
              · simp [he] at h
      · simp [hs] at h
  · intro front hf hs
    unfold loadOperations
    simp only [hops, hf, hs, Bool.false_eq_true, not_false_eq_true, if_true]
  · intro b sim1 back h hb he
    unfold loadOperations at h
    simp only [hops] at h
    cases hf : sim.m_operations.head? with
    | none => simp only [hf] at h; cases h
    | some front =>
      simp only [hf] at h
      by_cases hs : front.isSystemStart = true
      · simp only [hs, not_true_eq_false, if_false] at h
        cases hl : loadLoop (interiorOps sim.m_operations)
            { appIndex := 0, app := AppPtr.indeterminate,
              sim := outputMetrics (outputConfig sim) } with
        | error f => simp only [hl] at h; cases h
        | ok r =>
          simp only [hl] at h
          have hspec := loadLoop_spec _ _ _ hl
          cases r with
          | inl sim2 =>
            simp only [Except.ok.injEq, Prod.mk.injEq] at h
            rcases h with ⟨hb1, hs1⟩
            subst hb1 hs1
            exact ⟨rfl, hspec⟩
          | inr st =>
            simp only at hspec h
            rw [hspec, hops, hb] at h
            simp only [he, Bool.false_eq_true, not_false_eq_true, if_true, Except.ok.injEq,
              Prod.mk.injEq] at h
            rcases h with ⟨hb1, hs1⟩
            subst hb1 hs1
            exact ⟨rfl,
              (by decide : ("Operating system not ended in m_metadata" : String).isEmpty = false)⟩
      · simp only [hs, Bool.false_eq_true, not_false_eq_true, if_true, Except.ok.injEq,
          Prod.mk.injEq] at h
        rcases h with ⟨hb1, hs1⟩
        subst hb1 hs1
        exact ⟨rfl,
          (by decide : ("Operating system not started in m_metadata" : String).isEmpty = false)⟩

/-- C19: for the stream S(start)0, P(run)3, A(end)0, whose last operation is
not `S(end)`, `loadOperations` has no defined result: at the process
operation it tests the pointer `app`, which has not been given a value. (The
one-operation stream S(start)0 is rejected as the claim says.) -/
theorem loadOperations_reads_unset_pointer :
    faultOf (loadOperations (initialized sampleConfig
      [marker MetaCode.M_OPER_SYS MetaDesc.M_START, processRun 3 10,
        marker MetaCode.M_PROGRAM_APP MetaDesc.M_END] (freshPools 1 1 1 1))) =
      some Fault.undefined ∧
    (loadOperations (initialized sampleConfig
      [marker MetaCode.M_OPER_SYS MetaDesc.M_START] (freshPools 1 1 1 1))).toOption.map
        (fun r => (r.1, r.2.m_error)) =
      some (false, "Operating system not ended in m_metadata") := by
  decide

/-- C20: for the stream S(start)0, P(run)3, A(start)0, which starts with
`S(start)` and does not end with `S(end)`, `run` has no defined result, for
the same reason: `loadOperations` tests the pointer `app` before it has a
value. (For S(start)0, A(start)0, P(run)3, where no operation precedes the
first program start, both the first and the second `run` return false with
the error "Operating system not ended in m_metadata" and the program is in
state NEW with program counter 0.) -/
theorem run_reads_unset_pointer :
    faultOf (run decimalEnv (initialized sampleConfig
      [marker MetaCode.M_OPER_SYS MetaDesc.M_START, processRun 3 10,
        marker MetaCode.M_PROGRAM_APP MetaDesc.M_START] (freshPools 1 1 1 1))) =
      some Fault.undefined ∧
    (run decimalEnv (initialized sampleConfig
      [marker MetaCode.M_OPER_SYS MetaDesc.M_START,
        marker MetaCode.M_PROGRAM_APP MetaDesc.M_START, processRun 3 10]
      (freshPools 1 1 1 1))).toOption.map
        (fun r => (r.1, r.2.m_error, r.2.m_applications.map (fun app => app.m_PCB),
          (run decimalEnv r.2).toOption.map (fun r2 => (r2.1, r2.2.m_error)))) =
      some (false, "Operating system not ended in m_metadata",
        [{ pid := 1, pCounter := 0, pState := ProcessState.NEW }],
        some (false, "Operating system not ended in m_metadata")) := by
  decide

end OsSim

/-! ## Executing a program queue -/

namespace OsSim

theorem handleIO_setQueue (app : Application) (ps : Pools) (op : Operation)
    (queue : List Operation) :
    handleIO { app with m_opQueue := queue } ps op =
      (( handleIO app ps op).1, { ( handleIO app ps op).2.1 with m_opQueue := queue },
        ( handleIO app ps op).2.2) := by
  unfold handleIO threadRunner Application.sleep
  simp only
  split_ifs <;> rfl

theorem handleIO_fields (app : Application) (ps : Pools) (op : Operation) :
    ( handleIO app ps op).2.1.m_PCB = app.m_PCB ∧
      ( handleIO app ps op).2.1.m_opQueue = app.m_opQueue ∧
      ( handleIO app ps op).2.1.m_appID = app.m_appID := by
  unfold handleIO threadRunner Application.sleep
  simp only
  split_ifs <;> simp

theorem handleAllocate_setQueue (env : Env) (app : Application) (sim : Simulator)
    (op : Operation) (queue : List Operation) :
    handleAllocate env { app with m_opQueue := queue } sim op =
      ((handleAllocate env app sim op).1,
        { (handleAllocate env app sim op).2.1 with m_opQueue := queue },
        (handleAllocate env app sim op).2.2) := by
  unfold handleAllocate
  by_cases h : ( getMemoryAddress env sim).1 = UINT_MAX
  · simp only [h, if_true]
  · simp only [h, if_false]
    rfl

theorem handleAllocate_fields (env : Env) (app : Application) (sim : Simulator)
    (op : Operation) :
    (handleAllocate env app sim op).2.1.m_PCB = app.m_PCB ∧
      (handleAllocate env app sim op).2.1.m_opQueue = app.m_opQueue ∧
      (handleAllocate env app sim op).2.1.m_appID = app.m_appID := by
  unfold handleAllocate
  by_cases h : ( getMemoryAddress env sim).1 = UINT_MAX
  · simp only [h, if_true, and_self]
  · simp only [h, if_false]
    exact ⟨rfl, rfl, rfl⟩

/-- The queue field plays no part in the execution of one operation. -/
theorem executeOp_setQueue (env : Env) (app : Application) (sim : Simulator)
    (op : Operation) (queue : List Operation) :
    executeOp env { app with m_opQueue := queue } sim op =
      ({ (executeOp env app sim op).1 with m_opQueue := queue },
        (executeOp env app sim op).2) := by
  have io : ∀ s e : String, ioCase { app with m_opQueue := queue } sim op s e =
      ({ (ioCase app sim op s e).1 with m_opQueue := queue }, (ioCase app sim op s e).2) := by
    intro s e
    have h := handleIO_setQueue (app.output s) sim.pools op queue
    have happ : ({ app with m_opQueue := queue } : Application).output s =
        { app.output s with m_opQueue := queue } := rfl
    simp only [ioCase, happ, h]
    rfl
  have alloc : ((handleAllocate env
        (({ app with m_opQueue := queue } : Application).output "allocating memory") sim op).2.1,
      (handleAllocate env
        (({ app with m_opQueue := queue } : Application).output "allocating memory") sim op).2.2)
      = ({ (handleAllocate env (app.output "allocating memory") sim op).2.1 with
            m_opQueue := queue },
          (handleAllocate env (app.output "allocating memory") sim op).2.2) := by
    have h := handleAllocate_setQueue env (app.output "allocating memory") sim op queue
    have happ : ({ app with m_opQueue := queue } : Application).output "allocating memory" =
        { app.output "allocating memory" with m_opQueue := queue } := rfl
    rw [happ, h]
  rcases op with ⟨⟨code, desc, cyc⟩, t⟩
  cases code <;> cases desc <;> simp only [executeOp] <;>
    first
    | rfl
    | exact io _ _
    | exact alloc

/-- One operation leaves the process control block, the queue and the id of
the application as they are. -/
theorem executeOp_fields (env : Env) (app : Application) (sim : Simulator) (op : Operation) :
    (executeOp env app sim op).1.m_PCB = app.m_PCB ∧
      (executeOp env app sim op).1.m_opQueue = app.m_opQueue ∧
      (executeOp env app sim op).1.m_appID = app.m_appID := by
  have io : ∀ s e : String, (ioCase app sim op s e).1.m_PCB = app.m_PCB ∧
      (ioCase app sim op s e).1.m_opQueue = app.m_opQueue ∧
      (ioCase app sim op s e).1.m_appID = app.m_appID := by
    intro s e
    exact handleIO_fields (app.output s) sim.pools op
  have alloc := handleAllocate_fields env (app.output "allocating memory") sim op
  rcases op with ⟨⟨code, desc, cyc⟩, t⟩
  cases code <;> cases desc <;> simp only [executeOp] <;>
    first
    | exact ⟨trivial, trivial, trivial⟩
    | exact ⟨rfl, rfl, rfl⟩
    | exact io _ _
    | exact alloc

/-- An operation without a case in the `switch` changes nothing. -/
theorem executeOp_unhandled (env : Env) (app : Application) (sim : Simulator)
    (op : Operation) (h : handledPair op.data.code op.data.descriptor = false) :
    executeOp env app sim op = (app, sim) := by
  rcases op with ⟨⟨code, desc, cyc⟩, t⟩
  cases code <;> cases desc <;> first | rfl | exact Bool.noConfusion (h : true = false)

end OsSim

namespace OsSim

/-- One round of the loop of `executeInstructions` when the operation sets no
error. -/
theorem executeLoop_cons_ok (env : Env) (op : Operation) (rest : List Operation)
    (app : Application) (sim : Simulator)
    (h : (executeOp env app sim op).1.m_errorStr.isEmpty = true) :
    executeLoop env (op :: rest) app sim =
      executeLoop env rest
        { (executeOp env app sim op).1 with
          m_opQueue := rest
          m_PCB := { (executeOp env app sim op).1.m_PCB with
            pCounter := ((executeOp env app sim op).1.m_PCB.pCounter + 1) % 2 ^ 32 } }
        (executeOp env app sim op).2 := by
  rw [executeLoop]
  simp only [h, if_true]

/-- One round of the loop of `executeInstructions` when the operation sets an
error. -/
theorem executeLoop_cons_fail (env : Env) (op : Operation) (rest : List Operation)
    (app : Application) (sim : Simulator)
    (h : (executeOp env app sim op).1.m_errorStr.isEmpty = false) :
    executeLoop env (op :: rest) app sim =
      (false, (executeOp env app sim op).1, (executeOp env app sim op).2) := by
  rw [executeLoop]
  simp [h]

/-- A run that returns true has executed every operation: the queue is empty
and the counter has advanced by the number of operations, modulo `2 ^ 32`;
id, process id and process state are as before. -/
theorem executeLoop_true (env : Env) (queue : List Operation) (app : Application)
    (sim : Simulator) (hq : app.m_opQueue = queue) (hpc : app.m_PCB.pCounter < 2 ^ 32)
    (h : (executeLoop env queue app sim).1 = true) :
    (executeLoop env queue app sim).2.1.m_opQueue = [] ∧
      (executeLoop env queue app sim).2.1.m_PCB.pCounter =
        (app.m_PCB.pCounter + queue.length) % 2 ^ 32 := by
  induction queue generalizing app sim with
  | nil =>
    refine ⟨hq, ?_⟩
    simp only [executeLoop, List.length_nil, Nat.add_zero]
    exact (Nat.mod_eq_of_lt hpc).symm
  | cons op rest ih =>
    by_cases herr : (executeOp env app sim op).1.m_errorStr.isEmpty = true
    · rw [executeLoop_cons_ok env op rest app sim herr] at h ⊢
      have hf := executeOp_fields env app sim op
      have step := ih _ _ rfl (Nat.mod_lt _ (by norm_num)) h
      refine ⟨step.1, ?_⟩
      rw [step.2]
      simp only [hf.1, List.length_cons]
      omega
    · have hfalse : (executeOp env app sim op).1.m_errorStr.isEmpty = false := by
        simpa using herr
      rw [executeLoop_cons_fail env op rest app sim hfalse] at h
      exact absurd h (by simp)

/-- The run of a queue whose first part completes continues with the rest in
the state the first part leaves. -/
theorem executeLoop_append (env : Env) (pre rest : List Operation) (app : Application)
    (sim : Simulator)
    (h : (executeLoop env pre { app with m_opQueue := pre } sim).1 = true) :
    executeLoop env (pre ++ rest) { app with m_opQueue := pre ++ rest } sim =
      executeLoop env rest
        { (executeLoop env pre { app with m_opQueue := pre } sim).2.1 with m_opQueue := rest }
        (executeLoop env pre { app with m_opQueue := pre } sim).2.2 := by
  induction pre generalizing app sim with
  | nil => rfl
  | cons p pre ih =>
    have hset1 := executeOp_setQueue env app sim p (p :: pre)
    have hset2 := executeOp_setQueue env app sim p (p :: (pre ++ rest))
    by_cases herr : (executeOp env app sim p).1.m_errorStr.isEmpty = true
    · have h1 : (executeOp env { app with m_opQueue := p :: pre } sim p).1.m_errorStr.isEmpty
          = true := by rw [hset1]; exact herr
      have h2 : (executeOp env { app with m_opQueue := p :: (pre ++ rest) } sim p).1.m_errorStr.isEmpty
          = true := by rw [hset2]; exact herr
      rw [executeLoop_cons_ok env p pre _ sim h1] at h ⊢
      rw [List.cons_append, executeLoop_cons_ok env p (pre ++ rest) _ sim h2]
      rw [hset1] at h ⊢
      rw [hset2]
      exact ih
        { (executeOp env app sim p).1 with
          m_PCB := { (executeOp env app sim p).1.m_PCB with
            pCounter := ((executeOp env app sim p).1.m_PCB.pCounter + 1) % 2 ^ 32 } }
        (executeOp env app sim p).2 h
    · have hfalse : (executeOp env { app with m_opQueue := p :: pre } sim p).1.m_errorStr.isEmpty
          = false := by
        rw [hset1]
        simpa using herr
      rw [executeLoop_cons_fail env p pre _ sim hfalse] at h
      exact absurd h (by simp)

/-- A queue of operations without a case in the `switch` runs to the end. -/
theorem executeLoop_unhandled (env : Env) (queue : List Operation) (app : Application)
    (sim : Simulator) (herr : app.m_errorStr.isEmpty = true)
    (h : ∀ op ∈ queue, handledPair op.data.code op.data.descriptor = false) :
    (executeLoop env queue app sim).1 = true ∧ (executeLoop env queue app sim).2.2 = sim ∧
      (executeLoop env queue app sim).2.1.m_logStr = app.m_logStr := by
  induction queue generalizing app with
  | nil => exact ⟨rfl, rfl, rfl⟩
  | cons op rest ih =>
    have hop := executeOp_unhandled env app sim op (h op (List.mem_cons_self _ _))
    have hok : (executeOp env app sim op).1.m_errorStr.isEmpty = true := by rw [hop]; exact herr
    rw [executeLoop_cons_ok env op rest app sim hok, hop]
    exact ih _ herr (fun o ho => h o (List.mem_cons_of_mem _ ho))

end OsSim

namespace OsSim

/-- The case process/run of the `switch`. -/
theorem executeOp_processRun (env : Env) (app : Application) (sim : Simulator)
    (op : Operation)
    (h : op.data.code = MetaCode.M_PROCESS ∧ op.data.descriptor = MetaDesc.M_RUN) :
    executeOp env app sim op =
      (((app.output "processing action: start").sleep (holdTime op)).output
        "processing action: end", sim) := by
  rcases op with ⟨⟨code, desc, cyc⟩, t⟩
  obtain ⟨h1, h2⟩ := h
  simp only at h1 h2
  subst h1 h2
  rfl

/-- A queue of process/run operations runs to the end and leaves the
simulator as it is. -/
theorem executeLoop_processRun (env : Env) (queue : List Operation) (app : Application)
    (sim : Simulator) (herr : app.m_errorStr.isEmpty = true)
    (h : ∀ op ∈ queue,
      op.data.code = MetaCode.M_PROCESS ∧ op.data.descriptor = MetaDesc.M_RUN) :
    (executeLoop env queue app sim).1 = true ∧ (executeLoop env queue app sim).2.2 = sim ∧
      (executeLoop env queue app sim).2.1.m_errorStr = app.m_errorStr ∧
      (executeLoop env queue app sim).2.1.m_appID = app.m_appID := by
  induction queue generalizing app with
  | nil => exact ⟨rfl, rfl, rfl, rfl⟩
  | cons op rest ih =>
    have hop := executeOp_processRun env app sim op (h op (List.mem_cons_self _ _))
    have hok : (executeOp env app sim op).1.m_errorStr.isEmpty = true := by rw [hop]; exact herr
    rw [executeLoop_cons_ok env op rest app sim hok, hop]
    exact ih _ herr (fun o ho => h o (List.mem_cons_of_mem _ ho))

/-- With the availability count of the matching pool at 0, `handleIO` stores
the exhaustion message and performs no hold. -/
theorem handleIO_exhausted (app : Application) (ps : Pools) (op : Operation)
    (h0 : ps.semaphoreFor op.data.descriptor = some 0) :
    ( handleIO app ps op).2.1 =
      { app with m_errorStr := exhaustionMessage op.data.descriptor } := by
  rcases op with ⟨⟨code, desc, cyc⟩, t⟩
  cases desc <;> simp only [Pools.semaphoreFor, Option.some.injEq] at h0 <;>
    first
    | exact Option.noConfusion h0
    | simp [ handleIO, semaphoreCheck, Resource.available, exhaustionMessage, h0,
        (by decide : "Out of m_printers".isEmpty = false),
        (by decide : "Out of hard drives".isEmpty = false),
        (by decide : "Out of m_keyboards".isEmpty = false),
        (by decide : "Out of m_monitors".isEmpty = false)]

/-- An input or output operation on a pool whose availability count is 0
adds its start and end line to the log, no hold, and stores the exhaustion
message. -/
theorem executeOp_exhausted (env : Env) (app : Application) (sim : Simulator)
    (op : Operation) (hk : op.isDeviceTransfer = true)
    (h0 : sim.pools.semaphoreFor op.data.descriptor = some 0) :
    ∃ startLine endLine : String,
      (executeOp env app sim op).1 =
        { app with
          m_errorStr := exhaustionMessage op.data.descriptor
          m_logStr := app.m_logStr ++ [LogEntry.line startLine, LogEntry.line endLine] } := by
  have io : ∀ s e : String, ∃ startLine endLine : String,
      (ioCase app sim op s e).1 =
        { app with
          m_errorStr := exhaustionMessage op.data.descriptor
          m_logStr := app.m_logStr ++ [LogEntry.line startLine, LogEntry.line endLine] } := by
    intro s e
    refine ⟨s, e ++ toString ( handleIO (app.output s) sim.pools op).1, ?_⟩
    have h := handleIO_exhausted (app.output s) sim.pools op h0
    have hcase : (ioCase app sim op s e).1 =
        ( handleIO (app.output s) sim.pools op).2.1.output
          (e ++ toString ( handleIO (app.output s) sim.pools op).1) := rfl
    rw [hcase, h]
    simp [Application.output]
  rcases op with ⟨⟨code, desc, cyc⟩, t⟩
  cases code <;> cases desc <;>
    first
    | exact Bool.noConfusion (hk : false = true)
    | exact io _ _

end OsSim

/-! ## Program counter, first failure and traces of single operations -/

namespace OsSim

/-- The run of a program is the loop over its queue. -/
theorem executeInstructions_eq (env : Env) (app : Application) (sim : Simulator)
    (queue : List Operation) (hq : app.m_opQueue = queue) :
    executeInstructions env app sim = executeLoop env queue app sim := by
  subst hq
  rfl

/-- C23, as the claim states it, fails for a queue of 4294967296 operations:
the run of a program with that many process/run operations and program
counter 0 returns true, and the program counter, an `unsigned int`, is back
at 0 instead of 4294967296. -/
theorem counter_wraps_on_long_queue :
    (freshProgram 1 (List.replicate (2 ^ 32) (processRun 0 10))).m_opQueue.length = 2 ^ 32 ∧
    (freshProgram 1 (List.replicate (2 ^ 32) (processRun 0 10))).m_PCB.pCounter = 0 ∧
    (executeInstructions decimalEnv (freshProgram 1 (List.replicate (2 ^ 32) (processRun 0 10)))
      (loaded sampleConfig [])).1 = true ∧
    (executeInstructions decimalEnv (freshProgram 1 (List.replicate (2 ^ 32) (processRun 0 10)))
      (loaded sampleConfig [])).2.1.m_PCB.pCounter = 0 := by
  have hrun := executeLoop_processRun decimalEnv (List.replicate (2 ^ 32) (processRun 0 10))
    (freshProgram 1 (List.replicate (2 ^ 32) (processRun 0 10))) (loaded sampleConfig []) rfl
    (fun op hop => by rw [List.eq_of_mem_replicate hop]; exact ⟨rfl, rfl⟩)
  have hcount := executeLoop_true decimalEnv (List.replicate (2 ^ 32) (processRun 0 10))
    (freshProgram 1 (List.replicate (2 ^ 32) (processRun 0 10))) (loaded sampleConfig []) rfl
    (Nat.two_pow_pos 32) hrun.1
  have hq := executeInstructions_eq decimalEnv
    (freshProgram 1 (List.replicate (2 ^ 32) (processRun 0 10))) (loaded sampleConfig [])
    (List.replicate (2 ^ 32) (processRun 0 10)) rfl
  have hzero : (freshProgram 1 (List.replicate (2 ^ 32) (processRun 0 10))).m_PCB.pCounter = 0 :=
    rfl
  have h := hcount.2
  rw [List.length_replicate, hzero, Nat.zero_add, Nat.mod_self] at h
  rw [hq]
  exact ⟨List.length_replicate _ _, hzero, hrun.1, h⟩

/-- C23 (amended): for every program whose queue holds n operations and whose
program counter is 0, if `executeInstructions` returns true then the queue is
empty and the program counter equals n modulo 2^32; it equals n when n is
below 2^32. -/
theorem program_counter_on_success (env : Env) (app : Application) (sim : Simulator)
    (n : Nat) (hn : app.m_opQueue.length = n) (hpc : app.m_PCB.pCounter = 0)
    (h : (executeInstructions env app sim).1 = true) :
    (executeInstructions env app sim).2.1.m_opQueue = [] ∧
      (executeInstructions env app sim).2.1.m_PCB.pCounter = n % 2 ^ 32 ∧
      (n < 2 ^ 32 → (executeInstructions env app sim).2.1.m_PCB.pCounter = n) := by
  have hlt : app.m_PCB.pCounter < 2 ^ 32 := by rw [hpc]; exact Nat.two_pow_pos 32
  have hfacts := executeLoop_true env app.m_opQueue app sim rfl hlt h
  have hcount : (executeInstructions env app sim).2.1.m_PCB.pCounter = n % 2 ^ 32 := by
    rw [executeInstructions, hfacts.2, hpc, hn, Nat.zero_add]
  exact ⟨hfacts.1, hcount, fun hsmall => by rw [hcount, Nat.mod_eq_of_lt hsmall]⟩

/-- The program with a process/run and an allocation in the sample
configuration runs to the end with program counter 2. -/
theorem program_counter_on_success_witness :
    (executeInstructions decimalEnv (freshProgram 1 [processRun 3 10, allocateOp 1 30])
      (loaded sampleConfig [])).1 = true ∧
    (executeInstructions decimalEnv (freshProgram 1 [processRun 3 10, allocateOp 1 30])
      (loaded sampleConfig [])).2.1.m_opQueue = [] ∧
    (executeInstructions decimalEnv (freshProgram 1 [processRun 3 10, allocateOp 1 30])
      (loaded sampleConfig [])).2.1.m_PCB.pCounter = 2 :=
  ⟨by decide,
    (program_counter_on_success decimalEnv (freshProgram 1 [processRun 3 10, allocateOp 1 30])
      (loaded sampleConfig []) 2 rfl rfl (by decide)).1,
    (program_counter_on_success decimalEnv (freshProgram 1 [processRun 3 10, allocateOp 1 30])
      (loaded sampleConfig []) 2 rfl rfl (by decide)).2.2 (by norm_num)⟩

end OsSim

namespace OsSim

/-- The run of a queue whose operation at position `pre.length` is the first
to set an error: the result is the state that operation leaves when it is
executed after the run of the operations before it. -/
theorem executeLoop_first_failure (env : Env) (app : Application) (sim : Simulator)
    (pre : List Operation) (op : Operation) (post : List Operation)
    (hpc : app.m_PCB.pCounter < 2 ^ 32)
    (hpre : (executeLoop env pre { app with m_opQueue := pre } sim).1 = true)
    (hfail : (executeOp env
        { (executeLoop env pre { app with m_opQueue := pre } sim).2.1 with
          m_opQueue := op :: post }
        (executeLoop env pre { app with m_opQueue := pre } sim).2.2 op).1.m_errorStr.isEmpty
          = false) :
    executeLoop env (pre ++ op :: post) { app with m_opQueue := pre ++ op :: post } sim =
        (false,
          (executeOp env
            { (executeLoop env pre { app with m_opQueue := pre } sim).2.1 with
              m_opQueue := op :: post }
            (executeLoop env pre { app with m_opQueue := pre } sim).2.2 op).1,
          (executeOp env
            { (executeLoop env pre { app with m_opQueue := pre } sim).2.1 with
              m_opQueue := op :: post }
            (executeLoop env pre { app with m_opQueue := pre } sim).2.2 op).2) ∧
      (executeOp env
          { (executeLoop env pre { app with m_opQueue := pre } sim).2.1 with
            m_opQueue := op :: post }
          (executeLoop env pre { app with m_opQueue := pre } sim).2.2 op).1.m_opQueue =
        op :: post ∧
      (executeOp env
          { (executeLoop env pre { app with m_opQueue := pre } sim).2.1 with
            m_opQueue := op :: post }
          (executeLoop env pre { app with m_opQueue := pre } sim).2.2 op).1.m_PCB.pCounter =
        (app.m_PCB.pCounter + pre.length) % 2 ^ 32 := by
  have hfields := executeOp_fields env
    { (executeLoop env pre { app with m_opQueue := pre } sim).2.1 with m_opQueue := op :: post }
    (executeLoop env pre { app with m_opQueue := pre } sim).2.2 op
  have hcount := (executeLoop_true env pre { app with m_opQueue := pre } sim rfl hpc hpre).2
  refine ⟨?_, hfields.2.1, ?_⟩
  · rw [executeLoop_append env pre (op :: post) app sim hpre]
    exact executeLoop_cons_fail env op post _ _ hfail
  · rw [hfields.1]
    exact hcount

/-- A program whose queue is a list of process/run operations followed by an
input or output operation on a pool with availability count 0: the run stops
at that operation, which stays queued, and the program counter has advanced by
the number of process/run operations, modulo `2 ^ 32`. -/
theorem executeLoop_long_prefix (env : Env) (app : Application) (sim : Simulator)
    (pre : List Operation) (op : Operation) (hq : app.m_opQueue = pre ++ [op])
    (herr : app.m_errorStr.isEmpty = true) (hpc : app.m_PCB.pCounter = 0)
    (hpre : ∀ o ∈ pre, o.data.code = MetaCode.M_PROCESS ∧ o.data.descriptor = MetaDesc.M_RUN)
    (hk : op.isDeviceTransfer = true)
    (h0 : sim.pools.semaphoreFor op.data.descriptor = some 0) :
    (executeLoop env (pre ++ [op]) app sim).1 = false ∧
      (executeLoop env (pre ++ [op]) app sim).2.1.m_opQueue = [op] ∧
      (executeLoop env (pre ++ [op]) app sim).2.1.m_PCB.pCounter = pre.length % 2 ^ 32 := by
  have happ : app = { app with m_opQueue := pre ++ [op] } := by
    cases app
    simp only at hq
    subst hq
    rfl
  have hrun := executeLoop_processRun env pre { app with m_opQueue := pre } sim herr hpre
  rcases executeOp_exhausted env
    { (executeLoop env pre { app with m_opQueue := pre } sim).2.1 with m_opQueue := [op] }
    sim op hk h0 with ⟨startLine, endLine, hex⟩
  have hne : (exhaustionMessage op.data.descriptor).isEmpty = false := by
    rcases op with ⟨⟨code, desc, cyc⟩, t⟩
    cases code <;> cases desc <;>
      first
      | exact Bool.noConfusion (hk : false = true)
      | rfl
  have hfail : (executeOp env
      { (executeLoop env pre { app with m_opQueue := pre } sim).2.1 with m_opQueue := [op] }
      (executeLoop env pre { app with m_opQueue := pre } sim).2.2 op).1.m_errorStr.isEmpty
        = false := by
    rw [hrun.2.1, hex]
    exact hne
  have hlt : app.m_PCB.pCounter < 2 ^ 32 := by rw [hpc]; exact Nat.two_pow_pos 32
  have hmain := executeLoop_first_failure env app sim pre op [] hlt hrun.1 hfail
  rw [hpc, Nat.zero_add, ← happ] at hmain
  rw [hmain.1]
  exact ⟨rfl, hmain.2.1, hmain.2.2⟩

/-- C24, as the claim states it, fails when 4294967296 operations precede
the failing one: with an empty printer pool the first 4294967296 process/run
operations set no error, the printer output at position 4294967296 does, the
run returns false with that operation alone left in the queue, and the
program counter is 0. -/
theorem counter_wraps_before_failure :
    (executeInstructions decimalEnv
      (freshProgram 2 (List.replicate (2 ^ 32) (processRun 0 10))) failingSecond).1 = true ∧
    (executeInstructions decimalEnv
      (freshProgram 2 (List.replicate (2 ^ 32) (processRun 0 10) ++ [printerOutput 2 25]))
      failingSecond).1 = false ∧
    (executeInstructions decimalEnv
      (freshProgram 2 (List.replicate (2 ^ 32) (processRun 0 10) ++ [printerOutput 2 25]))
      failingSecond).2.1.m_opQueue = [printerOutput 2 25] ∧
    (executeInstructions decimalEnv
      (freshProgram 2 (List.replicate (2 ^ 32) (processRun 0 10) ++ [printerOutput 2 25]))
      failingSecond).2.1.m_PCB.pCounter = 0 := by
  have hall : ∀ o ∈ List.replicate (2 ^ 32) (processRun 0 10),
      o.data.code = MetaCode.M_PROCESS ∧ o.data.descriptor = MetaDesc.M_RUN :=
    fun op hop => by rw [List.eq_of_mem_replicate hop]; exact ⟨rfl, rfl⟩
  have hrun := executeLoop_processRun decimalEnv (List.replicate (2 ^ 32) (processRun 0 10))
    (freshProgram 2 (List.replicate (2 ^ 32) (processRun 0 10))) failingSecond rfl hall
  have hmain := executeLoop_long_prefix decimalEnv
    (freshProgram 2 (List.replicate (2 ^ 32) (processRun 0 10) ++ [printerOutput 2 25]))
    failingSecond (List.replicate (2 ^ 32) (processRun 0 10)) (printerOutput 2 25)
    rfl rfl rfl hall rfl rfl
  rw [List.length_replicate, Nat.mod_self] at hmain
  rw [executeInstructions_eq decimalEnv
      (freshProgram 2 (List.replicate (2 ^ 32) (processRun 0 10))) failingSecond
      (List.replicate (2 ^ 32) (processRun 0 10)) rfl,
    executeInstructions_eq decimalEnv
      (freshProgram 2 (List.replicate (2 ^ 32) (processRun 0 10) ++ [printerOutput 2 25]))
      failingSecond (List.replicate (2 ^ 32) (processRun 0 10) ++ [printerOutput 2 25]) rfl]
  exact ⟨hrun.1, hmain⟩

/-- C24 (amended): for a program with program counter 0 whose queue is `pre`,
then `op`, then `post`, if the operations of `pre` complete without error and
`op`, executed in the state they leave, sets an error, then
`executeInstructions` returns false in exactly the state `op` leaves: `op` and
the operations of `post` are still in the queue in their order, none of them
has added a log entry or touched a pool or the allocator, and the program
counter equals the length of `pre` modulo 2^32 (the length itself when it is
below 2^32). -/
theorem stop_at_first_failure (env : Env) (app : Application) (sim : Simulator)
    (pre : List Operation) (op : Operation) (post : List Operation)
    (hpc : app.m_PCB.pCounter = 0)
    (hpre : (executeInstructions env { app with m_opQueue := pre } sim).1 = true)
    (hfail : (executeOp env
        { (executeInstructions env { app with m_opQueue := pre } sim).2.1 with
          m_opQueue := op :: post }
        (executeInstructions env { app with m_opQueue := pre } sim).2.2 op).1.m_errorStr.isEmpty
          = false) :
    executeInstructions env { app with m_opQueue := pre ++ op :: post } sim =
        (false,
          (executeOp env
            { (executeInstructions env { app with m_opQueue := pre } sim).2.1 with
              m_opQueue := op :: post }
            (executeInstructions env { app with m_opQueue := pre } sim).2.2 op).1,
          (executeOp env
            { (executeInstructions env { app with m_opQueue := pre } sim).2.1 with
              m_opQueue := op :: post }
            (executeInstructions env { app with m_opQueue := pre } sim).2.2 op).2) ∧
      (executeInstructions env { app with m_opQueue := pre ++ op :: post } sim).2.1.m_opQueue =
        op :: post ∧
      (executeInstructions env
        { app with m_opQueue := pre ++ op :: post } sim).2.1.m_PCB.pCounter =
          pre.length % 2 ^ 32 ∧
      (pre.length < 2 ^ 32 →
        (executeInstructions env
          { app with m_opQueue := pre ++ op :: post } sim).2.1.m_PCB.pCounter = pre.length) := by
  have hlt : app.m_PCB.pCounter < 2 ^ 32 := by rw [hpc]; exact Nat.two_pow_pos 32
  have hmain := executeLoop_first_failure env app sim pre op post hlt hpre hfail
  rw [hpc, Nat.zero_add] at hmain
  have hrun : executeInstructions env { app with m_opQueue := pre ++ op :: post } sim =
      executeLoop env (pre ++ op :: post) { app with m_opQueue := pre ++ op :: post } sim := rfl
  rw [hrun, hmain.1]
  exact ⟨rfl, hmain.2.1, hmain.2.2, fun hsmall => hmain.2.2.trans (Nat.mod_eq_of_lt hsmall)⟩

/-- With an empty printer pool, program 2 completes its process/run, fails at
the printer output and keeps it and the process/run behind it queued; the
program counter is 1. -/
theorem stop_at_first_failure_witness :
    (executeInstructions decimalEnv
      { freshProgram 2 [] with
        m_opQueue := [processRun 1 10] ++ printerOutput 2 25 :: [processRun 4 10] }
      failingSecond).1 = false ∧
    (executeInstructions decimalEnv
      { freshProgram 2 [] with
        m_opQueue := [processRun 1 10] ++ printerOutput 2 25 :: [processRun 4 10] }
      failingSecond).2.1.m_opQueue = [printerOutput 2 25, processRun 4 10] ∧
    (executeInstructions decimalEnv
      { freshProgram 2 [] with
        m_opQueue := [processRun 1 10] ++ printerOutput 2 25 :: [processRun 4 10] }
      failingSecond).2.1.m_PCB.pCounter = 1 :=
  ⟨by decide,
    (stop_at_first_failure decimalEnv (freshProgram 2 []) failingSecond [processRun 1 10]
      (printerOutput 2 25) [processRun 4 10] rfl (by decide) (by decide)).2.1,
    (stop_at_first_failure decimalEnv (freshProgram 2 []) failingSecond [processRun 1 10]
      (printerOutput 2 25) [processRun 4 10] rfl (by decide) (by decide)).2.2.2 (by norm_num)⟩

end OsSim

namespace OsSim

/-- The argument of `sleep` is the product of cycles and per-cycle time
reduced modulo `2 ^ 32`. -/
theorem holdTime_eq (op : Operation) :
    holdTime op = ((op.data.cycles * (op.timePerCycle : Int)) % 2 ^ 32).toNat := by
  unfold holdTime toUInt
  apply Int.ofNat.inj
  have h1 : ((((op.data.cycles % 2 ^ 32).toNat * op.timePerCycle) % 2 ^ 32 : Nat) : Int) =
      ((op.data.cycles % 2 ^ 32) * (op.timePerCycle : Int)) % 2 ^ 32 := by
    push_cast
    rw [Int.toNat_of_nonneg (Int.emod_nonneg _ (by norm_num))]
  have h2 : (0 : Int) ≤ (op.data.cycles * (op.timePerCycle : Int)) % 2 ^ 32 :=
    Int.emod_nonneg _ (by norm_num)
  show ((((op.data.cycles % 2 ^ 32).toNat * op.timePerCycle) % 2 ^ 32 : Nat) : Int) =
    ((((op.data.cycles * (op.timePerCycle : Int)) % 2 ^ 32).toNat : Nat) : Int)
  rw [h1, Int.toNat_of_nonneg h2, Int.mul_emod (op.data.cycles % 2 ^ 32), Int.emod_emod,
    ← Int.mul_emod]

/-- The run of a program whose queue is one process/run operation. -/
theorem executeInstructions_processRun (env : Env) (appID : Nat) (c : Int) (t : Nat)
    (sim : Simulator) :
    executeInstructions env (freshProgram appID [processRun c t]) sim =
      (true,
        { freshProgram appID [] with
          m_PCB := { pid := appID, pCounter := 1, pState := ProcessState.NEW }
          m_logStr := [LogEntry.line "processing action: start",
            LogEntry.hold (holdTime (processRun c t)),
            LogEntry.line "processing action: end"] },
        sim) := by
  rfl

/-- C25, as the claim states it, fails: for 5000000 cycles of 1000 ms the
product is 5000000000, but the hold between the two lines is the product
computed in `unsigned int`, 705032704 ms. -/
theorem process_run_hold_wraps :
    (executeInstructions decimalEnv (freshProgram 1 [processRun 5000000 1000])
      (loaded sampleConfig [])).1 = true ∧
    (executeInstructions decimalEnv (freshProgram 1 [processRun 5000000 1000])
      (loaded sampleConfig [])).2.1.m_logStr =
        [LogEntry.line "processing action: start", LogEntry.hold 705032704,
          LogEntry.line "processing action: end"] ∧
    (5000000 : Int) * ((1000 : Nat) : Int) = 5000000000 := by
  decide

/-- C25 (amended): for a program whose queue is the single operation
process/run with c cycles and per-cycle time t, where 0 <= c*t < 2^32,
`executeInstructions` returns true with an empty queue, and the program's log
is the line "processing action: start", one hold of c*t milliseconds, and the
line "processing action: end". -/
theorem process_run_trace (env : Env) (appID : Nat) (c : Int) (t : Nat) (sim : Simulator)
    (h0 : 0 ≤ c * (t : Int)) (hfit : c * (t : Int) < 2 ^ 32) :
    executeInstructions env (freshProgram appID [processRun c t]) sim =
      (true,
        { freshProgram appID [] with
          m_PCB := { pid := appID, pCounter := 1, pState := ProcessState.NEW }
          m_logStr := [LogEntry.line "processing action: start",
            LogEntry.hold (c * (t : Int)).toNat,
            LogEntry.line "processing action: end"] },
        sim) := by
  have hhold : holdTime (processRun c t) = (c * (t : Int)).toNat := by
    rw [holdTime_eq]
    show ((c * (t : Int)) % 2 ^ 32).toNat = (c * (t : Int)).toNat
    rw [Int.emod_eq_of_lt h0 hfit]
  rw [executeInstructions_processRun, hhold]

/-- The stream S(start)0, A(start)0, P(run)3, A(end)0, S(end)0 with processor
cycle time 10: the catalog builds the process/run with per-cycle time 10, the
loader creates program 1 with that operation alone, and its run logs the two
lines with one hold of 30 ms between them. -/
theorem process_run_trace_witness :
    (contructOperations decimalEnv
      (loaded sampleConfig (singleRunStream.map (fun op => op.data)))).toOption.map
        (fun r => (r.1, r.2.m_operations)) = some (true, singleRunStream) ∧
    (loadOperations (initialized sampleConfig singleRunStream (freshPools 1 1 1 1))).toOption.map
        (fun r => (r.1, r.2.m_applications)) = some (true, [freshProgram 1 [processRun 3 10]]) ∧
    executeInstructions decimalEnv (freshProgram 1 [processRun 3 10])
        (initialized sampleConfig singleRunStream (freshPools 1 1 1 1)) =
      (true,
        { freshProgram 1 [] with
          m_PCB := { pid := 1, pCounter := 1, pState := ProcessState.NEW }
          m_logStr := [LogEntry.line "processing action: start", LogEntry.hold 30,
            LogEntry.line "processing action: end"] },
        initialized sampleConfig singleRunStream (freshPools 1 1 1 1)) :=
  ⟨by decide, by decide,
    process_run_trace decimalEnv 1 3 10
      (initialized sampleConfig singleRunStream (freshPools 1 1 1 1))
      (by norm_num) (by norm_num)⟩

end OsSim

namespace OsSim

/-- C26: for each of the five input and output kinds, when the availability
count of the matching pool is 0 at the moment the operation is at the front of
the queue, `executeInstructions` returns false, the program's error string is
the exhaustion message of that pool, which contains the pool's name (printers,
hard drives, keyboards or monitors), and the log has grown by exactly the start
line and the end line of the operation, with no hold. -/
theorem resource_exhaustion_error (env : Env) (app : Application) (sim : Simulator)
    (op : Operation) (rest : List Operation)
    (hk : op.isDeviceTransfer = true)
    (h0 : sim.pools.semaphoreFor op.data.descriptor = some 0)
    (hq : app.m_opQueue = op :: rest) :
    (executeInstructions env app sim).1 = false ∧
      (executeInstructions env app sim).2.1.m_errorStr =
        exhaustionMessage op.data.descriptor ∧
      poolName op.data.descriptor ∈ ["printers", "hard drives", "keyboards", "monitors"] ∧
      containsText (exhaustionMessage op.data.descriptor) (poolName op.data.descriptor) = true ∧
      (∃ startLine endLine : String,
        (executeInstructions env app sim).2.1.m_logStr =
          app.m_logStr ++ [LogEntry.line startLine, LogEntry.line endLine]) ∧
      (executeInstructions env app sim).2.1.m_logStr.countP LogEntry.isHold =
        app.m_logStr.countP LogEntry.isHold := by
  rcases executeOp_exhausted env app sim op hk h0 with ⟨startLine, endLine, hex⟩
  have hnames : (exhaustionMessage op.data.descriptor).isEmpty = false ∧
      poolName op.data.descriptor ∈ ["printers", "hard drives", "keyboards", "monitors"] ∧
      containsText (exhaustionMessage op.data.descriptor) (poolName op.data.descriptor)
        = true := by
    have hdev : op.data.descriptor = MetaDesc.M_PRINTER ∨
        op.data.descriptor = MetaDesc.M_HARD_DRIVE ∨
        op.data.descriptor = MetaDesc.M_KEYBOARD ∨ op.data.descriptor = MetaDesc.M_MONITOR := by
      cases hd : op.data.descriptor <;> rw [hd] at h0 <;>
        first
        | exact Option.noConfusion h0
        | simp
    rcases hdev with hd | hd | hd | hd <;> rw [hd] <;> exact ⟨by decide, by decide, by decide⟩
  have hfail : (executeOp env app sim op).1.m_errorStr.isEmpty = false := by
    rw [hex]
    exact hnames.1
  rw [executeInstructions_eq env app sim (op :: rest) hq,
    executeLoop_cons_fail env op rest app sim hfail, hex]
  refine ⟨rfl, rfl, hnames.2.1, hnames.2.2, ⟨startLine, endLine, rfl⟩, ?_⟩
  simp [List.countP_append, List.countP_cons, LogEntry.isHold]

/-- With no printer in the pool, the printer output of a fresh program fails
with "Out of m_printers" and the two lines of the operation. -/
theorem resource_exhaustion_error_witness :
    (executeInstructions decimalEnv (freshProgram 2 [printerOutput 2 25, processRun 4 10])
      failingSecond).1 = false ∧
    (executeInstructions decimalEnv (freshProgram 2 [printerOutput 2 25, processRun 4 10])
      failingSecond).2.1.m_errorStr = "Out of m_printers" ∧
    (executeInstructions decimalEnv (freshProgram 2 [printerOutput 2 25, processRun 4 10])
      failingSecond).2.1.m_logStr =
        [LogEntry.line "printer output: start", LogEntry.line "printer output: end - PRNT -1"] :=
  ⟨(resource_exhaustion_error decimalEnv
      (freshProgram 2 [printerOutput 2 25, processRun 4 10]) failingSecond
      (printerOutput 2 25) [processRun 4 10] rfl rfl rfl).1,
    (resource_exhaustion_error decimalEnv
      (freshProgram 2 [printerOutput 2 25, processRun 4 10]) failingSecond
      (printerOutput 2 25) [processRun 4 10] rfl rfl rfl).2.1,
    by decide⟩

/-- C27: when a memory/allocate operation is at the front of the queue and
the allocator fails (`getMemoryAddress` returns `UINT_MAX`),
`executeInstructions` returns false, the error string is "Out of memory", the
log has grown by the line "allocating memory" alone (no hold, no "memory
allocated at" line), and the operation is still at the front of the queue. -/
theorem out_of_memory_error (env : Env) (app : Application) (sim : Simulator)
    (op : Operation) (rest : List Operation)
    (hop : op.data.code = MetaCode.M_MEMORY ∧ op.data.descriptor = MetaDesc.M_ALLOC)
    (hfail : ( getMemoryAddress env sim).1 = UINT_MAX)
    (hq : app.m_opQueue = op :: rest) :
    executeInstructions env app sim =
        (false,
          { app with
            m_errorStr := "Out of memory"
            m_logStr := app.m_logStr ++ [LogEntry.line "allocating memory"] },
          ( getMemoryAddress env sim).2) ∧
      (executeInstructions env app sim).2.1.m_opQueue = op :: rest := by
  have hexec : executeOp env app sim op =
      ({ app with
          m_errorStr := "Out of memory"
          m_logStr := app.m_logStr ++ [LogEntry.line "allocating memory"] },
        ( getMemoryAddress env sim).2) := by
    rcases op with ⟨⟨code, desc, cyc⟩, t⟩
    obtain ⟨h1, h2⟩ := hop
    simp only at h1 h2
    subst h1 h2
    simp only [executeOp, handleAllocate, hfail, if_true]
    rfl
  have herr : (executeOp env app sim op).1.m_errorStr.isEmpty = false := by
    rw [hexec]
    rfl
  rw [executeInstructions_eq env app sim (op :: rest) hq,
    executeLoop_cons_fail env op rest app sim herr, hexec]
  exact ⟨rfl, hq⟩

/-- In the sample configuration (100 kbytes in blocks of 50) with three
blocks issued, an allocation fails. -/
theorem out_of_memory_error_witness :
    executeInstructions decimalEnv (freshProgram 1 [allocateOp 1 30, processRun 3 10])
        { loaded sampleConfig [] with m_usedBlocks := 3 } =
      (false,
        { freshProgram 1 [allocateOp 1 30, processRun 3 10] with
          m_errorStr := "Out of memory"
          m_logStr := [LogEntry.line "allocating memory"] },
        { loaded sampleConfig [] with m_usedBlocks := 3 }) :=
  (out_of_memory_error decimalEnv (freshProgram 1 [allocateOp 1 30, processRun 3 10])
    { loaded sampleConfig [] with m_usedBlocks := 3 } (allocateOp 1 30) [processRun 3 10]
    ⟨rfl, rfl⟩ (by decide) rfl).1

/-- C28: the `default:` branches of `executeInstructions` are `assert` on a
string literal, which never fails.  A queue of process/cache, input/printer,
memory/run, S(start) and A(end) runs to the end: `executeInstructions` returns
true, the queue is empty and the program counter is 5.  In general an
operation without a case is popped and counted like a completed one. -/
theorem unhandled_operation_is_completed :
    executeInstructions decimalEnv
        (freshProgram 1
          [ { data := { code := MetaCode.M_PROCESS, descriptor := MetaDesc.M_CACHE, cycles := 2 }
              timePerCycle := 10 },
            { data := { code := MetaCode.M_INPUT, descriptor := MetaDesc.M_PRINTER, cycles := 2 }
              timePerCycle := 25 },
            { data := { code := MetaCode.M_MEMORY, descriptor := MetaDesc.M_RUN, cycles := 1 }
              timePerCycle := 30 },
            marker MetaCode.M_OPER_SYS MetaDesc.M_START,
            marker MetaCode.M_PROGRAM_APP MetaDesc.M_END ])
        (loaded sampleConfig []) =
      (true,
        { freshProgram 1 [] with
          m_PCB := { pid := 1, pCounter := 5, pState := ProcessState.NEW } },
        loaded sampleConfig []) ∧
    ∀ (env : Env) (app : Application) (sim : Simulator) (op : Operation)
      (rest : List Operation),
      handledPair op.data.code op.data.descriptor = false →
      app.m_errorStr.isEmpty = true →
      executeLoop env (op :: rest) app sim =
        executeLoop env rest
          { app with
            m_opQueue := rest
            m_PCB := { app.m_PCB with pCounter := (app.m_PCB.pCounter + 1) % 2 ^ 32 } }
          sim := by
  refine ⟨by decide, ?_⟩
  intro env app sim op rest hun herr
  have hop := executeOp_unhandled env app sim op hun
  have hok : (executeOp env app sim op).1.m_errorStr.isEmpty = true := by rw [hop]; exact herr
  rw [executeLoop_cons_ok env op rest app sim hok, hop]

end OsSim

/-! ## The scheduler at the first failing program -/

namespace OsSim

/-- A run leaves the id and the process state of the application as they
are. -/
theorem executeLoop_identity (env : Env) (queue : List Operation) (app : Application)
    (sim : Simulator) :
    (executeLoop env queue app sim).2.1.m_appID = app.m_appID ∧
      (executeLoop env queue app sim).2.1.m_PCB.pState = app.m_PCB.pState := by
  induction queue generalizing app sim with
  | nil => exact ⟨rfl, rfl⟩
  | cons op rest ih =>
    have hf := executeOp_fields env app sim op
    by_cases herr : (executeOp env app sim op).1.m_errorStr.isEmpty = true
    · rw [executeLoop_cons_ok env op rest app sim herr]
      have step := ih
        { (executeOp env app sim op).1 with
          m_opQueue := rest
          m_PCB := { (executeOp env app sim op).1.m_PCB with
            pCounter := ((executeOp env app sim op).1.m_PCB.pCounter + 1) % 2 ^ 32 } }
        (executeOp env app sim op).2
      refine ⟨step.1.trans hf.2.2, step.2.trans ?_⟩
      show (executeOp env app sim op).1.m_PCB.pState = app.m_PCB.pState
      rw [hf.1]
    · have hfalse : (executeOp env app sim op).1.m_errorStr.isEmpty = false := by
        simpa using herr
      rw [executeLoop_cons_fail env op rest app sim hfalse]
      exact ⟨hf.2.2, by rw [hf.1]⟩

/-- One round of the scheduler loop when the application runs to the end. -/
theorem schedulerLoop_cons_ok (env : Env) (app : Application) (rest : List Application)
    (sim : Simulator)
    (h : (executeInstructions env (startApplication app sim).1
      (startApplication app sim).2).1 = true) :
    schedulerLoop env (app :: rest) sim =
      { ok := (schedulerLoop env rest
          (finishApplication
            (executeInstructions env (startApplication app sim).1
              (startApplication app sim).2).2.1
            (executeInstructions env (startApplication app sim).1
              (startApplication app sim).2).2.2).2).ok
        apps := (finishApplication
            (executeInstructions env (startApplication app sim).1
              (startApplication app sim).2).2.1
            (executeInstructions env (startApplication app sim).1
              (startApplication app sim).2).2.2).1 ::
          (schedulerLoop env rest
            (finishApplication
              (executeInstructions env (startApplication app sim).1
                (startApplication app sim).2).2.1
              (executeInstructions env (startApplication app sim).1
                (startApplication app sim).2).2.2).2).apps
        sim := (schedulerLoop env rest
          (finishApplication
            (executeInstructions env (startApplication app sim).1
              (startApplication app sim).2).2.1
            (executeInstructions env (startApplication app sim).1
              (startApplication app sim).2).2.2).2).sim
        entered := (startApplication app sim).2 ::
          (schedulerLoop env rest
            (finishApplication
              (executeInstructions env (startApplication app sim).1
                (startApplication app sim).2).2.1
              (executeInstructions env (startApplication app sim).1
                (startApplication app sim).2).2.2).2).entered } := by
  rw [schedulerLoop]
  simp only [h, Bool.true_eq_false, if_false]

/-- One round of the scheduler loop when the application fails. -/
theorem schedulerLoop_cons_fail (env : Env) (app : Application) (rest : List Application)
    (sim : Simulator)
    (h : (executeInstructions env (startApplication app sim).1
      (startApplication app sim).2).1 = false) :
    schedulerLoop env (app :: rest) sim =
      { ok := false
        apps := (executeInstructions env (startApplication app sim).1
          (startApplication app sim).2).2.1 :: rest
        sim :=
          if (executeInstructions env (startApplication app sim).1
              (startApplication app sim).2).2.2.m_error.isEmpty then
            { (executeInstructions env (startApplication app sim).1
                (startApplication app sim).2).2.2 with
              m_error := failedApplicationError
                (executeInstructions env (startApplication app sim).1
                  (startApplication app sim).2).2.1 }
          else (executeInstructions env (startApplication app sim).1
            (startApplication app sim).2).2.2
        entered := [(startApplication app sim).2] } := by
  rw [schedulerLoop]
  simp only [h, if_true]

/-- The scheduler loop over a run list whose first part runs to the end
continues with the rest in the simulator the first part leaves. -/
theorem schedulerLoop_append (env : Env) (pre rest : List Application) (sim : Simulator)
    (h : (schedulerLoop env pre sim).ok = true) :
    schedulerLoop env (pre ++ rest) sim =
      { ok := (schedulerLoop env rest (schedulerLoop env pre sim).sim).ok
        apps := (schedulerLoop env pre sim).apps ++
          (schedulerLoop env rest (schedulerLoop env pre sim).sim).apps
        sim := (schedulerLoop env rest (schedulerLoop env pre sim).sim).sim
        entered := (schedulerLoop env pre sim).entered ++
          (schedulerLoop env rest (schedulerLoop env pre sim).sim).entered } := by
  induction pre generalizing sim with
  | nil => rfl
  | cons app pre ih =>
    by_cases hrun : (executeInstructions env (startApplication app sim).1
        (startApplication app sim).2).1 = true
    · rw [schedulerLoop_cons_ok env app pre sim hrun] at h ⊢
      rw [List.cons_append, schedulerLoop_cons_ok env app (pre ++ rest) sim hrun]
      rw [ih _ h]
      rfl
    · have hfalse : (executeInstructions env (startApplication app sim).1
          (startApplication app sim).2).1 = false := by simpa using hrun
      rw [schedulerLoop_cons_fail env app pre sim hfalse] at h
      exact absurd h (by simp)

/-- The scheduler loop keeps the length of the run list, and calls
`executeInstructions` once for every application when it returns true. -/
theorem schedulerLoop_length (env : Env) (apps : List Application) (sim : Simulator) :
    (schedulerLoop env apps sim).apps.length = apps.length ∧
      ((schedulerLoop env apps sim).ok = true →
        (schedulerLoop env apps sim).entered.length = apps.length) := by
  induction apps generalizing sim with
  | nil => exact ⟨rfl, fun _ => rfl⟩
  | cons app rest ih =>
    by_cases hrun : (executeInstructions env (startApplication app sim).1
        (startApplication app sim).2).1 = true
    · rw [schedulerLoop_cons_ok env app rest sim hrun]
      simp only [List.length_cons]
      exact ⟨by rw [(ih _).1], fun hok => by rw [(ih _).2 hok]⟩
    · have hfalse : (executeInstructions env (startApplication app sim).1
          (startApplication app sim).2).1 = false := by simpa using hrun
      rw [schedulerLoop_cons_fail env app rest sim hfalse]
      exact ⟨rfl, fun hok => absurd hok (by simp)⟩

end OsSim

namespace OsSim

/-- The scheduler on a run list whose programs before `app` run to the end
and where `app` fails: the loop is left at `app`, whose state is the one its
run leaves; the programs behind it are as they were. -/
theorem runScheduler_first_failure (env : Env) (sim : Simulator) (pre : List Application)
    (app : Application) (post : List Application) (s : Simulator)
    (r : Bool × Application × Simulator)
    (happs : sim.m_applications = pre ++ app :: post)
    (hs : s = (schedulerLoop env pre (schedulerStart sim)).sim)
    (hpre : (schedulerLoop env pre (schedulerStart sim)).ok = true)
    (hr : r = executeInstructions env (startApplication app s).1 (startApplication app s).2)
    (hfail : r.1 = false) :
    (runScheduler env sim).ok = false ∧
      (runScheduler env sim).sim.m_applications =
        (schedulerLoop env pre (schedulerStart sim)).apps ++ r.2.1 :: post ∧
      (runScheduler env sim).sim.m_error =
        (if r.2.2.m_error.isEmpty then failedApplicationError r.2.1 else r.2.2.m_error) ∧
      (runScheduler env sim).entered.length = pre.length + 1 ∧
      r.2.1.m_appID = app.m_appID ∧ r.2.1.m_PCB.pState = ProcessState.RUNNING := by
  subst hs hr
  have hrun : runScheduler env sim =
      { schedulerLoop env sim.m_applications (schedulerStart sim) with
        sim := { (schedulerLoop env sim.m_applications (schedulerStart sim)).sim with
          m_applications := (schedulerLoop env sim.m_applications (schedulerStart sim)).apps } } :=
    rfl
  have hid := executeLoop_identity env
    (startApplication app (schedulerLoop env pre (schedulerStart sim)).sim).1.m_opQueue
    (startApplication app (schedulerLoop env pre (schedulerStart sim)).sim).1
    (startApplication app (schedulerLoop env pre (schedulerStart sim)).sim).2
  have hlen := (schedulerLoop_length env pre (schedulerStart sim)).2 hpre
  rw [hrun, happs, schedulerLoop_append env pre (app :: post) (schedulerStart sim) hpre,
    schedulerLoop_cons_fail env app post _ hfail]
  refine ⟨rfl, rfl, ?_, ?_, hid.1, hid.2⟩
  · by_cases herr : (executeInstructions env
        (startApplication app (schedulerLoop env pre (schedulerStart sim)).sim).1
        (startApplication app (schedulerLoop env pre (schedulerStart sim)).sim).2).2.2.m_error.isEmpty
        = true
    · simp only [herr, if_true]
    · simp only [herr, if_false, Bool.false_eq_true]
  · simp only [List.length_append, List.length_singleton, hlen]

/-- C29: for every run list in which the programs before program i run to the
end and the run of program i returns false with program error e while the
simulator's own error string is empty, `runScheduler` returns false, the
simulator error is exactly `Application <i> failed to execute instructions
"<e>"`, `executeInstructions` has been called for the programs up to i only,
and the programs after i in creation order are unchanged. -/
theorem scheduler_aborts_on_first_failure (env : Env) (sim : Simulator)
    (pre : List Application) (app : Application) (post : List Application) (s : Simulator)
    (r : Bool × Application × Simulator)
    (happs : sim.m_applications = pre ++ app :: post)
    (hs : s = (schedulerLoop env pre (schedulerStart sim)).sim)
    (hpre : (schedulerLoop env pre (schedulerStart sim)).ok = true)
    (hr : r = executeInstructions env (startApplication app s).1 (startApplication app s).2)
    (hfail : r.1 = false) (herr : r.2.2.m_error.isEmpty = true) :
    (runScheduler env sim).ok = false ∧
      (runScheduler env sim).sim.m_error =
        "Application " ++ toString app.m_appID ++ " failed to execute instructions " ++
          "\"" ++ r.2.1.m_errorStr ++ "\"" ∧
      (runScheduler env sim).entered.length = pre.length + 1 ∧
      (runScheduler env sim).sim.m_applications.length = sim.m_applications.length ∧
      (runScheduler env sim).sim.m_applications.drop (pre.length + 1) = post := by
  have h := runScheduler_first_failure env sim pre app post s r happs hs hpre hr hfail
  have hlen := (schedulerLoop_length env pre (schedulerStart sim)).1
  refine ⟨h.1, ?_, h.2.2.2.1, ?_, ?_⟩
  · rw [h.2.2.1]
    simp only [herr, if_true, failedApplicationError, h.2.2.2.2.1]
  · rw [h.2.1, happs]
    simp only [List.length_append, List.length_cons, hlen]
  · rw [h.2.1, ← hlen, List.drop_append_eq_append_drop]
    simp

/-- With an empty printer pool and three programs, the second fails at its
printer output: the scheduler returns false with the error of application 2,
and program 3 is as it was. -/
theorem scheduler_aborts_on_first_failure_witness :
    (runScheduler decimalEnv failingSecond).ok = false ∧
    (runScheduler decimalEnv failingSecond).sim.m_error =
      "Application 2 failed to execute instructions \"Out of m_printers\"" ∧
    (runScheduler decimalEnv failingSecond).sim.m_applications.drop 2 =
      [freshProgram 3 [processRun 5 10]] :=
  ⟨(scheduler_aborts_on_first_failure decimalEnv failingSecond
      [freshProgram 1 [processRun 3 10]]
      (freshProgram 2 [processRun 1 10, printerOutput 2 25, processRun 4 10])
      [freshProgram 3 [processRun 5 10]] _ _ rfl rfl (by decide) rfl (by decide) (by decide)).1,
    by decide,
    (scheduler_aborts_on_first_failure decimalEnv failingSecond
      [freshProgram 1 [processRun 3 10]]
      (freshProgram 2 [processRun 1 10, printerOutput 2 25, processRun 4 10])
      [freshProgram 3 [processRun 5 10]] _ _ rfl rfl (by decide) rfl (by decide)
      (by decide)).2.2.2.2⟩

/-- C30, as the claim states it, fails: after the scheduler has returned the
failure of program 2 (its printer output found the pool empty), the state of
program 2 is RUNNING, not EXIT; program 1, which ran to the end, is in EXIT and
program 3 still in NEW. -/
theorem failed_program_stays_running :
    (runScheduler decimalEnv failingSecond).ok = false ∧
    (runScheduler decimalEnv failingSecond).sim.m_applications.map
        (fun a => (a.m_appID, a.m_PCB.pState, a.m_errorStr)) =
      [(1, ProcessState.EXIT, ""), (2, ProcessState.RUNNING, "Out of m_printers"),
        (3, ProcessState.NEW, "")] := by
  decide

/-- C30 (amended): for every program whose execution stops on an operation
that sets an error, the program's process-control-block state is RUNNING once
the scheduler has returned the failure (EXIT is entered only after a run that
returned true). -/
theorem running_on_failure (env : Env) (sim : Simulator)
    (pre : List Application) (app : Application) (post : List Application) (s : Simulator)
    (r : Bool × Application × Simulator)
    (happs : sim.m_applications = pre ++ app :: post)
    (hs : s = (schedulerLoop env pre (schedulerStart sim)).sim)
    (hpre : (schedulerLoop env pre (schedulerStart sim)).ok = true)
    (hr : r = executeInstructions env (startApplication app s).1 (startApplication app s).2)
    (hfail : r.1 = false) :
    (runScheduler env sim).ok = false ∧
      (runScheduler env sim).sim.m_applications[pre.length]? = some r.2.1 ∧
      r.2.1.m_PCB.pState = ProcessState.RUNNING := by
  have h := runScheduler_first_failure env sim pre app post s r happs hs hpre hr hfail
  have hlen := (schedulerLoop_length env pre (schedulerStart sim)).1
  refine ⟨h.1, ?_, h.2.2.2.2.2⟩
  rw [h.2.1, ← hlen, List.getElem?_append_right (le_refl _), Nat.sub_self]
  exact List.getElem?_cons_zero

/-- The failing second program of three is in state RUNNING afterwards. -/
theorem running_on_failure_witness :
    ((runScheduler decimalEnv failingSecond).sim.m_applications[1]?).map
      (fun a => a.m_PCB.pState) = some ProcessState.RUNNING := by
  have h := running_on_failure decimalEnv failingSecond
    [freshProgram 1 [processRun 3 10]]
    (freshProgram 2 [processRun 1 10, printerOutput 2 25, processRun 4 10])
    [freshProgram 3 [processRun 5 10]] _ _ rfl rfl (by decide) rfl (by decide)
  rw [show (1 : Nat) = [freshProgram 1 [processRun 3 10]].length from rfl, h.2.1, Option.map_some',
    h.2.2]

end OsSim

/-! ## The loader: programs and their queues -/

namespace OsSim

/-- A text that ends with a non-empty text is not empty. -/
theorem isEmpty_append_right (a b : String) (hb : b.isEmpty = false) :
    (a ++ b).isEmpty = false := by
  cases h : (a ++ b).isEmpty with
  | false => rfl
  | true =>
    rw [String.isEmpty_iff] at h
    have hd := congrArg String.data h
    rw [String.data_append] at hd
    have hbd : b.data = [] := (List.append_eq_nil.mp hd).2
    have hbe : b = "" := String.ext hbd
    rw [hbe] at hb
    exact absurd hb (by decide)

/-- The five kinds of operation the loader tells apart exclude one another. -/
theorem kinds_exclusive (op : Operation) :
    (op.isWork = true → op.isProgramStart = false ∧ op.isProgramEnd = false ∧
      op.isSystemStart = false ∧ op.isSystemEnd = false) ∧
    (op.isProgramStart = true → op.isWork = false ∧ op.isProgramEnd = false ∧
      op.isSystemStart = false ∧ op.isSystemEnd = false) ∧
    (op.isProgramEnd = true → op.isWork = false ∧ op.isProgramStart = false ∧
      op.isSystemStart = false ∧ op.isSystemEnd = false) := by
  rcases op with ⟨⟨code, desc, cyc⟩, t⟩
  cases code <;> cases desc <;>
    simp [Operation.isWork, Operation.isProgramStart, Operation.isProgramEnd,
      Operation.isSystemStart, Operation.isSystemEnd]

/-- An interior `S(start)` or `S(end)` sets an error. -/
theorem loadStep_system (st : LoadState) (op : Operation)
    (h : op.isSystemStart = true ∨ op.isSystemEnd = true) :
    ∃ st1, loadStep st op = Except.ok st1 ∧ st1.sim.m_error.isEmpty = false := by
  rcases op with ⟨⟨code, desc, cyc⟩, t⟩
  cases code <;> cases desc <;>
    first
    | exact ⟨_, rfl,
        (by decide : ("Operating system can not be started again in m_metadata. Aborting..."
          : String).isEmpty = false)⟩
    | simp [Operation.isSystemStart, Operation.isSystemEnd] at h

/-- The step of the loader at `A(start)`. -/
theorem loadStep_programStart (st : LoadState) (op : Operation)
    (h : op.isProgramStart = true) :
    loadStep st op = Except.ok
      { appIndex := (st.appIndex + 1) % 2 ^ 32
        app := AppPtr.lastCreated
        sim := outputSysOperation
          { st.sim with
            m_applications := st.sim.m_applications ++
              [{ m_appID := (st.appIndex + 1) % 2 ^ 32, m_errorStr := "" }] }
          ((st.appIndex + 1) % 2 ^ 32) "loading application" false } := by
  rcases op with ⟨⟨code, desc, cyc⟩, t⟩
  cases code <;> cases desc <;>
    first
    | rfl
    | simp [Operation.isProgramStart] at h

/-- The step of the loader at `A(end)`. -/
theorem loadStep_programEnd (st : LoadState) (op : Operation)
    (h : op.isProgramEnd = true) :
    loadStep st op = Except.ok { st with app := AppPtr.null } := by
  rcases op with ⟨⟨code, desc, cyc⟩, t⟩
  cases code <;> cases desc <;>
    first
    | rfl
    | simp [Operation.isProgramEnd] at h

/-- The step of the loader at a process, input, output or memory
operation. -/
theorem loadStep_work (st : LoadState) (op : Operation) (h : op.isWork = true) :
    loadStep st op =
      match st.app with
      | AppPtr.indeterminate => Except.error Fault.undefined
      | AppPtr.null =>
          Except.ok { st with sim := { st.sim with
            m_error := "No application to assign operation \"" ++
              metadataToString op.data ++ "\"" } }
      | AppPtr.lastCreated =>
          Except.ok { st with sim := { st.sim with
            m_applications := pushToLast st.sim.m_applications op } } := by
  rcases op with ⟨⟨code, desc, cyc⟩, t⟩
  cases code <;> cases desc <;>
    first
    | rfl
    | simp [Operation.isWork] at h

/-- The step of the loader at any other operation does nothing. -/
theorem loadStep_other (st : LoadState) (op : Operation)
    (hw : op.isWork = false) (hs : op.isProgramStart = false) (he : op.isProgramEnd = false)
    (hss : op.isSystemStart = false) (hse : op.isSystemEnd = false) :
    loadStep st op = Except.ok st := by
  rcases op with ⟨⟨code, desc, cyc⟩, t⟩
  cases code <;> cases desc <;>
    first
    | rfl
    | simp [Operation.isWork, Operation.isProgramStart, Operation.isProgramEnd,
        Operation.isSystemStart, Operation.isSystemEnd] at hw hs he hss hse

/-- The loop of the loader over two consecutive parts of the stream. -/
theorem loadLoop_append (a b : List Operation) (st : LoadState) :
    loadLoop (a ++ b) st =
      match loadLoop a st with
      | Except.error f => Except.error f
      | Except.ok (Sum.inl sim2) => Except.ok (Sum.inl sim2)
      | Except.ok (Sum.inr st1) => loadLoop b st1 := by
  induction a generalizing st with
  | nil => rfl
  | cons op rest ih =>
    rw [List.cons_append, loadLoop, loadLoop]
    cases hstep : loadStep st op with
    | error f => rfl
    | ok st1 =>
      simp only []
      by_cases he : st1.sim.m_error.isEmpty = true
      · simp only [he, if_true]
        exact ih st1
      · simp only [he]
        rfl

/-- Pushing an operation when the application created last is the last of the
run list. -/
theorem pushToLast_append (apps : List Application) (a : Application) (op : Operation) :
    pushToLast (apps ++ [a]) op = apps ++ [{ a with m_opQueue := a.m_opQueue ++ [op] }] := by
  induction apps with
  | nil => rfl
  | cons x apps ih =>
    cases apps with
    | nil => rfl
    | cons y ys =>
      show x :: pushToLast (y :: ys ++ [a]) op = _
      rw [ih]
      rfl

/-- Pushing a sequence of operations to the application created last. -/
theorem foldl_pushToLast_append (queue : List Operation) (apps : List Application)
    (a : Application) :
    queue.foldl pushToLast (apps ++ [a]) =
      apps ++ [{ a with m_opQueue := a.m_opQueue ++ queue }] := by
  induction queue generalizing a with
  | nil => simp
  | cons op rest ih =>
    rw [List.foldl_cons, pushToLast_append, ih]
    simp

/-- The ids of the expected programs are consecutive. -/
theorem expectedPrograms_ids (created : Nat) (ops : List Operation) :
    (expectedPrograms created ops).map (fun a => a.m_appID) =
      List.range' (created + 1) (ops.countP Operation.isProgramStart) := by
  induction ops generalizing created with
  | nil => rfl
  | cons op rest ih =>
    by_cases hs : op.isProgramStart = true
    · simp only [expectedPrograms, hs, if_true, List.map_cons, List.countP_cons_of_pos,
        List.range'_succ, ih]
    · simp only [expectedPrograms, hs, if_false, Bool.false_eq_true, ih]
      rw [List.countP_cons_of_neg _ _ hs]

end OsSim

namespace OsSim

/-- One round of the loop of the loader. -/
theorem loadLoop_cons_ok (op : Operation) (rest : List Operation) (st st1 : LoadState)
    (h : loadStep st op = Except.ok st1) :
    loadLoop (op :: rest) st =
      if st1.sim.m_error.isEmpty then loadLoop rest st1 else Except.ok (Sum.inl st1.sim) := by
  rw [loadLoop, h]

/-- The unfolding of the expected queue and programs at one operation. -/
theorem expected_cons (created : Nat) (op : Operation) (rest : List Operation) :
    (op.isWork = true →
      queueAfterStart (op :: rest) = op :: queueAfterStart rest ∧
        expectedPrograms created (op :: rest) = expectedPrograms created rest) ∧
    (op.isProgramStart = true →
      queueAfterStart (op :: rest) = [] ∧
        expectedPrograms created (op :: rest) =
          { m_appID := created + 1, m_errorStr := "", m_opQueue := queueAfterStart rest } ::
            expectedPrograms (created + 1) rest) ∧
    (op.isProgramEnd = true →
      queueAfterStart (op :: rest) = [] ∧
        expectedPrograms created (op :: rest) = expectedPrograms created rest) ∧
    (op.isWork = false → op.isProgramStart = false → op.isProgramEnd = false →
      queueAfterStart (op :: rest) = queueAfterStart rest ∧
        expectedPrograms created (op :: rest) = expectedPrograms created rest) := by
  have hex := kinds_exclusive op
  refine ⟨fun hw => ?_, fun hs => ?_, fun he => ?_, fun hw hs he => ?_⟩
  · obtain ⟨hs, he, _, _⟩ := hex.1 hw
    simp [queueAfterStart, expectedPrograms, hw, hs, he]
  · simp [queueAfterStart, expectedPrograms, hs]
  · obtain ⟨_, hs, _, _⟩ := hex.2.2 he
    simp [queueAfterStart, expectedPrograms, hs, he]
  · simp [queueAfterStart, expectedPrograms, hw, hs, he]

/-- When the loop of the loader runs to its end, the run list has grown by
the expected programs, the operations pending for the application created last
have been pushed to it, and every process, input, output and memory operation
is in one of those queues. -/
theorem loadLoop_programs (rest : List Operation) (st st2 : LoadState)
    (h : loadLoop rest st = Except.ok (Sum.inr st2))
    (hbound : st.appIndex + rest.length < 2 ^ 32) :
    st2.sim.m_applications =
        (if st.app = AppPtr.lastCreated then queueAfterStart rest else []).foldl pushToLast
          st.sim.m_applications ++ expectedPrograms st.appIndex rest ∧
      rest.filter Operation.isWork =
        (if st.app = AppPtr.lastCreated then queueAfterStart rest else []) ++
          ((expectedPrograms st.appIndex rest).map (fun a => a.m_opQueue)).flatten := by
  induction rest generalizing st with
  | nil =>
    simp only [loadLoop, Except.ok.injEq, Sum.inr.injEq] at h
    subst h
    simp [queueAfterStart, expectedPrograms]
  | cons op rest ih =>
    have hlen : st.appIndex + 1 + rest.length < 2 ^ 32 := by
      simp only [List.length_cons] at hbound
      omega
    have hlen0 : st.appIndex + rest.length < 2 ^ 32 := by omega
    have hmod : (st.appIndex + 1) % 2 ^ 32 = st.appIndex + 1 := Nat.mod_eq_of_lt (by omega)
    have hex := expected_cons st.appIndex op rest
    by_cases hw : op.isWork = true
    · obtain ⟨hq, hp⟩ := hex.1 hw
      have hstep := loadStep_work st op hw
      cases hptr : st.app with
      | indeterminate =>
        rw [hptr] at hstep
        rw [loadLoop, hstep] at h
        cases h
      | null =>
        rw [hptr] at hstep
        rw [loadLoop_cons_ok op rest st _ hstep] at h
        have hne : ("No application to assign operation \"" ++ metadataToString op.data ++
            "\"").isEmpty = false := isEmpty_append_right _ _ (by decide)
        simp only [hne, Bool.false_eq_true, if_false] at h
        cases h
      | lastCreated =>
        rw [hptr] at hstep
        rw [loadLoop_cons_ok op rest st _ hstep] at h
        by_cases hem : st.sim.m_error.isEmpty = true
        · simp only [hem, if_true] at h
          have step := ih _ h hlen0
          simp only [hptr, if_true] at step
          simp only [if_true, hq, hp, List.foldl_cons, List.filter_cons, hw, List.cons_append]
          exact ⟨step.1, by rw [step.2]⟩
        · simp only [hem, Bool.false_eq_true, if_false] at h
          cases h
    · have hwf : op.isWork = false := by simpa using hw
      by_cases hs : op.isProgramStart = true
      · obtain ⟨hq, hp⟩ := hex.2.1 hs
        have hstep := loadStep_programStart st op hs
        rw [loadLoop_cons_ok op rest st _ hstep] at h
        by_cases hem : st.sim.m_error.isEmpty = true
        · have hem2 : (outputSysOperation
              { st.sim with
                m_applications := st.sim.m_applications ++
                  [{ m_appID := (st.appIndex + 1) % 2 ^ 32, m_errorStr := "" }] }
              ((st.appIndex + 1) % 2 ^ 32) "loading application" false).m_error.isEmpty
                = true := hem
          simp only [hem2, if_true] at h
          have step := ih _ h (by simp only [hmod]; exact hlen)
          simp only [if_true, hmod] at step
          have happs : (outputSysOperation
              { st.sim with
                m_applications := st.sim.m_applications ++
                  [{ m_appID := st.appIndex + 1, m_errorStr := "" }] }
              (st.appIndex + 1) "loading application" false).m_applications =
              st.sim.m_applications ++ [{ m_appID := st.appIndex + 1, m_errorStr := "" }] := rfl
          rw [happs, foldl_pushToLast_append] at step
          simp only [hq, hp, ite_self, List.foldl_nil, List.filter_cons, hwf,
            Bool.false_eq_true, if_false, List.nil_append, List.map_cons, List.flatten_cons]
          refine ⟨?_, step.2⟩
          rw [step.1]
          simp
        · have hem2 : (outputSysOperation
              { st.sim with
                m_applications := st.sim.m_applications ++
                  [{ m_appID := (st.appIndex + 1) % 2 ^ 32, m_errorStr := "" }] }
              ((st.appIndex + 1) % 2 ^ 32) "loading application" false).m_error.isEmpty
                = false := by simpa using hem
          simp only [hem2, Bool.false_eq_true, if_false] at h
          cases h
      · have hsf : op.isProgramStart = false := by simpa using hs
        by_cases he : op.isProgramEnd = true
        · obtain ⟨hq, hp⟩ := hex.2.2.1 he
          have hstep := loadStep_programEnd st op he
          rw [loadLoop_cons_ok op rest st _ hstep] at h
          by_cases hem : st.sim.m_error.isEmpty = true
          · simp only [hem, if_true] at h
            have step := ih _ h hlen0
            simp only [reduceCtorEq, if_false, List.foldl_nil, List.nil_append] at step
            simp only [hq, hp, ite_self, List.foldl_nil, List.filter_cons, hwf,
              Bool.false_eq_true, if_false, List.nil_append]
            exact step
          · simp only [hem, Bool.false_eq_true, if_false] at h
            cases h
        · have hef : op.isProgramEnd = false := by simpa using he
          obtain ⟨hq, hp⟩ := hex.2.2.2 hwf hsf hef
          by_cases hsys : op.isSystemStart = true ∨ op.isSystemEnd = true
          · rcases loadStep_system st op hsys with ⟨st1, hstep, hne⟩
            rw [loadLoop_cons_ok op rest st _ hstep] at h
            simp only [hne, Bool.false_eq_true, if_false] at h
            cases h
          · have hss : op.isSystemStart = false := by
              cases hv : op.isSystemStart with
              | false => rfl
              | true => exact absurd (Or.inl hv) hsys
            have hse : op.isSystemEnd = false := by
              cases hv : op.isSystemEnd with
              | false => rfl
              | true => exact absurd (Or.inr hv) hsys
            have hstep := loadStep_other st op hwf hsf hef hss hse
            rw [loadLoop_cons_ok op rest st _ hstep] at h
            by_cases hem : st.sim.m_error.isEmpty = true
            · simp only [hem, if_true] at h
              have step := ih _ h hlen0
              simp only [hq, hp, List.filter_cons, hwf, Bool.false_eq_true, if_false]
              exact step
            · simp only [hem, Bool.false_eq_true, if_false] at h
              cases h

end OsSim

namespace OsSim

/-- An accepted stream starts with `S(start)` and its loop runs to the end;
the simulator returned is the one the loop leaves. -/
theorem loadOperations_accepted (sim sim1 : Simulator)
    (h : loadOperations sim = Except.ok (true, sim1)) :
    ∃ front st, sim.m_operations.head? = some front ∧ front.isSystemStart = true ∧
      loadLoop (interiorOps sim.m_operations)
        { appIndex := 0, app := AppPtr.indeterminate,
          sim := outputMetrics (outputConfig sim) } = Except.ok (Sum.inr st) ∧
      sim1 = st.sim := by
  have hops : (outputMetrics (outputConfig sim)).m_operations = sim.m_operations := rfl
  unfold loadOperations at h
  simp only [hops] at h
  cases hf : sim.m_operations.head? with
  | none => simp only [hf] at h; cases h
  | some front =>
    simp only [hf] at h
    by_cases hs : front.isSystemStart = true
    · simp only [hs, not_true_eq_false, if_false] at h
      cases hl : loadLoop (interiorOps sim.m_operations)
          { appIndex := 0, app := AppPtr.indeterminate,
            sim := outputMetrics (outputConfig sim) } with
      | error f => simp only [hl] at h; cases h
      | ok r =>
        simp only [hl] at h
        cases r with
        | inl sim2 => simp at h
        | inr st =>
          simp only at h
          cases hb : st.sim.m_operations.getLast? with
          | none => simp only [hb] at h; cases h
          | some back =>
            simp only [hb] at h
            by_cases he : back.isSystemEnd = true
            · simp only [he, not_true_eq_false, if_false, Except.ok.injEq, Prod.mk.injEq,
                true_and] at h
              exact ⟨front, st, rfl, hs, rfl, h.symm⟩
            · simp [he] at h
    · simp [hs] at h

/-- A stream that starts with `S(start)` and whose loop is left with an error
is rejected with the simulator the loop leaves. -/
theorem loadOperations_loop_error (sim sim2 : Simulator) (front : Operation)
    (hf : sim.m_operations.head? = some front) (hs : front.isSystemStart = true)
    (hl : loadLoop (interiorOps sim.m_operations)
      { appIndex := 0, app := AppPtr.indeterminate,
        sim := outputMetrics (outputConfig sim) } = Except.ok (Sum.inl sim2)) :
    loadOperations sim = Except.ok (false, sim2) := by
  have hops : (outputMetrics (outputConfig sim)).m_operations = sim.m_operations := rfl
  unfold loadOperations
  simp only [hops, hf, hs, not_true_eq_false, if_false, hl]

/-- A loop that ends at an `S(start)` is left with an error. -/
theorem loadLoop_ends_with_start (xs : List Operation) (front : Operation) (st st2 : LoadState)
    (hs : front.isSystemStart = true) :
    loadLoop (xs ++ [front]) st ≠ Except.ok (Sum.inr st2) := by
  intro h
  rw [loadLoop_append] at h
  cases hx : loadLoop xs st with
  | error f => simp only [hx] at h; cases h
  | ok r =>
    simp only [hx] at h
    cases r with
    | inl s => simp at h
    | inr stm =>
      simp only at h
      rcases loadStep_system stm front (Or.inl hs) with ⟨st1, hstep, hne⟩
      rw [loadLoop_cons_ok front [] stm st1 hstep] at h
      simp only [hne, Bool.false_eq_true, if_false] at h
      cases h

/-- An accepted stream has at most `2 ^ 32` operations. -/
theorem accepted_length (sim sim1 : Simulator)
    (h : loadOperations sim = Except.ok (true, sim1)) :
    sim.m_operations.length ≤ 2 ^ 32 := by
  rcases loadOperations_accepted sim sim1 h with ⟨front, st, hf, hs, hl, _⟩
  by_contra hlong
  have htake : sim.m_operations.take 1 = [front] := by
    cases hops : sim.m_operations with
    | nil => rw [hops] at hf; cases hf
    | cons a rest =>
      rw [hops] at hf
      simp only [List.head?_cons, Option.some.injEq] at hf
      subst hf
      rfl
  simp only [interiorOps, hlong, if_false, htake] at hl
  exact loadLoop_ends_with_start _ front _ st hs hl

/-- C21: for every operation stream accepted by `loadOperations` on a
simulator with an empty run list, the run list afterwards is the list of
expected programs of the interior of the stream: one program per interior
program start, in stream order, with ids 1, 2, ..., k, each with the queue of
the process, input, output and memory operations that follow its program start
up to the next program start or program end; and the queues, one after
another, hold exactly the interior process, input, output and memory
operations in stream order. -/
theorem program_construction (sim : Simulator) (hfresh : sim.m_applications = [])
    (haccept : (loadOperations sim).toOption.map (fun r => r.1) = some true) :
    ∃ sim1, loadOperations sim = Except.ok (true, sim1) ∧
      sim1.m_applications = expectedPrograms 0 (sim.m_operations.drop 1).dropLast ∧
      sim1.m_applications.map (fun a => a.m_appID) =
        List.range' 1 ((sim.m_operations.drop 1).dropLast.countP Operation.isProgramStart) ∧
      (sim1.m_applications.map (fun a => a.m_opQueue)).flatten =
        (sim.m_operations.drop 1).dropLast.filter Operation.isWork := by
  cases hres : loadOperations sim with
  | error f => rw [hres] at haccept; cases haccept
  | ok p =>
    rcases p with ⟨b, sim1⟩
    rw [hres] at haccept
    simp only [Except.toOption, Option.map_some', Option.some.injEq] at haccept
    subst haccept
    refine ⟨sim1, rfl, ?_⟩
    have hshort := accepted_length sim sim1 hres
    rcases loadOperations_accepted sim sim1 hres with ⟨front, st, hf, hs, hl, hsim⟩
    simp only [interiorOps, hshort, if_true] at hl
    have hbound : (0 : Nat) + (sim.m_operations.drop 1).dropLast.length < 2 ^ 32 := by
      simp only [List.length_dropLast, List.length_drop]
      have hpos : (0 : Nat) < 2 ^ 32 := Nat.two_pow_pos 32
      omega
    have hmain := loadLoop_programs _ _ st hl hbound
    have happs : (outputMetrics (outputConfig sim)).m_applications = [] := hfresh
    simp only [reduceCtorEq, if_false, List.foldl_nil, happs, List.nil_append] at hmain
    subst hsim
    refine ⟨hmain.1, ?_, ?_⟩
    · rw [hmain.1]
      exact expectedPrograms_ids 0 _
    · rw [hmain.1]
      exact hmain.2.symm

/-- The stream with two programs is accepted: program 1 gets the process/run
and the printer output, program 2 the allocation. -/
theorem program_construction_witness :
    ∃ sim1, loadOperations (initialized sampleConfig twoProgramStream (freshPools 1 1 1 1)) =
        Except.ok (true, sim1) ∧
      sim1.m_applications =
        [freshProgram 1 [processRun 3 10, printerOutput 2 25],
          freshProgram 2 [allocateOp 1 30]] := by
  rcases program_construction (initialized sampleConfig twoProgramStream (freshPools 1 1 1 1))
    rfl (by decide) with ⟨sim1, h1, h2, _, _⟩
  exact ⟨sim1, h1, h2.trans (by decide)⟩

end OsSim

namespace OsSim

/-- While no program start comes, the pointer of the loader stays `NULL`. -/
theorem loadLoop_null (l : List Operation) (st st2 : LoadState)
    (h : loadLoop l st = Except.ok (Sum.inr st2)) (hp : st.app = AppPtr.null)
    (hno : ∀ o ∈ l, o.isProgramStart = false) : st2.app = AppPtr.null := by
  induction l generalizing st with
  | nil =>
    simp only [loadLoop, Except.ok.injEq, Sum.inr.injEq] at h
    subst h
    exact hp
  | cons op rest ih =>
    have hsf : op.isProgramStart = false := hno op (List.mem_cons_self _ _)
    have hrest : ∀ o ∈ rest, o.isProgramStart = false :=
      fun o ho => hno o (List.mem_cons_of_mem _ ho)
    by_cases hw : op.isWork = true
    · have hstep := loadStep_work st op hw
      rw [hp] at hstep
      rw [loadLoop_cons_ok op rest st _ hstep] at h
      have hne : ("No application to assign operation \"" ++ metadataToString op.data ++
          "\"").isEmpty = false := isEmpty_append_right _ _ (by decide)
      simp only [hne, Bool.false_eq_true, if_false] at h
      cases h
    · have hwf : op.isWork = false := by simpa using hw
      by_cases he : op.isProgramEnd = true
      · have hstep := loadStep_programEnd st op he
        rw [loadLoop_cons_ok op rest st _ hstep] at h
        by_cases hem : st.sim.m_error.isEmpty = true
        · simp only [hem, if_true] at h
          exact ih _ h rfl hrest
        · simp only [hem, Bool.false_eq_true, if_false] at h
          cases h
      · have hef : op.isProgramEnd = false := by simpa using he
        by_cases hsys : op.isSystemStart = true ∨ op.isSystemEnd = true
        · rcases loadStep_system st op hsys with ⟨st1, hstep, hne⟩
          rw [loadLoop_cons_ok op rest st _ hstep] at h
          simp only [hne, Bool.false_eq_true, if_false] at h
          cases h
        · have hss : op.isSystemStart = false := by
            cases hv : op.isSystemStart with
            | false => rfl
            | true => exact absurd (Or.inl hv) hsys
          have hse : op.isSystemEnd = false := by
            cases hv : op.isSystemEnd with
            | false => rfl
            | true => exact absurd (Or.inr hv) hsys
          have hstep := loadStep_other st op hwf hsf hef hss hse
          rw [loadLoop_cons_ok op rest st _ hstep] at h
          by_cases hem : st.sim.m_error.isEmpty = true
          · simp only [hem, if_true] at h
            exact ih _ h hp hrest
          · simp only [hem, Bool.false_eq_true, if_false] at h
            cases h

/-- After a part of the stream that holds a program end with no program
start behind it, the pointer of the loader is `NULL`. -/
theorem loadLoop_after_programEnd (pre1 pre2 : List Operation) (e : Operation)
    (st st2 : LoadState)
    (h : loadLoop (pre1 ++ e :: pre2) st = Except.ok (Sum.inr st2))
    (he : e.isProgramEnd = true) (hno : ∀ o ∈ pre2, o.isProgramStart = false) :
    st2.app = AppPtr.null := by
  rw [loadLoop_append] at h
  cases hx : loadLoop pre1 st with
  | error f => simp only [hx] at h; cases h
  | ok r =>
    simp only [hx] at h
    cases r with
    | inl s => simp at h
    | inr stm =>
      simp only at h
      rw [loadLoop_cons_ok e pre2 stm _ (loadStep_programEnd stm e he)] at h
      by_cases hem : stm.sim.m_error.isEmpty = true
      · simp only [hem, if_true] at h
        exact loadLoop_null pre2 _ st2 h rfl hno
      · simp only [hem, Bool.false_eq_true, if_false] at h
        cases h

/-- C22, as the claim states it, fails.  In S(start)0, A(start)0, A(end)0,
P(run)3 the process operation follows the program end, but it is the last
operation, which the loop does not visit: the error is "Operating system not
ended in m_metadata".  In S(start)0, A(start)0, A(end)0, S(end)0, P(run)3,
S(end)0 the loader stops at the interior S(end) before it reaches the process
operation. -/
theorem orphan_not_reported :
    (loadOperations (initialized sampleConfig
      [marker MetaCode.M_OPER_SYS MetaDesc.M_START,
        marker MetaCode.M_PROGRAM_APP MetaDesc.M_START,
        marker MetaCode.M_PROGRAM_APP MetaDesc.M_END, processRun 3 10]
      (freshPools 1 1 1 1))).toOption.map (fun r => (r.1, r.2.m_error)) =
      some (false, "Operating system not ended in m_metadata") ∧
    (loadOperations (initialized sampleConfig
      [marker MetaCode.M_OPER_SYS MetaDesc.M_START,
        marker MetaCode.M_PROGRAM_APP MetaDesc.M_START,
        marker MetaCode.M_PROGRAM_APP MetaDesc.M_END,
        marker MetaCode.M_OPER_SYS MetaDesc.M_END, processRun 3 10,
        marker MetaCode.M_OPER_SYS MetaDesc.M_END]
      (freshPools 1 1 1 1))).toOption.map (fun r => (r.1, r.2.m_error)) =
      some (false, "Operating system can not be ended until end of m_metadata. Aborting...") := by
  decide

/-- C22 (amended): for every stream of at most 2^32 operations that starts
with S(start), if a process, input, output or memory operation at an interior
position follows a program end with no program start in between, and the loop
reaches it (no operation before it sets an error or reads the unset pointer),
then `loadOperations` returns false with the error `No application to assign
operation "<op>"`, where `<op>` is the text of that operation, and the run
list is the one the operations before it have built. -/
theorem orphan_operation_error (sim : Simulator) (front orphan e : Operation)
    (pre1 pre2 post : List Operation)
    (hops : sim.m_operations = front :: ((pre1 ++ e :: pre2) ++ orphan :: post))
    (hfront : front.isSystemStart = true) (hpost : post ≠ [])
    (hlen : sim.m_operations.length ≤ 2 ^ 32)
    (he : e.isProgramEnd = true) (hno : ∀ o ∈ pre2, o.isProgramStart = false)
    (horphan : orphan.isWork = true)
    (hreach : (loadLoop (pre1 ++ e :: pre2)
      { appIndex := 0, app := AppPtr.indeterminate,
        sim := outputMetrics (outputConfig sim) }).toOption.map (fun r => r.isRight) =
        some true) :
    ∃ st1, loadLoop (pre1 ++ e :: pre2)
        { appIndex := 0, app := AppPtr.indeterminate,
          sim := outputMetrics (outputConfig sim) } = Except.ok (Sum.inr st1) ∧
      loadOperations sim = Except.ok (false,
        { st1.sim with
          m_error := "No application to assign operation \"" ++
            metadataToString orphan.data ++ "\"" }) := by
  cases hl : loadLoop (pre1 ++ e :: pre2)
      { appIndex := 0, app := AppPtr.indeterminate,
        sim := outputMetrics (outputConfig sim) } with
  | error f => rw [hl] at hreach; cases hreach
  | ok r =>
    cases r with
    | inl s =>
      rw [hl] at hreach
      simp [Except.toOption] at hreach
    | inr st1 =>
      refine ⟨st1, rfl, ?_⟩
      have hnull := loadLoop_after_programEnd pre1 pre2 e _ st1 hl he hno
      have hint : interiorOps sim.m_operations =
          (pre1 ++ e :: pre2) ++ orphan :: post.dropLast := by
        simp only [interiorOps, hlen, if_true]
        rw [hops, List.drop_one, List.tail_cons, List.dropLast_append_of_ne_nil _ (by simp),
          List.dropLast_cons_of_ne_nil hpost]
      have hstep := loadStep_work st1 orphan horphan
      rw [hnull] at hstep
      have hne : ("No application to assign operation \"" ++ metadataToString orphan.data ++
          "\"").isEmpty = false := isEmpty_append_right _ _ (by decide)
      have hloop : loadLoop (interiorOps sim.m_operations)
          { appIndex := 0, app := AppPtr.indeterminate,
            sim := outputMetrics (outputConfig sim) } =
          Except.ok (Sum.inl
            { st1.sim with
              m_error := "No application to assign operation \"" ++
                metadataToString orphan.data ++ "\"" }) := by
        rw [hint, loadLoop_append, hl]
        simp only []
        rw [loadLoop_cons_ok orphan post.dropLast st1 _ hstep]
        simp only [hne, Bool.false_eq_true, if_false]
      exact loadOperations_loop_error sim _ front (by rw [hops]; rfl) hfront hloop

/-- In S(start)0, A(start)0, P(run)3, A(end)0, O(printer)2, S(end)0 the
printer output follows the end of program 1: the stream is rejected with the
error that quotes it, and program 1 holds the process/run alone. -/
theorem orphan_operation_error_witness :
    (loadOperations (initialized sampleConfig orphanStream (freshPools 1 1 1 1))).toOption.map
        (fun r => (r.1, r.2.m_error)) =
      some (false, "No application to assign operation \"O(printer)2\"") ∧
    (loadOperations (initialized sampleConfig orphanStream (freshPools 1 1 1 1))).toOption.map
        (fun r => r.2.m_applications) = some [freshProgram 1 [processRun 3 10]] := by
  rcases orphan_operation_error (initialized sampleConfig orphanStream (freshPools 1 1 1 1))
    (marker MetaCode.M_OPER_SYS MetaDesc.M_START) (printerOutput 2 25)
    (marker MetaCode.M_PROGRAM_APP MetaDesc.M_END)
    [marker MetaCode.M_PROGRAM_APP MetaDesc.M_START, processRun 3 10] []
    [marker MetaCode.M_OPER_SYS MetaDesc.M_END]
    rfl rfl (by decide) (by decide) rfl (by simp) rfl (by decide) with ⟨st1, h1, h2⟩
  have hlist : (loadLoop
      [marker MetaCode.M_PROGRAM_APP MetaDesc.M_START, processRun 3 10,
        marker MetaCode.M_PROGRAM_APP MetaDesc.M_END]
      { appIndex := 0, app := AppPtr.indeterminate,
        sim := outputMetrics (outputConfig
          (initialized sampleConfig orphanStream (freshPools 1 1 1 1))) }).toOption.map
      (fun r => r.elim (fun s => s.m_applications) (fun st => st.sim.m_applications)) =
      some [freshProgram 1 [processRun 3 10]] := by decide
  rw [show [marker MetaCode.M_PROGRAM_APP MetaDesc.M_START, processRun 3 10] ++
      marker MetaCode.M_PROGRAM_APP MetaDesc.M_END :: [] =
      [marker MetaCode.M_PROGRAM_APP MetaDesc.M_START, processRun 3 10,
        marker MetaCode.M_PROGRAM_APP MetaDesc.M_END] from rfl] at h1
  rw [h1] at hlist
  simp only [Except.toOption, Option.map_some', Sum.elim_inr, Option.some.injEq] at hlist
  rw [h2]
  exact ⟨by simp only [Except.toOption, Option.map_some']; decide,
    by simp only [Except.toOption, Option.map_some', hlist]⟩

end OsSim

/-! ## The trace of a run and the lifecycle of its programs -/

namespace OsSim

theorem getMemoryAddress_fileOutput (env : Env) (sim : Simulator) :
    ( getMemoryAddress env sim).2.m_fileOutput = sim.m_fileOutput := by
  unfold getMemoryAddress
  cases memoryConfigLoop env sim.m_config (UINT_MAX, UINT_MAX) with
  | none => rfl
  | some p =>
    rcases p with ⟨t, b⟩
    simp only
    split_ifs <;> rfl

/-- One operation appends nothing to the overall trace. -/
theorem executeOp_fileOutput (env : Env) (app : Application) (sim : Simulator)
    (op : Operation) : (executeOp env app sim op).2.m_fileOutput = sim.m_fileOutput := by
  have alloc : (handleAllocate env (app.output "allocating memory") sim op).2.2.m_fileOutput =
      sim.m_fileOutput := by
    unfold handleAllocate
    simp only
    split_ifs <;> exact getMemoryAddress_fileOutput env sim
  rcases op with ⟨⟨code, desc, cyc⟩, t⟩
  cases code <;> cases desc <;> simp only [executeOp] <;>
    first
    | rfl
    | exact alloc

/-- The run of a program appends nothing to the overall trace. -/
theorem executeLoop_fileOutput (env : Env) (queue : List Operation) (app : Application)
    (sim : Simulator) : (executeLoop env queue app sim).2.2.m_fileOutput = sim.m_fileOutput := by
  induction queue generalizing app sim with
  | nil => rfl
  | cons op rest ih =>
    by_cases herr : (executeOp env app sim op).1.m_errorStr.isEmpty = true
    · rw [executeLoop_cons_ok env op rest app sim herr, ih]
      exact executeOp_fileOutput env app sim op
    · have hfalse : (executeOp env app sim op).1.m_errorStr.isEmpty = false := by
        simpa using herr
      rw [executeLoop_cons_fail env op rest app sim hfalse]
      exact executeOp_fileOutput env app sim op

/-- What one successful round of the scheduler loop appends to the trace. -/
theorem round_fileOutput (env : Env) (app : Application) (sim : Simulator) :
    (finishApplication
      (executeInstructions env (startApplication app sim).1 (startApplication app sim).2).2.1
      (executeInstructions env (startApplication app sim).1
        (startApplication app sim).2).2.2).2.m_fileOutput =
      sim.m_fileOutput ++ programBlock
        (finishApplication
          (executeInstructions env (startApplication app sim).1 (startApplication app sim).2).2.1
          (executeInstructions env (startApplication app sim).1
            (startApplication app sim).2).2.2).1 := by
  have hid := (executeLoop_identity env (startApplication app sim).1.m_opQueue
    (startApplication app sim).1 (startApplication app sim).2).1
  have hfo := executeLoop_fileOutput env (startApplication app sim).1.m_opQueue
    (startApplication app sim).1 (startApplication app sim).2
  have hid2 : (executeInstructions env (startApplication app sim).1
      (startApplication app sim).2).2.1.m_appID = app.m_appID := hid
  have hfo2 : (executeInstructions env (startApplication app sim).1
      (startApplication app sim).2).2.2.m_fileOutput =
      sim.m_fileOutput ++ [sysLine "starting application" app.m_appID] := hfo
  simp only [finishApplication, outputSysOperation, programBlock, hid2, hfo2, sysLine,
    List.append_assoc, List.cons_append, List.nil_append]

/-- The trace of a scheduler loop that runs to its end: one block per
program, in the order of the run list, which keeps its ids. -/
theorem schedulerLoop_trace (env : Env) (apps : List Application) (sim : Simulator)
    (h : (schedulerLoop env apps sim).ok = true) :
    (schedulerLoop env apps sim).sim.m_fileOutput =
        sim.m_fileOutput ++ (schedulerLoop env apps sim).apps.flatMap programBlock ∧
      (schedulerLoop env apps sim).apps.map (fun a => a.m_appID) =
        apps.map (fun a => a.m_appID) ∧
      ∀ a ∈ (schedulerLoop env apps sim).apps, a.m_PCB.pState = ProcessState.EXIT := by
  induction apps generalizing sim with
  | nil => simp [schedulerLoop]
  | cons app rest ih =>
    by_cases hrun : (executeInstructions env (startApplication app sim).1
        (startApplication app sim).2).1 = true
    · rw [schedulerLoop_cons_ok env app rest sim hrun] at h ⊢
      have step := ih _ h
      have hid := (executeLoop_identity env (startApplication app sim).1.m_opQueue
        (startApplication app sim).1 (startApplication app sim).2).1
      refine ⟨?_, ?_, ?_⟩
      · simp only [List.flatMap_cons]
        rw [step.1, round_fileOutput, List.append_assoc]
      · simp only [List.map_cons, step.2.1]
        exact congrArg (fun x => x :: _) hid
      · intro a ha
        simp only [List.mem_cons] at ha
        rcases ha with ha | ha
        · rw [ha]
          rfl
        · exact step.2.2 a ha
    · have hfalse : (executeInstructions env (startApplication app sim).1
          (startApplication app sim).2).1 = false := by simpa using hrun
      rw [schedulerLoop_cons_fail env app rest sim hfalse] at h
      exact absurd h (by simp)

end OsSim

namespace OsSim

/-- In a scheduler loop that runs to its end, the trace at the moment the
program at position `k` is run consists of the blocks of the programs before
it and its own "starting application" line. -/
theorem schedulerLoop_entered_trace (env : Env) (apps : List Application) (sim : Simulator)
    (h : (schedulerLoop env apps sim).ok = true) (k : Nat) (s : Simulator)
    (hk : (schedulerLoop env apps sim).entered[k]? = some s) :
    ∃ a, (schedulerLoop env apps sim).apps[k]? = some a ∧
      s.m_fileOutput = sim.m_fileOutput ++
        ((schedulerLoop env apps sim).apps.take k).flatMap programBlock ++
        [sysLine "starting application" a.m_appID] := by
  induction apps generalizing sim k with
  | nil => simp [schedulerLoop] at hk
  | cons app rest ih =>
    by_cases hrun : (executeInstructions env (startApplication app sim).1
        (startApplication app sim).2).1 = true
    · rw [schedulerLoop_cons_ok env app rest sim hrun] at h hk ⊢
      have hid := (executeLoop_identity env (startApplication app sim).1.m_opQueue
        (startApplication app sim).1 (startApplication app sim).2).1
      cases k with
      | zero =>
        simp only [List.getElem?_cons_zero, Option.some.injEq] at hk
        subst hk
        refine ⟨(finishApplication
            (executeInstructions env (startApplication app sim).1
              (startApplication app sim).2).2.1
            (executeInstructions env (startApplication app sim).1
              (startApplication app sim).2).2.2).1, List.getElem?_cons_zero, ?_⟩
        simp only [List.take_zero, List.flatMap_nil, List.append_nil]
        have hidf : (finishApplication
            (executeInstructions env (startApplication app sim).1
              (startApplication app sim).2).2.1
            (executeInstructions env (startApplication app sim).1
              (startApplication app sim).2).2.2).1.m_appID = app.m_appID := hid
        rw [hidf]
        rfl
      | succ k =>
        simp only [List.getElem?_cons_succ] at hk
        rcases ih _ h k hk with ⟨a, ha, hs⟩
        refine ⟨a, by simpa using ha, ?_⟩
        rw [hs, round_fileOutput]
        simp only [List.take_succ_cons, List.flatMap_cons, List.append_assoc]
    · have hfalse : (executeInstructions env (startApplication app sim).1
          (startApplication app sim).2).1 = false := by simpa using hrun
      rw [schedulerLoop_cons_fail env app rest sim hfalse] at h
      exact absurd h (by simp)

/-- The scheduler is its loop on the simulator with the starting line
appended; the run list afterwards is the list the loop leaves. -/
theorem runScheduler_eq (env : Env) (sim : Simulator) :
    (runScheduler env sim).ok = (schedulerLoop env sim.m_applications (schedulerStart sim)).ok ∧
      (runScheduler env sim).sim.m_applications =
        (schedulerLoop env sim.m_applications (schedulerStart sim)).apps ∧
      (runScheduler env sim).sim.m_fileOutput =
        (schedulerLoop env sim.m_applications (schedulerStart sim)).sim.m_fileOutput ∧
      (runScheduler env sim).entered =
        (schedulerLoop env sim.m_applications (schedulerStart sim)).entered ∧
      (runScheduler env sim).sim.m_error =
        (schedulerLoop env sim.m_applications (schedulerStart sim)).sim.m_error :=
  ⟨rfl, rfl, rfl, rfl, rfl⟩

/-- C32: for a successful run, `runScheduler` appends to the overall trace
the line "Simulator program starting" and then, for each program in the order
of the run list (creation order, ids kept), its "starting application" line,
its "terminating application" line and its complete buffered log, so the log
lines of different programs are never interleaved; `executeInstructions` is
called once per program, and when the program at position k is started the
trace already holds the complete blocks of all programs before it. -/
theorem cross_program_order (env : Env) (sim : Simulator)
    (hok : (runScheduler env sim).ok = true) :
    (runScheduler env sim).sim.m_fileOutput =
        sim.m_fileOutput ++ ["Simulator program starting\n"] ++
          (runScheduler env sim).sim.m_applications.flatMap programBlock ∧
      (runScheduler env sim).sim.m_applications.map (fun a => a.m_appID) =
        sim.m_applications.map (fun a => a.m_appID) ∧
      (runScheduler env sim).entered.length = sim.m_applications.length ∧
      ∀ (k : Nat) (s : Simulator), (runScheduler env sim).entered[k]? = some s →
        ∃ a, (runScheduler env sim).sim.m_applications[k]? = some a ∧
          s.m_fileOutput = sim.m_fileOutput ++ ["Simulator program starting\n"] ++
            ((runScheduler env sim).sim.m_applications.take k).flatMap programBlock ++
            [sysLine "starting application" a.m_appID] := by
  have heq := runScheduler_eq env sim
  rw [heq.1] at hok
  rw [heq.2.1, heq.2.2.1, heq.2.2.2.1]
  have htrace := schedulerLoop_trace env sim.m_applications (schedulerStart sim) hok
  have hlen := (schedulerLoop_length env sim.m_applications (schedulerStart sim)).2 hok
  refine ⟨htrace.1, htrace.2.1, hlen, ?_⟩
  intro k s hk
  rcases schedulerLoop_entered_trace env sim.m_applications (schedulerStart sim) hok k s hk
    with ⟨a, ha, hs⟩
  exact ⟨a, ha, hs⟩

/-- The run of the two sample programs is successful; the trace is the
starting line, the block of program 1 and then the block of program 2. -/
theorem cross_program_order_witness :
    (runScheduler decimalEnv twoPrograms).sim.m_fileOutput =
      ["Simulator program starting\n",
        "OS: starting application 1\n", "OS: terminating application 1\n",
        "Application 1: allocating memory\n",
        "Application 1: memory allocated at 0x00000000\n",
        "Application 1: allocating memory\n",
        "Application 1: memory allocated at 0x00000032\n",
        "OS: starting application 2\n", "OS: terminating application 2\n",
        "Application 2: processing action: start\n", "Application 2: processing action: end\n",
        "Application 2: allocating memory\n",
        "Application 2: memory allocated at 0x00000000\n"] :=
  (cross_program_order decimalEnv twoPrograms (by decide)).1.trans (by decide)

end OsSim

namespace OsSim

/-- C36, as the claim states it, fails: in the trace of the successful run of
one program with a process/run, the two log lines of the operation come after
the line "OS: terminating application 1", not before it. -/
theorem log_follows_terminating_line :
    (runScheduler decimalEnv oneProgram).ok = true ∧
    (runScheduler decimalEnv oneProgram).sim.m_fileOutput =
      ["Simulator program starting\n",
        "OS: starting application 1\n", "OS: terminating application 1\n",
        "Application 1: processing action: start\n",
        "Application 1: processing action: end\n"] := by
  decide

/-- C36 (amended): in the overall trace of a successful run, the log of every
program is appended as one block after the program has terminated: the trace
is some text, then "OS: starting application i", then "OS: terminating
application i", then the program's buffered log lines in the order they were
written, then the rest; so every operation log line of program i appears after
both system lines of program i. -/
theorem log_block_after_termination (env : Env) (sim : Simulator) (k : Nat)
    (a : Application) (hok : (runScheduler env sim).ok = true)
    (ha : (runScheduler env sim).sim.m_applications[k]? = some a) :
    ∃ before after, (runScheduler env sim).sim.m_fileOutput =
      before ++ [sysLine "starting application" a.m_appID,
        sysLine "terminating application" a.m_appID] ++ a.getLogStr ++ after := by
  have heq := runScheduler_eq env sim
  rw [heq.1] at hok
  rw [heq.2.1] at ha
  rw [heq.2.2.1]
  have htrace := (schedulerLoop_trace env sim.m_applications (schedulerStart sim) hok).1
  have hlt : k < (schedulerLoop env sim.m_applications (schedulerStart sim)).apps.length := by
    rcases List.getElem?_eq_some_iff.mp ha with ⟨hl, _⟩
    exact hl
  have hget : (schedulerLoop env sim.m_applications (schedulerStart sim)).apps[k] = a := by
    rcases List.getElem?_eq_some_iff.mp ha with ⟨_, hv⟩
    exact hv
  have hsplit : (schedulerLoop env sim.m_applications (schedulerStart sim)).apps =
      (schedulerLoop env sim.m_applications (schedulerStart sim)).apps.take k ++
        a :: (schedulerLoop env sim.m_applications (schedulerStart sim)).apps.drop (k + 1) := by
    rw [← hget, ← List.drop_eq_getElem_cons hlt, List.take_append_drop]
  refine ⟨(schedulerStart sim).m_fileOutput ++
      ((schedulerLoop env sim.m_applications (schedulerStart sim)).apps.take k).flatMap
        programBlock,
    ((schedulerLoop env sim.m_applications (schedulerStart sim)).apps.drop (k + 1)).flatMap
        programBlock, ?_⟩
  rw [htrace]
  conv_lhs => rw [hsplit]
  simp only [List.flatMap_append, List.flatMap_cons, programBlock, List.append_assoc]

/-- In the successful run of the two sample programs the log of program 2
stands right behind its two system lines. -/
theorem log_block_after_termination_witness :
    ∃ before after, (runScheduler decimalEnv twoPrograms).sim.m_fileOutput =
      before ++ ["OS: starting application 2\n", "OS: terminating application 2\n"] ++
        ["Application 2: processing action: start\n",
          "Application 2: processing action: end\n", "Application 2: allocating memory\n",
          "Application 2: memory allocated at 0x00000000\n"] ++ after := by
  have e1 : [sysLine "starting application" 2, sysLine "terminating application" 2] =
      ["OS: starting application 2\n", "OS: terminating application 2\n"] := by decide
  have e2 : Application.getLogStr
      { m_appID := 2, m_errorStr := "",
        m_PCB := { pid := 2, pCounter := 2, pState := ProcessState.EXIT },
        m_logStr := [LogEntry.line "processing action: start", LogEntry.hold 30,
          LogEntry.line "processing action: end", LogEntry.line "allocating memory",
          LogEntry.hold 60, LogEntry.line "memory allocated at 0x00000000"] } =
      ["Application 2: processing action: start\n",
        "Application 2: processing action: end\n", "Application 2: allocating memory\n",
        "Application 2: memory allocated at 0x00000000\n"] := by decide
  rcases log_block_after_termination decimalEnv twoPrograms 1
    { m_appID := 2, m_errorStr := "",
      m_PCB := { pid := 2, pCounter := 2, pState := ProcessState.EXIT },
      m_logStr := [LogEntry.line "processing action: start", LogEntry.hold 30,
        LogEntry.line "processing action: end", LogEntry.line "allocating memory",
        LogEntry.hold 60, LogEntry.line "memory allocated at 0x00000000"] }
    (by decide) (by decide) with ⟨before, after, h⟩
  refine ⟨before, after, ?_⟩
  rw [← e1, ← e2]
  exact h

end OsSim

namespace OsSim

/-- The trace when the scheduler has returned the failure of a program: the
trace the programs before it left, and the failing program's "starting
application" line. -/
theorem runScheduler_failure_trace (env : Env) (sim : Simulator) (pre : List Application)
    (app : Application) (post : List Application) (s : Simulator)
    (r : Bool × Application × Simulator)
    (happs : sim.m_applications = pre ++ app :: post)
    (hs : s = (schedulerLoop env pre (schedulerStart sim)).sim)
    (hpre : (schedulerLoop env pre (schedulerStart sim)).ok = true)
    (hr : r = executeInstructions env (startApplication app s).1 (startApplication app s).2)
    (hfail : r.1 = false) :
    (runScheduler env sim).sim.m_fileOutput =
        sim.m_fileOutput ++ ["Simulator program starting\n"] ++
          (schedulerLoop env pre (schedulerStart sim)).apps.flatMap programBlock ++
          [sysLine "starting application" app.m_appID] := by
  subst hs hr
  have hrun : runScheduler env sim =
      { schedulerLoop env sim.m_applications (schedulerStart sim) with
        sim := { (schedulerLoop env sim.m_applications (schedulerStart sim)).sim with
          m_applications := (schedulerLoop env sim.m_applications (schedulerStart sim)).apps } } :=
    rfl
  have hfo := executeLoop_fileOutput env
    (startApplication app (schedulerLoop env pre (schedulerStart sim)).sim).1.m_opQueue
    (startApplication app (schedulerLoop env pre (schedulerStart sim)).sim).1
    (startApplication app (schedulerLoop env pre (schedulerStart sim)).sim).2
  have hfo2 : (executeInstructions env
      (startApplication app (schedulerLoop env pre (schedulerStart sim)).sim).1
      (startApplication app (schedulerLoop env pre (schedulerStart sim)).sim).2).2.2.m_fileOutput =
      (schedulerLoop env pre (schedulerStart sim)).sim.m_fileOutput ++
        [sysLine "starting application" app.m_appID] := hfo
  have htrace := (schedulerLoop_trace env pre (schedulerStart sim) hpre).1
  rw [hrun, happs, schedulerLoop_append env pre (app :: post) (schedulerStart sim) hpre,
    schedulerLoop_cons_fail env app post _ hfail]
  by_cases herr : (executeInstructions env
      (startApplication app (schedulerLoop env pre (schedulerStart sim)).sim).1
      (startApplication app (schedulerLoop env pre (schedulerStart sim)).sim).2).2.2.m_error.isEmpty
      = true
  · simp only [herr, if_true, hfo2, htrace]
    rfl
  · simp only [herr, if_false, Bool.false_eq_true, hfo2, htrace]
    rfl

/-- C33, as the claim states it, fails: with an empty printer pool the second
of three programs fails at its printer output; its buffered log holds the
lines up to that operation, but the overall trace ends with "OS: starting
application 2" and holds none of them. -/
theorem failure_point_not_in_trace :
    (runScheduler decimalEnv failingSecond).ok = false ∧
    (runScheduler decimalEnv failingSecond).sim.m_applications.map (fun a => a.getLogStr) =
      [["Application 1: processing action: start\n", "Application 1: processing action: end\n"],
        ["Application 2: processing action: start\n", "Application 2: processing action: end\n",
          "Application 2: printer output: start\n",
          "Application 2: printer output: end - PRNT -1\n"],
        []] ∧
    (runScheduler decimalEnv failingSecond).sim.m_fileOutput =
      ["Simulator program starting\n",
        "OS: starting application 1\n", "OS: terminating application 1\n",
        "Application 1: processing action: start\n", "Application 1: processing action: end\n",
        "OS: starting application 2\n"] := by
  decide

/-- C33 (amended): for every run in which the programs before program i run
to the end and the run of program i fails, the overall trace accumulated by
the simulator is the trace on entry, the line "Simulator program starting",
the complete blocks of the programs before i and the line "OS: starting
application i"; the log lines of the failing program, up to and including
those of the failing operation, stay in the program's own buffer, which is the
entry of the run list at its position. -/
theorem failure_point_stays_in_buffer (env : Env) (sim : Simulator)
    (pre : List Application) (app : Application) (post : List Application) (s : Simulator)
    (r : Bool × Application × Simulator)
    (happs : sim.m_applications = pre ++ app :: post)
    (hs : s = (schedulerLoop env pre (schedulerStart sim)).sim)
    (hpre : (schedulerLoop env pre (schedulerStart sim)).ok = true)
    (hr : r = executeInstructions env (startApplication app s).1 (startApplication app s).2)
    (hfail : r.1 = false) :
    (runScheduler env sim).ok = false ∧
      (runScheduler env sim).sim.m_fileOutput =
        sim.m_fileOutput ++ ["Simulator program starting\n"] ++
          ((runScheduler env sim).sim.m_applications.take pre.length).flatMap programBlock ++
          [sysLine "starting application" app.m_appID] ∧
      (runScheduler env sim).sim.m_applications[pre.length]? = some r.2.1 := by
  have h := runScheduler_first_failure env sim pre app post s r happs hs hpre hr hfail
  have htrace := runScheduler_failure_trace env sim pre app post s r happs hs hpre hr hfail
  have hlen := (schedulerLoop_length env pre (schedulerStart sim)).1
  refine ⟨h.1, ?_, ?_⟩
  · rw [htrace, h.2.1, ← hlen, List.take_left']
    rfl
  · rw [h.2.1, ← hlen, List.getElem?_append_right (le_refl _), Nat.sub_self]
    exact List.getElem?_cons_zero

/-- With an empty printer pool and three programs the trace ends with the
starting line of program 2, and the buffer of program 2 holds its four
lines. -/
theorem failure_point_stays_in_buffer_witness :
    (runScheduler decimalEnv failingSecond).sim.m_fileOutput =
      ["Simulator program starting\n",
        "OS: starting application 1\n", "OS: terminating application 1\n",
        "Application 1: processing action: start\n", "Application 1: processing action: end\n",
        "OS: starting application 2\n"] ∧
    ((runScheduler decimalEnv failingSecond).sim.m_applications[1]?).map
      (fun a => a.getLogStr) =
      some ["Application 2: processing action: start\n",
        "Application 2: processing action: end\n", "Application 2: printer output: start\n",
        "Application 2: printer output: end - PRNT -1\n"] := by
  have h := failure_point_stays_in_buffer decimalEnv failingSecond
    [freshProgram 1 [processRun 3 10]]
    (freshProgram 2 [processRun 1 10, printerOutput 2 25, processRun 4 10])
    [freshProgram 3 [processRun 5 10]] _ _ rfl rfl (by decide) rfl (by decide)
  refine ⟨h.2.1.trans (by decide), ?_⟩
  rw [show (1 : Nat) = [freshProgram 1 [processRun 3 10]].length from rfl, h.2.2,
    Option.map_some']
  decide

end OsSim

namespace OsSim

/-- The state of a program when its run has returned is RUNNING. -/
theorem running_after_run (env : Env) (app : Application) (sim : Simulator) :
    (executeInstructions env (startApplication app sim).1
      (startApplication app sim).2).2.1.m_PCB.pState = ProcessState.RUNNING :=
  (executeLoop_identity env (startApplication app sim).1.m_opQueue
    (startApplication app sim).1 (startApplication app sim).2).2

/-- The history of the first program of the run list when its run fails. -/
theorem stateHistory_cons_fail (env : Env) (app : Application) (rest : List Application)
    (sim : Simulator)
    (h : (executeInstructions env (startApplication app sim).1
      (startApplication app sim).2).1 = false) :
    stateHistory env (app :: rest) sim =
      [app.m_PCB.pState, ProcessState.READY, ProcessState.RUNNING, ProcessState.RUNNING] ::
        rest.map (fun a => [a.m_PCB.pState]) := by
  rw [stateHistory]
  simp only [h, if_true, running_after_run]
  rfl

/-- The history of the first program of the run list when its run returns
true. -/
theorem stateHistory_cons_ok (env : Env) (app : Application) (rest : List Application)
    (sim : Simulator)
    (h : (executeInstructions env (startApplication app sim).1
      (startApplication app sim).2).1 = true) :
    stateHistory env (app :: rest) sim =
      [app.m_PCB.pState, ProcessState.READY, ProcessState.RUNNING, ProcessState.RUNNING,
          ProcessState.EXIT] ::
        stateHistory env rest
          (finishApplication
            (executeInstructions env (startApplication app sim).1
              (startApplication app sim).2).2.1
            (executeInstructions env (startApplication app sim).1
              (startApplication app sim).2).2.2).2 := by
  rw [stateHistory]
  simp only [h, Bool.true_eq_false, if_false, running_after_run]
  rfl

/-- The histories of a run list whose programs are all in state NEW. -/
theorem stateHistory_spec (env : Env) (apps : List Application) (sim : Simulator)
    (hnew : ∀ a ∈ apps, a.m_PCB.pState = ProcessState.NEW) :
    (stateHistory env apps sim).length = apps.length ∧
      (∀ h ∈ stateHistory env apps sim,
        h.head? = some ProcessState.NEW ∧ forwardOnly h = true) ∧
      (stateHistory env apps sim).map List.getLast? =
        (schedulerLoop env apps sim).apps.map (fun a => some a.m_PCB.pState) ∧
      ((schedulerLoop env apps sim).ok = true →
        ∀ h ∈ stateHistory env apps sim,
          h = [ProcessState.NEW, ProcessState.READY, ProcessState.RUNNING,
            ProcessState.RUNNING, ProcessState.EXIT]) := by
  induction apps generalizing sim with
  | nil => simp [stateHistory, schedulerLoop]
  | cons app rest ih =>
    have happ : app.m_PCB.pState = ProcessState.NEW := hnew app (List.mem_cons_self _ _)
    have hrest : ∀ a ∈ rest, a.m_PCB.pState = ProcessState.NEW :=
      fun a ha => hnew a (List.mem_cons_of_mem _ ha)
    by_cases hrun : (executeInstructions env (startApplication app sim).1
        (startApplication app sim).2).1 = true
    · rw [stateHistory_cons_ok env app rest sim hrun, schedulerLoop_cons_ok env app rest sim hrun,
        happ]
      have step := ih
        (finishApplication
          (executeInstructions env (startApplication app sim).1
            (startApplication app sim).2).2.1
          (executeInstructions env (startApplication app sim).1
            (startApplication app sim).2).2.2).2 hrest
      refine ⟨by simp only [List.length_cons, step.1], ?_, ?_, ?_⟩
      · intro h hh
        simp only [List.mem_cons] at hh
        rcases hh with hh | hh
        · subst hh
          exact ⟨rfl, by decide⟩
        · exact step.2.1 h hh
      · simp only [List.map_cons, step.2.2.1]
        rfl
      · intro hok h hh
        simp only [List.mem_cons] at hh
        rcases hh with hh | hh
        · exact hh
        · exact step.2.2.2 hok h hh
    · have hfalse : (executeInstructions env (startApplication app sim).1
          (startApplication app sim).2).1 = false := by simpa using hrun
      rw [stateHistory_cons_fail env app rest sim hfalse,
        schedulerLoop_cons_fail env app rest sim hfalse, happ]
      refine ⟨by simp, ?_, ?_, ?_⟩
      · intro h hh
        simp only [List.mem_cons, List.mem_map] at hh
        rcases hh with hh | ⟨a, ha, hh⟩
        · subst hh
          exact ⟨rfl, by decide⟩
        · subst hh
          exact ⟨by rw [List.head?_cons, hrest a ha], rfl⟩
      · simp only [List.map_cons, List.map_map]
        have hr := running_after_run env app sim
        refine congrArg₂ List.cons ?_ ?_
        · rw [hr]
          rfl
        · rfl
      · intro hok
        exact absurd hok (by simp)

end OsSim

namespace OsSim

/-- The scheduler loop calls `executeInstructions` at most once per entry of
the run list. -/
theorem schedulerLoop_entered_le (env : Env) (apps : List Application) (sim : Simulator) :
    (schedulerLoop env apps sim).entered.length ≤ apps.length := by
  induction apps generalizing sim with
  | nil => simp [schedulerLoop]
  | cons app rest ih =>
    by_cases hrun : (executeInstructions env (startApplication app sim).1
        (startApplication app sim).2).1 = true
    · rw [schedulerLoop_cons_ok env app rest sim hrun]
      simp only [List.length_cons]
      exact Nat.succ_le_succ (ih _)
    · have hfalse : (executeInstructions env (startApplication app sim).1
          (startApplication app sim).2).1 = false := by simpa using hrun
      rw [schedulerLoop_cons_fail env app rest sim hfalse]
      simp

/-- The expected programs are as the constructor leaves them. -/
theorem expectedPrograms_new (created : Nat) (ops : List Operation) :
    ∀ a ∈ expectedPrograms created ops,
      a.m_PCB.pState = ProcessState.NEW ∧ a.m_PCB.pCounter = 0 := by
  induction ops generalizing created with
  | nil => simp [expectedPrograms]
  | cons op rest ih =>
    intro a ha
    by_cases hs : op.isProgramStart = true
    · simp only [expectedPrograms, hs, if_true, List.mem_cons] at ha
      rcases ha with ha | ha
      · subst ha
        exact ⟨rfl, rfl⟩
      · exact ih _ a ha
    · simp only [expectedPrograms, hs, if_false, Bool.false_eq_true] at ha
      exact ih _ a ha

/-- The run list of an accepted stream, loaded into an empty run list, is the
list of expected programs. -/
theorem accepted_programs (sim sim1 : Simulator) (hfresh : sim.m_applications = [])
    (h : loadOperations sim = Except.ok (true, sim1)) :
    sim1.m_applications = expectedPrograms 0 (sim.m_operations.drop 1).dropLast := by
  have hshort := accepted_length sim sim1 h
  rcases loadOperations_accepted sim sim1 h with ⟨front, st, hf, hs, hl, hsim⟩
  simp only [interiorOps, hshort, if_true] at hl
  have hbound : (0 : Nat) + (sim.m_operations.drop 1).dropLast.length < 2 ^ 32 := by
    simp only [List.length_dropLast, List.length_drop]
    have hpos : (0 : Nat) < 2 ^ 32 := Nat.two_pow_pos 32
    omega
  have hmain := loadLoop_programs _ _ st hl hbound
  have happs : (outputMetrics (outputConfig sim)).m_applications = [] := hfresh
  simp only [reduceCtorEq, if_false, List.foldl_nil, happs, List.nil_append] at hmain
  subst hsim
  exact hmain.1

/-- C31: every program is constructed in state NEW with program counter 0
(by the constructor, and so in every run list `loadOperations` builds).  For
a run list whose programs are in state NEW, during `runScheduler` the state of
each program starts at NEW and every step keeps it or moves it to the next
state of NEW, READY, RUNNING, EXIT; the last state of each history is the
state the program has afterwards; `executeInstructions` is called at most once
per program; and after a successful `runScheduler` every program has passed
NEW, READY, RUNNING, EXIT with no state skipped and is in state EXIT. -/
theorem lifecycle_monotone (env : Env) (sim : Simulator)
    (hnew : ∀ a ∈ sim.m_applications, a.m_PCB.pState = ProcessState.NEW) :
    (∀ (appID : Nat) (queue : List Operation),
      (freshProgram appID queue).m_PCB =
        { pid := appID, pCounter := 0, pState := ProcessState.NEW }) ∧
    (∀ sim0 sim1 : Simulator, sim0.m_applications = [] →
      loadOperations sim0 = Except.ok (true, sim1) →
      ∀ a ∈ sim1.m_applications,
        a.m_PCB.pState = ProcessState.NEW ∧ a.m_PCB.pCounter = 0) ∧
    (stateHistory env sim.m_applications (schedulerStart sim)).length =
      sim.m_applications.length ∧
    (∀ h ∈ stateHistory env sim.m_applications (schedulerStart sim),
      h.head? = some ProcessState.NEW ∧ forwardOnly h = true) ∧
    (stateHistory env sim.m_applications (schedulerStart sim)).map List.getLast? =
      (runScheduler env sim).sim.m_applications.map (fun a => some a.m_PCB.pState) ∧
    (runScheduler env sim).entered.length ≤ sim.m_applications.length ∧
    ((runScheduler env sim).ok = true →
      (∀ h ∈ stateHistory env sim.m_applications (schedulerStart sim),
        h = [ProcessState.NEW, ProcessState.READY, ProcessState.RUNNING,
          ProcessState.RUNNING, ProcessState.EXIT]) ∧
      ∀ a ∈ (runScheduler env sim).sim.m_applications,
        a.m_PCB.pState = ProcessState.EXIT) := by
  have hspec := stateHistory_spec env sim.m_applications (schedulerStart sim) hnew
  have heq := runScheduler_eq env sim
  refine ⟨fun _ _ => rfl, ?_, hspec.1, hspec.2.1, ?_, ?_, ?_⟩
  · intro sim0 sim1 hfresh hload a ha
    rw [accepted_programs sim0 sim1 hfresh hload] at ha
    exact expectedPrograms_new 0 _ a ha
  · rw [heq.2.1]
    exact hspec.2.2.1
  · rw [heq.2.2.2.1]
    exact schedulerLoop_entered_le env sim.m_applications (schedulerStart sim)
  · intro hok
    rw [heq.1] at hok
    rw [heq.2.1]
    exact ⟨hspec.2.2.2 hok,
      (schedulerLoop_trace env sim.m_applications (schedulerStart sim) hok).2.2⟩

/-- With an empty printer pool and three programs: program 1 passes all four
states, program 2 stops in RUNNING, program 3 stays in NEW. -/
theorem lifecycle_monotone_witness :
    stateHistory decimalEnv failingSecond.m_applications (schedulerStart failingSecond) =
      [[ProcessState.NEW, ProcessState.READY, ProcessState.RUNNING, ProcessState.RUNNING,
          ProcessState.EXIT],
        [ProcessState.NEW, ProcessState.READY, ProcessState.RUNNING, ProcessState.RUNNING],
        [ProcessState.NEW]] ∧
    (∀ h ∈ stateHistory decimalEnv failingSecond.m_applications (schedulerStart failingSecond),
      h.head? = some ProcessState.NEW ∧ forwardOnly h = true) :=
  ⟨by decide, (lifecycle_monotone decimalEnv failingSecond (by decide)).2.2.2.1⟩

end OsSim

/-! ## The slot index in the end line of an input or output operation -/

namespace OsSim

open Resource

/-- An input or output case of `executeInstructions` is `ioCase` with its two
texts. -/
theorem executeOp_ioLines (env : Env) (app : Application) (sim : Simulator) (op : Operation)
    (startLine endLabel : String)
    (h : ioLines op.data.code op.data.descriptor = some (startLine, endLabel)) :
    executeOp env app sim op = ioCase app sim op startLine endLabel := by
  rcases op with ⟨⟨code, desc, cyc⟩, t⟩
  cases code <;> cases desc <;>
    simp only [ioLines, Option.some.injEq, Prod.mk.injEq, reduceCtorEq] at h <;>
    first
    | exact False.elim h
    | (obtain ⟨h1, h2⟩ := h
       subst h1 h2
       rfl)

/-- The descriptor of an input or output case names a pool, whose
availability count is the one `semaphoreFor` gives. -/
theorem poolFor_semaphore (ps : Pools) (desc : MetaDesc) (pool : Resource)
    (h : ps.poolFor desc = some pool) :
    ps.semaphoreFor desc = some pool.m_semaphore ∧
      (exhaustionMessage desc).isEmpty = false := by
  cases desc <;> simp only [Pools.poolFor, Option.some.injEq, reduceCtorEq] at h <;>
    first
    | exact False.elim h
    | (subst h
       exact ⟨rfl, by decide⟩)

/-- Member function `handleIO` when the matching pool is available: the pool
is reserved and locked for the program, the hold is performed, the index is
searched in the locked pool, and the pool is freed. -/
theorem handleIO_available (app : Application) (ps : Pools) (op : Operation)
    (pool : Resource) (hpool : ps.poolFor op.data.descriptor = some pool)
    (herr : app.m_errorStr = "") (hav : pool.available = true) :
    ( handleIO app ps op).1 =
        ((pool.reserve.2).lock (pidOfAppID app.m_appID)).getResourceIndex
          (pidOfAppID app.m_appID) ∧
      ( handleIO app ps op).2.1 = app.sleep (holdTime op) ∧
      ( handleIO app ps op).2.2.poolFor op.data.descriptor =
        some (((pool.reserve.2).lock (pidOfAppID app.m_appID)).free
          (pidOfAppID app.m_appID)) := by
  rcases op with ⟨⟨code, desc, cyc⟩, t⟩
  have hempty : ("" : String).isEmpty = true := by decide
  have happ : ({ app with m_errorStr := "" } : Application) = app := by
    cases app
    simp only at herr
    subst herr
    rfl
  cases desc <;> simp only [Pools.poolFor, Option.some.injEq, reduceCtorEq] at hpool <;>
    first
    | exact False.elim hpool
    | (subst hpool
       simp only [ handleIO, semaphoreCheck, threadRunner, hav, herr, hempty, if_true,
         reduceCtorEq, if_false, Pools.poolFor, happ, Application.sleep, and_self])

end OsSim

namespace OsSim

open Resource

/-- C34: for every input or output operation executed on a matching pool of
capacity N in its state between two operations of a sequential run, by a
program without an error, if the operation succeeds (sets no error) then the
index written in its "end" log line is a natural number below N (never -1)
and is the index of a slot that holds the executing program in the pool as it
is during the hold (reserved and locked); the log has grown by the start line,
the hold and that end line, and the pool is left in its between-operations
state again. -/
theorem granted_slot_index (env : Env) (app : Application) (sim : Simulator) (op : Operation)
    (pool : Resource) (n : Nat) (startLine endLabel : String)
    (hlines : ioLines op.data.code op.data.descriptor = some (startLine, endLabel))
    (hpool : sim.pools.poolFor op.data.descriptor = some pool)
    (hidle : pool.idle n) (herr : app.m_errorStr = "")
    (hsucc : (executeOp env app sim op).1.m_errorStr = "") :
    ∃ k : Nat, k < n ∧
      ((pool.reserve.2).lock (pidOfAppID app.m_appID)).slotHolds k (pidOfAppID app.m_appID) ∧
      (executeOp env app sim op).1.m_logStr =
        app.m_logStr ++ [LogEntry.line startLine, LogEntry.hold (holdTime op),
          LogEntry.line (endLabel ++ toString (k : Int))] ∧
      ∃ after, (executeOp env app sim op).2.pools.poolFor op.data.descriptor = some after ∧
        after.idle n := by
  rw [executeOp_ioLines env app sim op startLine endLabel hlines] at hsucc ⊢
  have hcase : (ioCase app sim op startLine endLabel).1 =
      ( handleIO (app.output startLine) sim.pools op).2.1.output
        (endLabel ++ toString ( handleIO (app.output startLine) sim.pools op).1) := rfl
  have hcase2 : (ioCase app sim op startLine endLabel).2.pools =
      ( handleIO (app.output startLine) sim.pools op).2.2 := rfl
  have hsem := poolFor_semaphore sim.pools op.data.descriptor pool hpool
  by_cases hn : n = 0
  · exfalso
    have hzero : sim.pools.semaphoreFor op.data.descriptor = some 0 := by
      rw [hsem.1, hidle.2.1, hn]
      rfl
    have hex := handleIO_exhausted (app.output startLine) sim.pools op hzero
    rw [hcase, hex] at hsucc
    have hmsg : exhaustionMessage op.data.descriptor = "" := hsucc
    rw [hmsg] at hsem
    exact absurd hsem.2 (by decide)
  · have hpos : 1 ≤ n := Nat.one_le_iff_ne_zero.mpr hn
    have hround := io_round pool n (pidOfAppID app.m_appID) hidle hpos
    have hav := handleIO_available (app.output startLine) sim.pools op pool hpool herr hround.1
    have hq : ((pool.reserve.2).lock (pidOfAppID app.m_appID)).m_quantity = n := by
      rw [(lock_fields _ _).1]
      have hres : pool.reserve.2.m_quantity = pool.m_quantity := by
        unfold reserve
        split_ifs <;> rfl
      rw [hres]
      exact hidle.1
    rcases getResourceIndex_range ((pool.reserve.2).lock (pidOfAppID app.m_appID))
      (pidOfAppID app.m_appID) with hneg | ⟨k, hk, hidx⟩
    · have h0 := hround.2.1
      rw [hneg] at h0
      exact absurd h0 (by decide)
    · refine ⟨k, by rw [← hq]; exact hk,
        ((getResourceIndex_eq_natCast_iff _ _ k).mp hidx).1, ?_, ?_⟩
      · have hidx2 : ( handleIO (app.output startLine) sim.pools op).1 = (k : Int) := by
          rw [hav.1]
          exact hidx
        rw [hcase, hidx2, hav.2.1]
        simp [Application.output, Application.sleep]
      · exact ⟨_, by rw [hcase2]; exact hav.2.2, hround.2.2⟩

/-- On fresh pools with two printers, the printer output of program 1 is
granted a slot below 2 that holds program 1 during the hold; the end line
reads "printer output: end - PRNT 0". -/
theorem granted_slot_index_witness :
    (∃ k : Nat, k < 2 ∧
      (((construct 2).reserve.2).lock (pidOfAppID 1)).slotHolds k (pidOfAppID 1) ∧
      (executeOp decimalEnv (freshProgram 1 [printerOutput 2 25])
        { failingSecond with pools := freshPools 2 1 1 1 } (printerOutput 2 25)).1.m_logStr =
        (freshProgram 1 [printerOutput 2 25]).m_logStr ++
          [LogEntry.line "printer output: start", LogEntry.hold (holdTime (printerOutput 2 25)),
            LogEntry.line ("printer output: end - PRNT " ++ toString (k : Int))] ∧
      ∃ after, (executeOp decimalEnv (freshProgram 1 [printerOutput 2 25])
          { failingSecond with pools := freshPools 2 1 1 1 }
          (printerOutput 2 25)).2.pools.poolFor MetaDesc.M_PRINTER = some after ∧
        after.idle 2) ∧
    (executeOp decimalEnv (freshProgram 1 [printerOutput 2 25])
      { failingSecond with pools := freshPools 2 1 1 1 } (printerOutput 2 25)).1.m_logStr =
      [LogEntry.line "printer output: start", LogEntry.hold 50,
        LogEntry.line "printer output: end - PRNT 0"] :=
  ⟨granted_slot_index decimalEnv (freshProgram 1 [printerOutput 2 25])
    { failingSecond with pools := freshPools 2 1 1 1 } (printerOutput 2 25)
    (construct 2) 2 "printer output: start" "printer output: end - PRNT "
    rfl rfl (construct_idle 2) rfl (by decide), by decide⟩

end OsSim

namespace OsSim

open Resource

/-- Member function `handleIO` when the availability count of the matching
pool is 0: the index returned is the one `getResourceIndex` finds for the
program in the pool as it is. -/
theorem handleIO_exhausted_index (app : Application) (ps : Pools) (op : Operation)
    (pool : Resource) (hpool : ps.poolFor op.data.descriptor = some pool)
    (h0 : pool.m_semaphore = 0) :
    ( handleIO app ps op).1 = pool.getResourceIndex (pidOfAppID app.m_appID) := by
  rcases op with ⟨⟨code, desc, cyc⟩, t⟩
  cases desc <;> simp only [Pools.poolFor, Option.some.injEq, reduceCtorEq] at hpool <;>
    first
    | exact False.elim hpool
    | (subst hpool
       simp [ handleIO, semaphoreCheck, Resource.available, h0,
         (by decide : "Out of m_printers".isEmpty = false),
         (by decide : "Out of hard drives".isEmpty = false),
         (by decide : "Out of m_keyboards".isEmpty = false),
         (by decide : "Out of m_monitors".isEmpty = false)])

/-- C35, as the claim states it, fails: with no printer in the pool the
printer output of program 2 sets "Out of m_printers", and the log still gets
the end line, with index -1, behind the start line. -/
theorem end_line_logged_on_exhaustion :
    (executeInstructions decimalEnv (freshProgram 2 [printerOutput 2 25]) failingSecond).1 =
      false ∧
    (executeInstructions decimalEnv (freshProgram 2 [printerOutput 2 25])
      failingSecond).2.1.m_errorStr = "Out of m_printers" ∧
    (executeInstructions decimalEnv (freshProgram 2 [printerOutput 2 25])
      failingSecond).2.1.m_logStr =
      [LogEntry.line "printer output: start",
        LogEntry.line "printer output: end - PRNT -1"] := by
  decide

/-- C35 (amended): for every input or output operation at the front of the
queue whose matching pool has availability count 0, the run stops with the
exhaustion error and without a hold, but the "end" line is still logged: the
program's log ends with the operation's "start" line followed by its "end"
line, which carries the value `getResourceIndex` returns for the program in
that pool, -1 when the program holds no slot of it. -/
theorem end_line_on_exhaustion (env : Env) (app : Application) (sim : Simulator)
    (op : Operation) (rest : List Operation) (pool : Resource) (startLine endLabel : String)
    (hlines : ioLines op.data.code op.data.descriptor = some (startLine, endLabel))
    (hpool : sim.pools.poolFor op.data.descriptor = some pool)
    (h0 : pool.m_semaphore = 0) (hq : app.m_opQueue = op :: rest) :
    (executeInstructions env app sim).1 = false ∧
      (executeInstructions env app sim).2.1.m_errorStr =
        exhaustionMessage op.data.descriptor ∧
      (executeInstructions env app sim).2.1.m_logStr =
        app.m_logStr ++ [LogEntry.line startLine,
          LogEntry.line (endLabel ++
            toString (pool.getResourceIndex (pidOfAppID app.m_appID)))] ∧
      ((∀ i, ¬ pool.slotHolds i (pidOfAppID app.m_appID)) →
        (executeInstructions env app sim).2.1.m_logStr =
          app.m_logStr ++ [LogEntry.line startLine, LogEntry.line (endLabel ++ "-1")]) := by
  have hsem := poolFor_semaphore sim.pools op.data.descriptor pool hpool
  have hzero : sim.pools.semaphoreFor op.data.descriptor = some 0 := by
    rw [hsem.1, h0]
  have hex := handleIO_exhausted (app.output startLine) sim.pools op hzero
  have hidx := handleIO_exhausted_index (app.output startLine) sim.pools op pool hpool h0
  have hcase : (ioCase app sim op startLine endLabel).1 =
      ( handleIO (app.output startLine) sim.pools op).2.1.output
        (endLabel ++ toString ( handleIO (app.output startLine) sim.pools op).1) := rfl
  have hop : (executeOp env app sim op).1 =
      { app with
        m_errorStr := exhaustionMessage op.data.descriptor
        m_logStr := app.m_logStr ++ [LogEntry.line startLine,
          LogEntry.line (endLabel ++
            toString (pool.getResourceIndex (pidOfAppID app.m_appID)))] } := by
    rw [executeOp_ioLines env app sim op startLine endLabel hlines, hcase, hex, hidx]
    simp [Application.output]
  have hfail : (executeOp env app sim op).1.m_errorStr.isEmpty = false := by
    rw [hop]
    exact hsem.2
  rw [executeInstructions_eq env app sim (op :: rest) hq,
    executeLoop_cons_fail env op rest app sim hfail, hop]
  refine ⟨rfl, rfl, rfl, ?_⟩
  intro hnone
  have hneg := (getResourceIndex_eq_neg_one_iff pool (pidOfAppID app.m_appID)).mpr hnone
  simp only [hneg]
  rfl

/-- With no printer in the pool, the log of program 2 ends with the start
line and the end line with index -1 of its printer output. -/
theorem end_line_on_exhaustion_witness :
    (executeInstructions decimalEnv
      (freshProgram 2 [printerOutput 2 25, processRun 4 10]) failingSecond).2.1.m_logStr =
      [LogEntry.line "printer output: start",
        LogEntry.line "printer output: end - PRNT -1"] :=
  (end_line_on_exhaustion decimalEnv (freshProgram 2 [printerOutput 2 25, processRun 4 10])
    failingSecond (printerOutput 2 25) [processRun 4 10] (construct 0)
    "printer output: start" "printer output: end - PRNT " rfl rfl rfl rfl).2.2.2
    (fun i h => Nat.not_lt_zero i h.1)

end OsSim

/-! ## Interior system markers -/

namespace OsSim

/-- The step of the loader at an interior `S(start)` or `S(end)`. -/
theorem loadStep_marker (st : LoadState) (op : Operation)
    (h : op.isSystemStart = true ∨ op.isSystemEnd = true) :
    loadStep st op = Except.ok
      { st with sim := { st.sim with
          m_error :=
            if op.isSystemStart then
              "Operating system can not be started again in m_metadata. Aborting..."
            else "Operating system can not be ended until end of m_metadata. Aborting..." } } := by
  rcases op with ⟨⟨code, desc, cyc⟩, t⟩
  cases code <;> cases desc <;>
    first
    | rfl
    | simp [Operation.isSystemStart, Operation.isSystemEnd] at h

/-- C39, as the claim states it, fails.  The stream P(run)3, S(start)0,
S(end)0 has an interior S(start) but is rejected for its first operation,
with "Operating system not started in m_metadata".  In S(start)0, A(start)0,
A(end)0, P(run)3, S(start)0, S(end)0 the loader stops at the process
operation, which has no program, before it reaches the interior S(start). -/
theorem interior_marker_other_error :
    (loadOperations (initialized sampleConfig
      [processRun 3 10, marker MetaCode.M_OPER_SYS MetaDesc.M_START,
        marker MetaCode.M_OPER_SYS MetaDesc.M_END]
      (freshPools 1 1 1 1))).toOption.map (fun r => (r.1, r.2.m_error)) =
      some (false, "Operating system not started in m_metadata") ∧
    (loadOperations (initialized sampleConfig
      [marker MetaCode.M_OPER_SYS MetaDesc.M_START,
        marker MetaCode.M_PROGRAM_APP MetaDesc.M_START,
        marker MetaCode.M_PROGRAM_APP MetaDesc.M_END, processRun 3 10,
        marker MetaCode.M_OPER_SYS MetaDesc.M_START,
        marker MetaCode.M_OPER_SYS MetaDesc.M_END]
      (freshPools 1 1 1 1))).toOption.map (fun r => (r.1, r.2.m_error)) =
      some (false, "No application to assign operation \"P(run)3\"") := by
  decide

/-- C39 (amended): for every stream of at most 2^32 operations that starts
with S(start), if an operation strictly between the first and the last is a
system/start or a system/end and the loop reaches it (no operation before it
sets an error or reads the unset pointer), `loadOperations` returns false with
the error "Operating system can not be started again in m_metadata.
Aborting..." resp. "Operating system can not be ended until end of m_metadata.
Aborting...", and the run list is the one the operations before the marker
have built: no operation after the marker is assigned to any program. -/
theorem interior_marker_rejected (sim : Simulator) (front mark : Operation)
    (pre post : List Operation)
    (hops : sim.m_operations = front :: (pre ++ mark :: post))
    (hfront : front.isSystemStart = true) (hpost : post ≠ [])
    (hlen : sim.m_operations.length ≤ 2 ^ 32)
    (hmark : mark.isSystemStart = true ∨ mark.isSystemEnd = true)
    (hreach : (loadLoop pre
      { appIndex := 0, app := AppPtr.indeterminate,
        sim := outputMetrics (outputConfig sim) }).toOption.map (fun r => r.isRight) =
        some true) :
    ∃ st1, loadLoop pre
        { appIndex := 0, app := AppPtr.indeterminate,
          sim := outputMetrics (outputConfig sim) } = Except.ok (Sum.inr st1) ∧
      loadOperations sim = Except.ok (false,
        { st1.sim with
          m_error :=
            if mark.isSystemStart then
              "Operating system can not be started again in m_metadata. Aborting..."
            else "Operating system can not be ended until end of m_metadata. Aborting..." }) := by
  cases hl : loadLoop pre
      { appIndex := 0, app := AppPtr.indeterminate,
        sim := outputMetrics (outputConfig sim) } with
  | error f => rw [hl] at hreach; cases hreach
  | ok r =>
    cases r with
    | inl s =>
      rw [hl] at hreach
      simp [Except.toOption] at hreach
    | inr st1 =>
      refine ⟨st1, rfl, ?_⟩
      have hint : interiorOps sim.m_operations = pre ++ mark :: post.dropLast := by
        simp only [interiorOps, hlen, if_true]
        rw [hops, List.drop_one, List.tail_cons, List.dropLast_append_of_ne_nil _ (by simp),
          List.dropLast_cons_of_ne_nil hpost]
      have hstep := loadStep_marker st1 mark hmark
      have hne : (if mark.isSystemStart then
            "Operating system can not be started again in m_metadata. Aborting..."
          else "Operating system can not be ended until end of m_metadata. Aborting..."
          : String).isEmpty = false := by
        split_ifs <;> decide
      have hloop : loadLoop (interiorOps sim.m_operations)
          { appIndex := 0, app := AppPtr.indeterminate,
            sim := outputMetrics (outputConfig sim) } =
          Except.ok (Sum.inl
            { st1.sim with
              m_error :=
                if mark.isSystemStart then
                  "Operating system can not be started again in m_metadata. Aborting..."
                else
                  "Operating system can not be ended until end of m_metadata. Aborting..." }) := by
        rw [hint, loadLoop_append, hl]
        simp only []
        rw [loadLoop_cons_ok mark post.dropLast st1 _ hstep]
        simp only [hne, Bool.false_eq_true, if_false]
      exact loadOperations_loop_error sim _ front (by rw [hops]; rfl) hfront hloop

/-- In S(start)0, A(start)0, P(run)3, S(end)0, O(printer)2, A(end)0, S(end)0
the interior S(end) is reached: the stream is rejected with its error, and the
printer output behind it is in no queue. -/
theorem interior_marker_rejected_witness :
    (loadOperations (initialized sampleConfig
      [marker MetaCode.M_OPER_SYS MetaDesc.M_START,
        marker MetaCode.M_PROGRAM_APP MetaDesc.M_START, processRun 3 10,
        marker MetaCode.M_OPER_SYS MetaDesc.M_END, printerOutput 2 25,
        marker MetaCode.M_PROGRAM_APP MetaDesc.M_END,
        marker MetaCode.M_OPER_SYS MetaDesc.M_END]
      (freshPools 1 1 1 1))).toOption.map (fun r => (r.1, r.2.m_error)) =
      some (false, "Operating system can not be ended until end of m_metadata. Aborting...") ∧
    (loadOperations (initialized sampleConfig
      [marker MetaCode.M_OPER_SYS MetaDesc.M_START,
        marker MetaCode.M_PROGRAM_APP MetaDesc.M_START, processRun 3 10,
        marker MetaCode.M_OPER_SYS MetaDesc.M_END, printerOutput 2 25,
        marker MetaCode.M_PROGRAM_APP MetaDesc.M_END,
        marker MetaCode.M_OPER_SYS MetaDesc.M_END]
      (freshPools 1 1 1 1))).toOption.map (fun r => r.2.m_applications) =
      some [freshProgram 1 [processRun 3 10]] := by
  rcases interior_marker_rejected (initialized sampleConfig
      [marker MetaCode.M_OPER_SYS MetaDesc.M_START,
        marker MetaCode.M_PROGRAM_APP MetaDesc.M_START, processRun 3 10,
        marker MetaCode.M_OPER_SYS MetaDesc.M_END, printerOutput 2 25,
        marker MetaCode.M_PROGRAM_APP MetaDesc.M_END,
        marker MetaCode.M_OPER_SYS MetaDesc.M_END]
      (freshPools 1 1 1 1))
    (marker MetaCode.M_OPER_SYS MetaDesc.M_START) (marker MetaCode.M_OPER_SYS MetaDesc.M_END)
    [marker MetaCode.M_PROGRAM_APP MetaDesc.M_START, processRun 3 10]
    [printerOutput 2 25, marker MetaCode.M_PROGRAM_APP MetaDesc.M_END,
      marker MetaCode.M_OPER_SYS MetaDesc.M_END]
    rfl rfl (by decide) (by decide) (Or.inr rfl) (by decide) with ⟨st1, h1, h2⟩
  have hlist : (loadLoop
      [marker MetaCode.M_PROGRAM_APP MetaDesc.M_START, processRun 3 10]
      { appIndex := 0, app := AppPtr.indeterminate,
        sim := outputMetrics (outputConfig
          (initialized sampleConfig
            [marker MetaCode.M_OPER_SYS MetaDesc.M_START,
              marker MetaCode.M_PROGRAM_APP MetaDesc.M_START, processRun 3 10,
              marker MetaCode.M_OPER_SYS MetaDesc.M_END, printerOutput 2 25,
              marker MetaCode.M_PROGRAM_APP MetaDesc.M_END,
              marker MetaCode.M_OPER_SYS MetaDesc.M_END]
            (freshPools 1 1 1 1))) }).toOption.map
      (fun r => r.elim (fun s => s.m_applications) (fun st => st.sim.m_applications)) =
      some [freshProgram 1 [processRun 3 10]] := by decide
  rw [h1] at hlist
  simp only [Except.toOption, Option.map_some', Sum.elim_inr, Option.some.injEq] at hlist
  rw [h2]
  exact ⟨by simp only [Except.toOption, Option.map_some']; decide,
    by simp only [Except.toOption, Option.map_some', hlist]⟩

end OsSim

/-! ## The address in the log line of an allocation -/

namespace OsSim

theorem toDigitsCore_append (b fuel n : Nat) (ds : List Char) :
    Nat.toDigitsCore b fuel n ds = Nat.toDigitsCore b fuel n [] ++ ds := by
  induction fuel generalizing n ds with
  | zero => rfl
  | succ f ih =>
    simp only [Nat.toDigitsCore]
    by_cases h : n / b = 0
    · simp [h]
    · simp only [h, if_false]
      rw [ih (n / b) (Nat.digitChar (n % b) :: ds), ih (n / b) [Nat.digitChar (n % b)]]
      simp

theorem hexFixed_zero (k : Nat) : hexFixed k 0 = List.replicate k '0' := by
  induction k with
  | zero => rfl
  | succ k ih =>
    rw [hexFixed, Nat.zero_div, ih, List.replicate_succ']
    rfl

theorem hexFixed_length (k n : Nat) : (hexFixed k n).length = k := by
  induction k generalizing n with
  | zero => rfl
  | succ k ih => rw [hexFixed, List.length_append, ih]; rfl

/-- The digits `Nat.toDigits` produces, padded with zeros on the left to
`k + 1` characters, are the `k + 1` lowest hexadecimal digits of a number
below `16 ^ (k + 1)`. -/
theorem toDigitsCore_padded (k : Nat) :
    ∀ fuel n, n < 16 ^ (k + 1) → n < fuel →
      (Nat.toDigitsCore 16 fuel n []).length ≤ k + 1 ∧
        List.replicate (k + 1 - (Nat.toDigitsCore 16 fuel n []).length) '0' ++
          Nat.toDigitsCore 16 fuel n [] = hexFixed (k + 1) n := by
  induction k with
  | zero =>
    intro fuel n hn hf
    cases fuel with
    | zero => omega
    | succ f =>
      have hdiv : n / 16 = 0 := by omega
      simp only [Nat.toDigitsCore, hdiv, if_true, hexFixed]
      simp
  | succ k ih =>
    intro fuel n hn hf
    cases fuel with
    | zero => omega
    | succ f =>
      by_cases hdiv : n / 16 = 0
      · simp only [Nat.toDigitsCore, hdiv, if_true]
        rw [hexFixed, hdiv, hexFixed_zero]
        simp
      · have hlt : n / 16 < 16 ^ (k + 1) := by
          rw [Nat.div_lt_iff_lt_mul (by norm_num)]
          calc n < 16 ^ (k + 1 + 1) := hn
            _ = 16 ^ (k + 1) * 16 := by rw [Nat.pow_succ]
        have hfl : n / 16 < f := by omega
        rcases ih f (n / 16) hlt hfl with ⟨hlen, hpad⟩
        have hcore : Nat.toDigitsCore 16 (f + 1) n [] =
            Nat.toDigitsCore 16 f (n / 16) [] ++ [Nat.digitChar (n % 16)] := by
          simp only [Nat.toDigitsCore, hdiv, if_false]
          exact toDigitsCore_append 16 f (n / 16) [Nat.digitChar (n % 16)]
        rw [hcore, hexFixed, ← hpad]
        refine ⟨by simp only [List.length_append, List.length_singleton]; omega, ?_⟩
        simp only [List.length_append, List.length_singleton, List.append_assoc]
        congr 2
        omega

/-- For an address below `2 ^ 32` the text `hex8` is its eight lowest
hexadecimal digits. -/
theorem hex8_eq (a : Nat) (h : a < 2 ^ 32) : hex8 a = String.mk (hexFixed 8 a) := by
  have h16 : a < 16 ^ (7 + 1) := by
    have e : (16 : Nat) ^ (7 + 1) = 2 ^ 32 := by norm_num
    rw [e]
    exact h
  have hpad := (toDigitsCore_padded 7 (a + 1) a h16 (Nat.lt_succ_self a)).2
  unfold hex8 Nat.toDigits
  simp only
  rw [← hpad]

end OsSim

namespace OsSim

theorem hexDigitValue_digitChar : ∀ d, d < 16 → hexDigitValue (Nat.digitChar d) = some d := by
  decide

theorem digitChar_hex : ∀ d, d < 16 → Nat.digitChar d ∈ "0123456789abcdef".data := by
  decide

theorem hexValue_snoc (l : List Char) (c : Char) :
    hexValue (l ++ [c]) =
      match hexValue l, hexDigitValue c with
      | some n, some d => some (16 * n + d)
      | _, _ => none := by
  unfold hexValue
  rw [List.foldl_append]
  rfl

/-- The `k` lowest hexadecimal digits of a number below `16 ^ k` are lowercase
hexadecimal digits and spell the number. -/
theorem hexFixed_spec (k : Nat) :
    ∀ n, n < 16 ^ k →
      (∀ c ∈ hexFixed k n, c ∈ "0123456789abcdef".data) ∧ hexValue (hexFixed k n) = some n := by
  induction k with
  | zero =>
    intro n hn
    have h0 : n = 0 := by simpa using hn
    subst h0
    exact ⟨by simp [hexFixed], rfl⟩
  | succ k ih =>
    intro n hn
    have hlt : n / 16 < 16 ^ k := by
      rw [Nat.div_lt_iff_lt_mul (by norm_num)]
      calc n < 16 ^ (k + 1) := hn
        _ = 16 ^ k * 16 := by rw [Nat.pow_succ]
    have hmod : n % 16 < 16 := Nat.mod_lt n (by norm_num)
    rcases ih (n / 16) hlt with ⟨hchars, hval⟩
    refine ⟨?_, ?_⟩
    · intro c hc
      rw [hexFixed, List.mem_append, List.mem_singleton] at hc
      rcases hc with hc | hc
      · exact hchars c hc
      · rw [hc]
        exact digitChar_hex (n % 16) hmod
    · rw [hexFixed, hexValue_snoc, hval, hexDigitValue_digitChar (n % 16) hmod]
      simp only [Option.some.injEq]
      omega

theorem getMemoryAddress_lt (env : Env) (sim : Simulator) :
    ( getMemoryAddress env sim).1 < 2 ^ 32 := by
  unfold getMemoryAddress
  cases memoryConfigLoop env sim.m_config (UINT_MAX, UINT_MAX) with
  | none => exact (by decide : UINT_MAX < 2 ^ 32)
  | some p =>
    rcases p with ⟨t, b⟩
    simp only
    split_ifs
    · exact (by decide : UINT_MAX < 2 ^ 32)
    · exact Nat.mod_lt _ (Nat.two_pow_pos 32)

/-- C37: for every address a below 2^32, the text written for it is eight
characters, all of them lowercase hexadecimal digits, whose value as a base-16
number is a (50 is written 00000032); and for every successful allocation the
entries `handleAllocate` adds to the log are the hold and the line "memory
allocated at " followed by "0x" and these eight digits of the address
returned. -/
theorem fixed_width_hex_address :
    (∀ a, a < 2 ^ 32 →
      ∃ digits : List Char, hex8 a = String.mk digits ∧ digits.length = 8 ∧
        (∀ c ∈ digits, c ∈ "0123456789abcdef".data) ∧ hexValue digits = some a) ∧
    hex8 50 = "00000032" ∧
    ∀ (env : Env) (app : Application) (sim : Simulator) (op : Operation),
      ( getMemoryAddress env sim).1 ≠ UINT_MAX →
      ∃ digits : List Char, digits.length = 8 ∧
        (∀ c ∈ digits, c ∈ "0123456789abcdef".data) ∧
        hexValue digits = some ( getMemoryAddress env sim).1 ∧
        (handleAllocate env app sim op).1 = true ∧
        (handleAllocate env app sim op).2.1.m_logStr =
          app.m_logStr ++ [LogEntry.hold (holdTime op),
            LogEntry.line ("memory allocated at " ++ ("0x" ++ String.mk digits))] := by
  have general : ∀ a, a < 2 ^ 32 →
      ∃ digits : List Char, hex8 a = String.mk digits ∧ digits.length = 8 ∧
        (∀ c ∈ digits, c ∈ "0123456789abcdef".data) ∧ hexValue digits = some a := by
    intro a ha
    have h16 : a < 16 ^ 8 := by
      have e : (16 : Nat) ^ 8 = 2 ^ 32 := by norm_num
      rw [e]
      exact ha
    exact ⟨hexFixed 8 a, hex8_eq a ha, hexFixed_length 8 a, (hexFixed_spec 8 a h16).1,
      (hexFixed_spec 8 a h16).2⟩
  refine ⟨general, by decide, ?_⟩
  intro env app sim op hsucc
  rcases general _ (getMemoryAddress_lt env sim) with ⟨digits, hd, hlen, hchars, hval⟩
  refine ⟨digits, hlen, hchars, hval, ?_, ?_⟩
  · simp only [handleAllocate, hsucc, if_false]
  · simp only [handleAllocate, hsucc, if_false, hd, Application.output, Application.sleep,
      List.append_assoc, List.singleton_append]

end OsSim

/-! ## Printing and parsing a metadata entry -/

namespace OsSim

theorem lastIndex_none (c : Char) (l : List Char) (h : c ∉ l) : lastIndex c l = none := by
  induction l with
  | nil => rfl
  | cons x rest ih =>
    have hx : x ≠ c := fun e => h (by rw [e]; exact List.mem_cons_self _ _)
    have hrest : c ∉ rest := fun hm => h (List.mem_cons_of_mem _ hm)
    simp only [lastIndex, ih hrest, hx, if_false]

/-- The last occurrence of a character that does not occur behind it. -/
theorem lastIndex_append (c : Char) (pre post : List Char) (h : c ∉ post) :
    lastIndex c (pre ++ c :: post) = some pre.length := by
  induction pre with
  | nil => simp only [List.nil_append, lastIndex, lastIndex_none c post h, if_true,
      List.length_nil]
  | cons x pre ih =>
    show (match lastIndex c (pre ++ c :: post) with
      | some i => some (i + 1)
      | none => if x = c then some 0 else none) = some (pre.length + 1)
    rw [ih]

/-- Every character `Nat.toDigitsCore` adds is the character of a digit below
the base. -/
theorem toDigitsCore_chars (b : Nat) (hb : 0 < b) (fuel n : Nat) (ds : List Char) :
    ∀ c ∈ Nat.toDigitsCore b fuel n ds, c ∈ ds ∨ ∃ d, d < b ∧ c = Nat.digitChar d := by
  induction fuel generalizing n ds with
  | zero =>
    intro c hc
    exact Or.inl hc
  | succ f ih =>
    intro c hc
    simp only [Nat.toDigitsCore] at hc
    by_cases h : n / b = 0
    · simp only [h, if_true, List.mem_cons] at hc
      rcases hc with hc | hc
      · exact Or.inr ⟨n % b, Nat.mod_lt n hb, hc⟩
      · exact Or.inl hc
    · simp only [h, if_false] at hc
      rcases ih (n / b) _ c hc with hin | hd
      · simp only [List.mem_cons] at hin
        rcases hin with hin | hin
        · exact Or.inr ⟨n % b, Nat.mod_lt n hb, hin⟩
        · exact Or.inl hin
      · exact Or.inr hd

theorem digitChar_ne_paren : ∀ d, d < 10 → Nat.digitChar d ≠ ')' := by
  decide

/-- The decimal numeral of an integer holds no closing parenthesis. -/
theorem paren_not_in_numeral (z : Int) : ')' ∉ (toString z).data := by
  have hnat : ∀ n : Nat, ')' ∉ (toString n).data := by
    intro n hc
    have hc2 : ')' ∈ Nat.toDigitsCore 10 (n + 1) n [] := hc
    rcases toDigitsCore_chars 10 (by norm_num) (n + 1) n [] _ hc2 with hin | ⟨d, hd, he⟩
    · cases hin
    · exact digitChar_ne_paren d hd he.symm
  cases z with
  | ofNat m => exact hnat m
  | negSucc m =>
    intro hc
    have hc2 : ')' ∈ ("-" ++ toString (m + 1)).data := hc
    rw [String.data_append, List.mem_append] at hc2
    rcases hc2 with hc2 | hc2
    · simp at hc2
    · exact hnat (m + 1) hc2

end OsSim

namespace OsSim

/-- Member function `parseMetaToken` on a token of the form code character,
"(", descriptor text, ")", cycles text, where the cycles text holds no ")":
the result is decided by the code character, the descriptor text and the
conversion of the cycles text. -/
theorem parseMetaToken_shape (env : Env) (sim : Simulator) (data : Metadata) (c : Char)
    (dl cyc : List Char) (hc : c ≠ '(') (hcyc : ')' ∉ cyc) (hsmall : dl.length + 3 < 2 ^ 32) :
    parseMetaToken env sim (String.mk (c :: '(' :: (dl ++ ')' :: cyc))) data =
      match codeOfChar c.toUpper with
      | none =>
          Except.ok (false, data,
            { sim with
              m_error := "Unknown m_metadata code in entry \"" ++
                String.mk (c :: '(' :: (dl ++ ')' :: cyc)) ++ "\"" })
      | some code =>
          match descOfText (dl.map Char.toUpper) with
          | none =>
              Except.ok (false, { data with code := code },
                { sim with
                  m_error := "Unknown m_metadata descriptor in entry \"" ++
                    String.mk (c :: '(' :: (dl ++ ')' :: cyc)) ++ "\"" })
          | some descriptor =>
              match env.stoi (String.mk cyc) with
              | none =>
                  Except.ok (false, { data with code := code, descriptor := descriptor },
                    { sim with
                      m_error := "Invalid m_metadata cycle number in entry \"" ++
                        String.mk (c :: '(' :: (dl ++ ')' :: cyc)) ++ "\"" })
              | some cycles =>
                  Except.ok (true,
                    { code := code, descriptor := descriptor, cycles := cycles }, sim) := by
  have h32 : (2 : Nat) ^ 32 = 4294967296 := by norm_num
  have hfirst : toUnsigned (firstIndex '(' (c :: '(' :: (dl ++ ')' :: cyc))) = 1 := by
    simp [firstIndex, hc, toUnsigned]
  have hlast : toUnsigned (lastIndex ')' (c :: '(' :: (dl ++ ')' :: cyc))) = dl.length + 2 := by
    have h := lastIndex_append ')' (c :: '(' :: dl) cyc hcyc
    simp only [List.cons_append, List.length_cons] at h
    rw [h]
    simp only [toUnsigned, Option.getD_some]
    exact Nat.mod_eq_of_lt (by omega)
  have hstart : (1 + 1) % 2 ^ 32 = 2 := by norm_num
  have hcount : (dl.length + 2 + 2 ^ 32 - 2) % 2 ^ 32 = dl.length := by
    rw [h32] at hsmall ⊢
    omega
  have hsub1 : substr (c :: '(' :: (dl ++ ')' :: cyc)) 2 dl.length = some dl := by
    simp [substr]
  have hcstart : (dl.length + 2 + 1) % 2 ^ 32 = dl.length + 3 := by
    rw [h32] at hsmall ⊢
    omega
  have hsub2 : substr (c :: '(' :: (dl ++ ')' :: cyc)) (dl.length + 3)
      ((c :: '(' :: (dl ++ ')' :: cyc)).length - (dl.length + 3)) = some cyc := by
    have hdrop : (c :: '(' :: (dl ++ ')' :: cyc)).drop (dl.length + 3) = cyc := by
      have e : c :: '(' :: (dl ++ ')' :: cyc) = (c :: '(' :: dl ++ [')']) ++ cyc := by simp
      rw [e]
      exact List.drop_left' (by simp)
    have hle : ¬ (dl.length + 3 > (c :: '(' :: (dl ++ ')' :: cyc)).length) := by
      simp only [List.length_cons, List.length_append]
      omega
    simp only [substr, hle, if_false, hdrop]
    rw [List.take_of_length_le]
    simp only [List.length_cons, List.length_append]
    omega
  unfold parseMetaToken
  simp only [List.head?_cons, hfirst, hlast, hstart, hcount, hsub1, hcstart, hsub2]

end OsSim

namespace OsSim

/-- The printed code is one character that is not "(" and that the parser
maps back to the code. -/
theorem code_letter (code : MetaCode) :
    ∃ c : Char, (metaCodeToString code).data = [c] ∧ c ≠ '(' ∧
      codeOfChar c.toUpper = some code := by
  cases code
  · exact ⟨'S', rfl, by decide, by decide⟩
  · exact ⟨'A', rfl, by decide, by decide⟩
  · exact ⟨'P', rfl, by decide, by decide⟩
  · exact ⟨'I', rfl, by decide, by decide⟩
  · exact ⟨'O', rfl, by decide, by decide⟩
  · exact ⟨'M', rfl, by decide, by decide⟩

/-- The printed descriptor, in capitals, is recognised by the parser, except
"hard drive", which the parser spells "HARDDRIVE". -/
theorem descriptor_text (desc : MetaDesc) :
    (metaDescToString desc).data.length + 3 < 2 ^ 32 ∧
      descOfText ((metaDescToString desc).data.map Char.toUpper) =
        if desc = MetaDesc.M_HARD_DRIVE then none else some desc := by
  cases desc <;> exact ⟨by decide, by decide⟩

/-- C40: for every Metadata value m (any code, any descriptor, any cycle
count that `std::stoi` reads back from its `std::to_string` text),
`parseMetaToken` applied to `metadataToString(m)` returns true with code,
descriptor and cycles equal to those of m when the descriptor is not the
hard-drive descriptor, and for the hard-drive descriptor returns false with
the error "Unknown m_metadata descriptor in entry" quoting the printed form
"hard drive"; so it succeeds iff the descriptor is not the hard-drive one. -/
theorem metadata_round_trip (env : Env) (sim : Simulator) (data m : Metadata)
    (hstoi : env.stoi (toString m.cycles) = some m.cycles) :
    parseMetaToken env sim (metadataToString m) data =
        (if m.descriptor = MetaDesc.M_HARD_DRIVE then
          Except.ok (false, { data with code := m.code },
            { sim with
              m_error := "Unknown m_metadata descriptor in entry \"" ++ metadataToString m ++
                "\"" })
        else Except.ok (true, m, sim)) ∧
      ((parseMetaToken env sim (metadataToString m) data).toOption.map (fun r => r.1) = some true ↔
        m.descriptor ≠ MetaDesc.M_HARD_DRIVE) := by
  rcases m with ⟨code, desc, cyc⟩
  rcases code_letter code with ⟨c, hdata, hc, hcode⟩
  have hdesc := descriptor_text desc
  have htok : metadataToString ⟨code, desc, cyc⟩ =
      String.mk (c :: '(' :: ((metaDescToString desc).data ++ ')' :: (toString cyc).data)) := by
    apply String.ext
    simp [metadataToString, String.data_append, hdata]
  have hnum : String.mk (toString cyc).data = toString cyc := rfl
  have hmain : parseMetaToken env sim (metadataToString ⟨code, desc, cyc⟩) data =
      (if desc = MetaDesc.M_HARD_DRIVE then
        Except.ok (false, { data with code := code },
          { sim with
            m_error := "Unknown m_metadata descriptor in entry \"" ++
              metadataToString ⟨code, desc, cyc⟩ ++ "\"" })
      else Except.ok (true, ⟨code, desc, cyc⟩, sim)) := by
    rw [htok, parseMetaToken_shape env sim data c (metaDescToString desc).data
      (toString cyc).data hc (paren_not_in_numeral cyc) hdesc.1, hcode, hdesc.2, hnum]
    simp only at hstoi
    by_cases hh : desc = MetaDesc.M_HARD_DRIVE
    · simp only [hh, if_true]
    · simp only [hh, if_false, hstoi]
  refine ⟨hmain, ?_⟩
  rw [hmain]
  by_cases hh : desc = MetaDesc.M_HARD_DRIVE
  · simp [hh, Except.toOption]
  · simp [hh, Except.toOption]

/-- The entry P(run)3 is printed and read back; the entry I(hard drive)7 is
printed with a blank and rejected. -/
theorem metadata_round_trip_witness :
    parseMetaToken decimalEnv (loaded sampleConfig [])
        (metadataToString
          { code := MetaCode.M_PROCESS, descriptor := MetaDesc.M_RUN, cycles := 3 })
        { code := MetaCode.M_OPER_SYS, descriptor := MetaDesc.M_START, cycles := 0 } =
      Except.ok (true,
        { code := MetaCode.M_PROCESS, descriptor := MetaDesc.M_RUN, cycles := 3 },
        loaded sampleConfig []) ∧
    (parseMetaToken decimalEnv (loaded sampleConfig [])
        (metadataToString
          { code := MetaCode.M_INPUT, descriptor := MetaDesc.M_HARD_DRIVE, cycles := 7 })
        { code := MetaCode.M_OPER_SYS, descriptor := MetaDesc.M_START, cycles := 0 }
      ).toOption.map (fun r => (r.1, r.2.2.m_error)) =
      some (false, "Unknown m_metadata descriptor in entry \"I(hard drive)7\"") :=
  ⟨(metadata_round_trip decimalEnv (loaded sampleConfig [])
      { code := MetaCode.M_OPER_SYS, descriptor := MetaDesc.M_START, cycles := 0 }
      { code := MetaCode.M_PROCESS, descriptor := MetaDesc.M_RUN, cycles := 3 }
      (by decide)).1,
    by decide⟩

end OsSim
